import Mathlib

/-!
# clock-server: dispatch pipeline and security gateway

A shallow embedding of the Go packages `internal/domain`, `internal/application`,
`internal/adapters/composite`, `internal/security`, `internal/api` and of the packet encoding
of `internal/adapters/mqtt`, together with the few standard-library functions they call
(`strings`, `errors`, `fmt`, `time`, `net`, `encoding/binary`).

Conventions.
* A Go `string` is a Lean `String`; the `strings` helpers work on its list of characters.
* A Go `error` is an `Option GoError` (`none` is `nil`).
* Code that reads or writes mutable state is a function from the state before to the result
  and the state after.  Every `time.Now()` reading is an explicit argument.
* Go `int` fields that are only compared (levels, durations, limits, counts) are `Int`.
* A byte is a natural number below 256 and a byte slice a list of them; conversions that
  truncate (`byte(...)`, `uint16(...)`) are written with `%`.
-/

namespace ClockServer

/-! ## Standard library: `unicode`, `strings` -/

namespace unicode

/-- Go `unicode.IsSpace`: the Latin-1 spaces `\t \n \v \f \r ' ' U+0085 U+00A0` and the
other code points with the White_Space property. -/
def IsSpace (r : Char) : Bool :=
  let n := r.toNat
  n == 0x09 || n == 0x0A || n == 0x0B || n == 0x0C || n == 0x0D || n == 0x20 ||
  n == 0x85 || n == 0xA0 || n == 0x1680 || (decide (0x2000 ≤ n) && decide (n ≤ 0x200A)) ||
  n == 0x2028 || n == 0x2029 || n == 0x202F || n == 0x205F || n == 0x3000

end unicode

namespace strings

/-- Characters left after removing the leading and trailing white space. -/
def trimChars (cs : List Char) : List Char :=
  ((cs.dropWhile unicode.IsSpace).reverse.dropWhile unicode.IsSpace).reverse

/-- Go `strings.TrimSpace`. -/
def TrimSpace (s : String) : String := String.mk (trimChars s.data)

/-- Go `strings.HasPrefix`. -/
def HasPrefix (s pfx : String) : Bool := pfx.data.isPrefixOf s.data

/-- Go `strings.HasSuffix`. -/
def HasSuffix (s sfx : String) : Bool := sfx.data.isSuffixOf s.data

/-- Go `strings.TrimPrefix`: `s` without the leading `pfx`, or `s` itself. -/
def TrimPrefix (s pfx : String) : String :=
  if HasPrefix s pfx then String.mk (s.data.drop pfx.data.length) else s

/-- Go `strings.TrimSuffix`: `s` without the trailing `sfx`, or `s` itself. -/
def TrimSuffix (s sfx : String) : String :=
  if HasSuffix s sfx then String.mk (s.data.take (s.data.length - sfx.data.length)) else s

/-- Go `strings.Contains`, as a proposition: `substr` occurs inside `s`. -/
def Contains (s substr : String) : Prop := substr.data <:+: s.data

/-- Go `strings.Join`. -/
def Join (elems : List String) (sep : String) : String := sep.intercalate elems

end strings

/-! ## Standard library: `errors`, `fmt` -/

/-- The error values this repository builds.
* `sentinel name s`: a package-level variable initialised with `errors.New(s)`; it is compared by
  identity, which its qualified `name` stands for.
* `errorString s`: a value allocated during a call by `errors.New(s)` or by `fmt.Errorf`
  without `%w`.
* `validationError m`: the struct value `domain.ValidationError{Message: m}`.
* `wrapError msg err`: `fmt.Errorf` with one `%w`; `wrapErrors msg errs`: with several.
* `joinError errs`: `errors.Join`.
An error coming from the standard library is represented by the constructor of the same shape:
a leaf value or a wrapper.  Equality of allocated values is equality of their contents. -/
inductive GoError where
  | sentinel (name : String) (s : String)
  | errorString (s : String)
  | validationError (message : String)
  | wrapError (msg : String) (err : GoError)
  | wrapErrors (msg : String) (errs : List GoError)
  | joinError (errs : List GoError)

namespace GoError

mutual
/-- Go `==` on two error values. -/
def beq : GoError → GoError → Bool
  | sentinel n s, sentinel m t => n == m && s == t
  | errorString s, errorString t => s == t
  | validationError s, validationError t => s == t
  | wrapError m e, wrapError n f => m == n && beq e f
  | wrapErrors m es, wrapErrors n fs => m == n && beqList es fs
  | joinError es, joinError fs => beqList es fs
  | _, _ => false
/-- Pointwise `==` on two lists of error values. -/
def beqList : List GoError → List GoError → Bool
  | [], [] => true
  | e :: es, f :: fs => beq e f && beqList es fs
  | _, _ => false
end

mutual
/-- The method `Error()`: the message of an error value. -/
def Error : GoError → String
  | sentinel _ s => s
  | errorString s => s
  | validationError m => m
  | wrapError msg _ => msg
  | wrapErrors msg _ => msg
  | joinError errs => strings.Join (ErrorList errs) "\n"
/-- The messages of a list of error values. -/
def ErrorList : List GoError → List String
  | [] => []
  | e :: es => Error e :: ErrorList es
end

end GoError

namespace errors

mutual
/-- Go `errors.Is(err, target)` for non-nil `err` and `target`: `err` equals `target`, or an
error reached through `Unwrap() error` or `Unwrap() []error` does (depth first). -/
def IsErr (target : GoError) : GoError → Bool
  | .sentinel n s => GoError.beq (.sentinel n s) target
  | .errorString s => GoError.beq (.errorString s) target
  | .validationError m => GoError.beq (.validationError m) target
  | .wrapError m e => GoError.beq (.wrapError m e) target || IsErr target e
  | .wrapErrors m es => GoError.beq (.wrapErrors m es) target || IsAny target es
  | .joinError es => GoError.beq (.joinError es) target || IsAny target es
/-- Some error of the list satisfies `IsErr target`. -/
def IsAny (target : GoError) : List GoError → Bool
  | [] => false
  | e :: es => IsErr target e || IsAny target es
end

/-- Go `errors.Is(err, target)` with a non-nil `target`; a nil `err` never matches. -/
def Is (err : Option GoError) (target : GoError) : Bool :=
  match err with
  | none => false
  | some e => IsErr target e

mutual
/-- Go `errors.As(err, &v)` with `v` of type `domain.ValidationError`: the message of the
first `ValidationError` in the chain of `err` (depth first), if there is one. -/
def AsValidationError : GoError → Option String
  | .sentinel _ _ => none
  | .errorString _ => none
  | .validationError m => some m
  | .wrapError _ e => AsValidationError e
  | .wrapErrors _ es => AsValidationErrorAny es
  | .joinError es => AsValidationErrorAny es
/-- The first `ValidationError` found in a list of errors. -/
def AsValidationErrorAny : List GoError → Option String
  | [] => none
  | e :: es =>
    match AsValidationError e with
    | some m => some m
    | none => AsValidationErrorAny es
end

/-- Go `errors.New` called while serving a request. -/
def New (text : String) : GoError := .errorString text

/-- Go `errors.Join` on a list of non-nil errors: `nil` when the list is empty. -/
def Join (errs : List GoError) : Option GoError :=
  if errs.isEmpty then none else some (.joinError errs)

end errors

namespace fmt

/-- One piece of a format string with its operand: literal text, `%s`, `%d`, `%w`, or `%v` of
a byte slice. -/
inductive Piece where
  | lit (text : String)
  | s (arg : String)
  | d (arg : Int)
  | w (arg : GoError)
  | v (arg : List Nat)

/-- The text a piece prints; a byte slice under `%v` prints as `[32 2]`. -/
def Piece.render : Piece → String
  | .lit text => text
  | .s arg => arg
  | .d arg => toString arg
  | .w arg => arg.Error
  | .v arg => "[" ++ " ".intercalate (arg.map toString) ++ "]"

/-- The `%w` operands of a format, in order. -/
def wrapped : List Piece → List GoError
  | [] => []
  | .w e :: ps => e :: wrapped ps
  | _ :: ps => wrapped ps

/-- Go `fmt.Sprintf`. -/
def Sprintf (ps : List Piece) : String := String.join (ps.map Piece.render)

/-- Go `fmt.Errorf`: the message is the formatted text; no `%w` gives a plain error, one `%w`
gives a `wrapError`, several give a `wrapErrors` holding the operands in order. -/
def Errorf (ps : List Piece) : GoError :=
  match wrapped ps with
  | [] => .errorString (Sprintf ps)
  | [e] => .wrapError (Sprintf ps) e
  | es => .wrapErrors (Sprintf ps) es

end fmt

/-! ## Standard library: `time` -/

namespace time

/-- A `time.Time`: nanoseconds since January 1, year 1, 00:00:00 UTC, so that the zero
`Time` is `0`. -/
structure Time where
  nsec : Int
deriving DecidableEq

/-- A `time.Duration`: a count of nanoseconds. -/
abbrev Duration := Int

/-- Go `time.Minute`. -/
def Minute : Duration := 60000000000

/-- The largest `Duration`, `1<<63 - 1`. -/
def maxDuration : Duration := 9223372036854775807

/-- The smallest `Duration`, `-1 << 63`. -/
def minDuration : Duration := -9223372036854775808

/-- Go `Time.IsZero`. -/
def Time.IsZero (t : Time) : Bool := t.nsec == 0

/-- Go `Time.Add`. -/
def Time.Add (t : Time) (d : Duration) : Time := ⟨t.nsec + d⟩

/-- Go `Time.Before`. -/
def Time.Before (t u : Time) : Bool := decide (t.nsec < u.nsec)

/-- Go `Time.Sub`: the difference `t - u`, saturated to the range of `Duration`. -/
def Time.Sub (t u : Time) : Duration :=
  let d := t.nsec - u.nsec
  if d > maxDuration then maxDuration else if d < minDuration then minDuration else d

end time

/-! ## Package `domain` -/

namespace domain

/-- Go `NewValidationError`. -/
def NewValidationError (message : String) : GoError := .validationError message

/-- Go `NewValidationErrorf`. -/
def NewValidationErrorf (ps : List fmt.Piece) : GoError := .validationError (fmt.Sprintf ps)

/-- Go `SetAlarmCommand`. -/
structure SetAlarmCommand where
  DeviceID : String
  AlarmTime : time.Time
  Label : String

/-- Go `DisplayMessageCommand`. -/
structure DisplayMessageCommand where
  DeviceID : String
  Message : String
  DurationSeconds : Int

/-- Go `SetBrightnessCommand`. -/
structure SetBrightnessCommand where
  DeviceID : String
  Level : Int

/-- Any other implementation of the `ClockCommand` interface (the test suites define one),
given by what its four methods return. -/
structure OtherCommand where
  executeErr : Option GoError
  targetDeviceID : String
  commandType : String
  validateErr : Option GoError

/-- A non-nil value of the interface `ClockCommand`. -/
inductive ClockCommand where
  | SetAlarm (c : SetAlarmCommand)
  | DisplayMessage (c : DisplayMessageCommand)
  | SetBrightness (c : SetBrightnessCommand)
  | Other (c : OtherCommand)

/-- Go `SetAlarmCommand.Validate`; `rfc3339 t` is `t.Format(time.RFC3339)` and `now` is the
reading of `time.Now()`. -/
def SetAlarmCommand.Validate (rfc3339 : time.Time → String) (now : time.Time)
    (c : SetAlarmCommand) : Option GoError :=
  if strings.TrimSpace c.DeviceID == "" then
    some (NewValidationError "device id is required")
  else if c.AlarmTime.IsZero then
    some (NewValidationError "alarm time is required")
  else if c.AlarmTime.Before (now.Add (-1 * time.Minute)) then
    some (NewValidationErrorf [.lit "alarm time ", .s (rfc3339 c.AlarmTime), .lit " is in the past"])
  else
    none

/-- Go `DisplayMessageCommand.Validate`. -/
def DisplayMessageCommand.Validate (c : DisplayMessageCommand) : Option GoError :=
  if strings.TrimSpace c.DeviceID == "" then
    some (NewValidationError "device id is required")
  else if strings.TrimSpace c.Message == "" then
    some (NewValidationError "message is required")
  else if c.DurationSeconds ≤ 0 then
    some (NewValidationError "duration seconds must be greater than zero")
  else if c.DurationSeconds > 3600 then
    some (NewValidationError "duration seconds must be less than or equal to 3600")
  else
    none

/-- Go `SetBrightnessCommand.Validate`. -/
def SetBrightnessCommand.Validate (c : SetBrightnessCommand) : Option GoError :=
  if strings.TrimSpace c.DeviceID == "" then
    some (NewValidationError "device id is required")
  else if c.Level < 0 || c.Level > 100 then
    some (NewValidationError "brightness level must be between 0 and 100")
  else
    none

namespace ClockCommand

/-- The method `Validate()`. -/
def Validate (rfc3339 : time.Time → String) (now : time.Time) : ClockCommand → Option GoError
  | SetAlarm c => c.Validate rfc3339 now
  | DisplayMessage c => c.Validate
  | SetBrightness c => c.Validate
  | Other c => c.validateErr

/-- The method `Execute(ctx)`: for the three domain commands it returns `c.Validate()`. -/
def Execute (rfc3339 : time.Time → String) (now : time.Time) : ClockCommand → Option GoError
  | SetAlarm c => c.Validate rfc3339 now
  | DisplayMessage c => c.Validate
  | SetBrightness c => c.Validate
  | Other c => c.executeErr

/-- The method `TargetDeviceID()`. -/
def TargetDeviceID : ClockCommand → String
  | SetAlarm c => strings.TrimSpace c.DeviceID
  | DisplayMessage c => strings.TrimSpace c.DeviceID
  | SetBrightness c => strings.TrimSpace c.DeviceID
  | Other c => c.targetDeviceID

/-- The method `CommandType()`. -/
def CommandType : ClockCommand → String
  | SetAlarm _ => "set_alarm"
  | DisplayMessage _ => "display_message"
  | SetBrightness _ => "set_brightness"
  | Other c => c.commandType

/-- The command is one of the three variants defined in package `domain`. -/
def isDomain : ClockCommand → Bool
  | Other _ => false
  | _ => true

end ClockCommand

end domain

/-! ## Package `application` -/

namespace application

open domain

/-- Go `ErrValidation`. -/
def ErrValidation : GoError := .sentinel "application.ErrValidation" "validation error"

/-- Go `ErrDownstream`. -/
def ErrDownstream : GoError := .sentinel "application.ErrDownstream" "downstream error"

/-- The interface `ClockCommandSender`: `Send(ctx, cmd)` is a transition on the state `σ` of
everything the sender touches (connections, the remote side) that returns an error or `nil`. -/
structure ClockCommandSender (σ : Type) where
  Send : ClockCommand → σ → Option GoError × σ

/-- Go `CommandDispatcher`. -/
structure CommandDispatcher (σ : Type) where
  sender : ClockCommandSender σ

/-- Go `NewCommandDispatcher`. -/
def NewCommandDispatcher {σ : Type} (sender : ClockCommandSender σ) : CommandDispatcher σ :=
  { sender := sender }

/-- What one call of `Dispatch` does: the error returned, the state after, and the commands
handed to `d.sender.Send`, in order. -/
structure DispatchResult (σ : Type) where
  err : Option GoError
  state : σ
  sends : List ClockCommand

/-- Go `CommandDispatcher.Dispatch`; `cmd = none` is the nil command. -/
def CommandDispatcher.Dispatch {σ : Type} (d : CommandDispatcher σ)
    (rfc3339 : time.Time → String) (now : time.Time)
    (cmd : Option ClockCommand) (st : σ) : DispatchResult σ :=
  match cmd with
  | none =>
    { err := some (fmt.Errorf [.w ErrValidation, .lit ": command is required"]),
      state := st, sends := [] }
  | some cmd =>
    match cmd.Execute rfc3339 now with
    | some err =>
      if (errors.AsValidationError err).isSome then
        { err := some (fmt.Errorf [.w ErrValidation, .lit ": execute command ",
            .s cmd.CommandType, .lit ": ", .w err]),
          state := st, sends := [] }
      else
        { err := some (fmt.Errorf [.w ErrDownstream, .lit ": execute command ",
            .s cmd.CommandType, .lit ": ", .w err]),
          state := st, sends := [] }
    | none =>
      match d.sender.Send cmd st with
      | (some err, st1) =>
        { err := some (fmt.Errorf [.w ErrDownstream, .lit ": send command ",
            .s cmd.CommandType, .lit ": ", .w err]),
          state := st1, sends := [cmd] }
      | (none, st1) => { err := none, state := st1, sends := [cmd] }


/-- The interface `ReadinessChecker`: `Check(ctx)` is a transition on the state `σ`. -/
structure ReadinessChecker (σ : Type) where
  Check : σ → Option GoError × σ

end application

/-! ## Package `composite` -/

namespace composite

open domain application

/-- Go `composite.Sender`: the configured senders in order; `none` is a nil entry. -/
structure Sender (σ : Type) where
  senders : List (Option (ClockCommandSender σ))

/-- Go `composite.NewSender`. -/
def NewSender {σ : Type} (senders : List (Option (ClockCommandSender σ))) : Sender σ :=
  { senders := senders }

/-- The variables of the loop in `Send`: the slice `errs`, the state reached, and the calls
`sender.Send(ctx, cmd)` made so far as pairs of the entry index and the command passed. -/
structure LoopState (σ : Type) where
  errs : List GoError
  state : σ
  calls : List (Nat × ClockCommand)

/-- The `for idx, sender := range s.senders` loop of `Send`, from index `idx` on. -/
def sendLoop {σ : Type} (cmd : ClockCommand) :
    Nat → List (Option (ClockCommandSender σ)) → LoopState σ → LoopState σ
  | _, [], acc => acc
  | idx, none :: rest, acc =>
    sendLoop cmd (idx + 1) rest
      { acc with errs := acc.errs ++ [fmt.Errorf [.lit "sender at index ", .d idx, .lit " is nil"]] }
  | idx, some sender :: rest, acc =>
    match sender.Send cmd acc.state with
    | (some err, st1) =>
      sendLoop cmd (idx + 1) rest
        { errs := acc.errs ++ [fmt.Errorf [.lit "sender ", .d idx, .lit " failed: ", .w err]],
          state := st1, calls := acc.calls ++ [(idx, cmd)] }
    | (none, st1) =>
      sendLoop cmd (idx + 1) rest
        { errs := acc.errs, state := st1, calls := acc.calls ++ [(idx, cmd)] }

/-- What one call of `Send` does: the error returned, the state after, and the calls made to
the entries. -/
structure SendResult (σ : Type) where
  err : Option GoError
  state : σ
  calls : List (Nat × ClockCommand)

/-- Go `composite.Sender.Send`. -/
def Sender.Send {σ : Type} (s : Sender σ) (cmd : ClockCommand) (st : σ) : SendResult σ :=
  if s.senders.length == 0 then
    { err := some (errors.New "no command senders configured"), state := st, calls := [] }
  else
    let r := sendLoop cmd 0 s.senders { errs := [], state := st, calls := [] }
    if r.errs.length > 0 then
      { err := errors.Join r.errs, state := r.state, calls := r.calls }
    else
      { err := none, state := r.state, calls := r.calls }

/-- The composite sender as a `ClockCommandSender`; the state is paired with the record of the
calls made to the entries. -/
def Sender.asSender {σ : Type} (s : Sender σ) :
    ClockCommandSender (σ × List (Nat × ClockCommand)) where
  Send cmd st :=
    let r := s.Send cmd st.1
    (r.err, (r.state, st.2 ++ r.calls))

/-- What each entry does in one run of `Send` from the state `st`: `none` for a nil entry,
otherwise `some r` with `r` the value its `Send` returns when its turn comes. -/
def outcomes {σ : Type} (cmd : ClockCommand) :
    List (Option (ClockCommandSender σ)) → σ → List (Option (Option GoError))
  | [], _ => []
  | none :: rest, st => none :: outcomes cmd rest st
  | some sender :: rest, st =>
    (some (sender.Send cmd st).1) :: outcomes cmd rest (sender.Send cmd st).2

/-- An entry fails when it is nil or its `Send` returns an error. -/
def failed : Option (Option GoError) → Bool
  | some none => false
  | _ => true

/-- The error the entry at index `idx` contributes, if it fails. -/
def contribution (idx : Nat) : Option (Option GoError) → Option GoError
  | none => some (.errorString ("sender at index " ++ toString idx ++ " is nil"))
  | some (some e) => some (.wrapError ("sender " ++ toString idx ++ " failed: " ++ e.Error) e)
  | some none => none

/-- The contributions of the failing entries, in index order, the first entry having index
`idx`. -/
def contributions (idx : Nat) (os : List (Option (Option GoError))) : List GoError :=
  (os.enumFrom idx).filterMap (fun p => contribution p.1 p.2)

/-- The calls expected of `Send`: one per non-nil entry, in list order, each with the index of
the entry (the first having index `idx`) and the command `cmd`. -/
def expectedCalls {σ : Type} (cmd : ClockCommand) (idx : Nat)
    (senders : List (Option (ClockCommandSender σ))) : List (Nat × ClockCommand) :=
  (senders.enumFrom idx).filterMap (fun p => p.2.map (fun _ => (p.1, cmd)))

end composite

/-! ## Package `security` -/

namespace security

/-- Go `security.Credential`. -/
structure Credential where
  ID : String
  Token : String
  Devices : List String

/-- The `for _, scope := range c.Devices` loop of `Allows`, on the trimmed device id. -/
def allowsLoop (deviceID : String) : List String → Bool
  | [] => false
  | scope :: rest =>
    let scope := strings.TrimSpace scope
    if scope == "*" then true
    else if strings.HasSuffix scope "*" then
      let pfx := strings.TrimSuffix scope "*"
      if strings.HasPrefix deviceID pfx then true
      else allowsLoop deviceID rest
    else if deviceID == scope then true
    else allowsLoop deviceID rest

/-- Go `Credential.Allows`. -/
def Credential.Allows (c : Credential) (deviceID : String) : Bool :=
  allowsLoop (strings.TrimSpace deviceID) c.Devices

end security

/-! ## Standard library: `net`, `net/http` -/

namespace net

/-- Index of the first occurrence of `c`, as `strings.IndexByte`. -/
def indexByte (cs : List Char) (c : Char) : Option Nat :=
  if cs.contains c then some (cs.indexOf c) else none

/-- Index of the last occurrence of `c`, as `strings.LastIndexByte`. -/
def lastIndexByte (cs : List Char) (c : Char) : Option Nat :=
  if cs.contains c then some (cs.length - 1 - cs.reverse.indexOf c) else none

/-- Go `net.SplitHostPort`: the host and the port of `host:port`, `[host]:port`; `none` is an
error (no colon, too many colons, misplaced brackets). -/
def SplitHostPort (hostport : String) : Option (String × String) :=
  let cs := hostport.data
  match lastIndexByte cs ':' with
  | none => none
  | some i =>
    if cs.head? == some '[' then
      match indexByte cs ']' with
      | none => none
      | some e =>
        if e + 1 == cs.length then none
        else if e + 1 == i then
          if (cs.drop 1).contains '[' then none
          else if (cs.drop (e + 1)).contains ']' then none
          else some (String.mk ((cs.take e).drop 1), String.mk (cs.drop (i + 1)))
        else none
    else
      if (cs.take i).contains ':' then none
      else if cs.contains '[' then none
      else if cs.contains ']' then none
      else some (String.mk (cs.take i), String.mk (cs.drop (i + 1)))

end net

namespace http

/-- The status codes used by the handlers. -/
def StatusOK : Nat := 200

/-- Go `http.StatusAccepted`. -/
def StatusAccepted : Nat := 202

/-- Go `http.StatusBadRequest`. -/
def StatusBadRequest : Nat := 400

/-- Go `http.StatusUnauthorized`. -/
def StatusUnauthorized : Nat := 401

/-- Go `http.StatusForbidden`. -/
def StatusForbidden : Nat := 403

/-- Go `http.StatusMethodNotAllowed`. -/
def StatusMethodNotAllowed : Nat := 405

/-- Go `http.StatusUpgradeRequired`. -/
def StatusUpgradeRequired : Nat := 426

/-- Go `http.StatusTooManyRequests`. -/
def StatusTooManyRequests : Nat := 429

/-- Go `http.StatusInternalServerError`. -/
def StatusInternalServerError : Nat := 500

/-- Go `http.StatusBadGateway`. -/
def StatusBadGateway : Nat := 502

/-- Go `http.StatusServiceUnavailable`. -/
def StatusServiceUnavailable : Nat := 503

end http

/-! ## Package `api` -/

namespace api

open domain application

/-- Go `principal`, the value stored in the request context under `principalContextKey`. -/
structure principal where
  ID : String
  Devices : List String

/-- The parts of an `*http.Request` the middleware and the handlers read: `Header k` is
`r.Header.Get(k)` (empty when the header is absent), `TLS` is `r.TLS != nil`, `Path` is
`r.URL.Path`, `Body` is the content of `r.Body`, and `ctxPrincipal` is the principal bound to
the request context, if any. -/
structure Request where
  Method : String
  Path : String
  RemoteAddr : String
  TLS : Bool
  Header : String → String
  Body : String
  ctxPrincipal : Option principal

/-- An `http.ResponseWriter`: the response headers, the status code written, and the JSON
object written as the body, as its list of members. -/
structure ResponseWriter where
  Header : String → String
  Code : Nat
  Body : List (String × String)

/-- A fresh response writer (status 200 until a handler writes one, nothing written). -/
def NewRecorder : ResponseWriter := { Header := fun _ => "", Code := 200, Body := [] }

/-- An `http.Handler` whose effects besides the response are on the state `σ`. -/
abbrev HttpHandler (σ : Type) := ResponseWriter → Request → σ → ResponseWriter × σ

/-- Go `authFailureEntry`.  The count starts at 1 and grows by one per recorded failure, so it
stays far below the range of `int`. -/
structure authFailureEntry where
  windowStart : time.Time
  count : Int
deriving DecidableEq

/-- Go `authFailureLimiter` (the mutex aside): `entries key` is `none` when the map has no
entry for `key`. -/
structure authFailureLimiter where
  limit : Int
  window : time.Duration
  entries : String → Option authFailureEntry

/-- Go `newAuthFailureLimiter`. -/
def newAuthFailureLimiter (limit : Int) : authFailureLimiter :=
  { limit := limit, window := time.Minute, entries := fun _ => none }

/-- Go `authFailureLimiter.IsBlocked`, with `now` the reading of `time.Now()`: the answer and
the limiter after the call. -/
def authFailureLimiter.IsBlocked (l : authFailureLimiter) (now : time.Time) (key : String) :
    Bool × authFailureLimiter :=
  match l.entries key with
  | none => (false, l)
  | some entry =>
    if now.Sub entry.windowStart ≥ l.window then
      (false, { l with entries := Function.update l.entries key none })
    else
      (decide (entry.count ≥ l.limit), l)

/-- Go `authFailureLimiter.RecordFailure`, with `now` the reading of `time.Now()`. -/
def authFailureLimiter.RecordFailure (l : authFailureLimiter) (now : time.Time) (key : String) :
    authFailureLimiter :=
  match l.entries key with
  | none =>
    { l with entries := Function.update l.entries key (some { windowStart := now, count := 1 }) }
  | some entry =>
    if now.Sub entry.windowStart ≥ l.window then
      { l with entries := Function.update l.entries key (some { windowStart := now, count := 1 }) }
    else
      { l with entries := Function.update l.entries key (some { entry with count := entry.count + 1 }) }

/-- Go `Handler`.  The fields `authFailureRateLimiter` and `requestCounter` are mutable: the
functions below return the handler after the call. -/
structure Handler (σ : Type) where
  dispatcher : CommandDispatcher σ
  credentials : List security.Credential
  trustProxyTLS : Bool
  requireTLS : Bool
  readinessRequireAuth : Bool
  maxBodyBytes : Int
  authFailureRateLimiter : authFailureLimiter
  requestCounter : Nat
  checkers : List (Option (ReadinessChecker σ))

/-- Go `defaultBodyLimit`. -/
def defaultBodyLimit : Int := 64 * 1024

/-- Go `NewHandler`. -/
def NewHandler {σ : Type} (dispatcher : CommandDispatcher σ)
    (credentials : List security.Credential) (trustProxyTLS requireTLS readinessRequireAuth : Bool)
    (maxBodyBytes : Int) (authFailLimitPerMinute : Int)
    (checkers : List (Option (ReadinessChecker σ))) : Handler σ :=
  let maxBodyBytes := if maxBodyBytes ≤ 0 then defaultBodyLimit else maxBodyBytes
  let authFailLimitPerMinute := if authFailLimitPerMinute ≤ 0 then 60 else authFailLimitPerMinute
  { dispatcher := dispatcher,
    credentials := credentials,
    trustProxyTLS := trustProxyTLS,
    requireTLS := requireTLS,
    readinessRequireAuth := readinessRequireAuth,
    maxBodyBytes := maxBodyBytes,
    authFailureRateLimiter := newAuthFailureLimiter authFailLimitPerMinute,
    requestCounter := 0,
    checkers := checkers }

/-- Go `setSecurityHeaders`. -/
def setSecurityHeaders (w : ResponseWriter) : ResponseWriter :=
  let h1 := Function.update w.Header "X-Content-Type-Options" "nosniff"
  let h2 := Function.update h1 "Cache-Control" "no-store"
  let h3 := Function.update h2 "Pragma" "no-cache"
  { w with Header := h3 }

/-- Go `writeJSON`: the security headers, the content type, the status, and the payload. -/
def writeJSON (w : ResponseWriter) (status : Nat) (payload : List (String × String)) :
    ResponseWriter :=
  let w := setSecurityHeaders w
  { Header := Function.update w.Header "Content-Type" "application/json",
    Code := status,
    Body := payload }

/-- Go `writeError`. -/
def writeError (w : ResponseWriter) (status : Nat) (err : GoError) : ResponseWriter :=
  writeJSON w status [("error", err.Error)]

/-- Go `methodNotAllowed`. -/
def methodNotAllowed (w : ResponseWriter) : ResponseWriter :=
  writeError w http.StatusMethodNotAllowed (errors.New "method not allowed")

/-- Go `writeAppError`. -/
def writeAppError (w : ResponseWriter) (err : Option GoError) : ResponseWriter :=
  if errors.Is err ErrValidation then
    writeJSON w http.StatusBadRequest [("error", "invalid command")]
  else if errors.Is err ErrDownstream then
    writeJSON w http.StatusBadGateway [("error", "command dispatch failed")]
  else
    writeJSON w http.StatusInternalServerError [("error", "internal error")]

/-- Go `Handler.handleHealth`. -/
def Handler.handleHealth {σ : Type} (_h : Handler σ) : HttpHandler σ :=
  fun w _ st => (writeJSON w http.StatusOK [("status", "ok")], st)

/-- The `for _, checker := range h.checkers` loop of `handleReady`: `true` when every non-nil
checker succeeds; it stops at the first failing checker. -/
def readyLoop {σ : Type} : List (Option (ReadinessChecker σ)) → σ → Bool × σ
  | [], st => (true, st)
  | none :: rest, st => readyLoop rest st
  | some checker :: rest, st =>
    match checker.Check st with
    | (some _, st1) => (false, st1)
    | (none, st1) => readyLoop rest st1

/-- Go `Handler.handleReady`. -/
def Handler.handleReady {σ : Type} (h : Handler σ) : HttpHandler σ :=
  fun w r st =>
    if r.Method != "GET" then (methodNotAllowed w, st)
    else
      match readyLoop h.checkers st with
      | (false, st1) => (writeJSON w http.StatusServiceUnavailable [("status", "not_ready")], st1)
      | (true, st1) => (writeJSON w http.StatusOK [("status", "ready")], st1)

/-- Go `clientIP`. -/
def clientIP (r : Request) : String :=
  match net.SplitHostPort (strings.TrimSpace r.RemoteAddr) with
  | none => strings.TrimSpace r.RemoteAddr
  | some (host, _) => host

/-- Go `Handler.lookupCredential`; `subtle.ConstantTimeCompare` returns 1 exactly when the two
byte strings are equal. -/
def lookupCredential (credentials : List security.Credential) (token : String) :
    Option principal :=
  match credentials with
  | [] => none
  | cred :: rest =>
    if token == cred.Token then some { ID := cred.ID, Devices := cred.Devices }
    else lookupCredential rest token

/-- The code points that `strings.EqualFold` identifies with the ASCII character `a`: `a`
itself, the other case of a letter, and the two code points outside ASCII whose simple case
folding is an ASCII letter (the Kelvin sign for `k`, the long s for `s`). -/
def foldsToASCII (a c : Char) : Bool :=
  c == a || (a.isAlpha && c.isAlpha && c.toLower == a.toLower) ||
  (a.toLower == 'k' && c.toNat == 0x212A) || (a.toLower == 's' && c.toNat == 0x17F)

/-- Go `strings.EqualFold(s, t)` for a `t` of ASCII characters. -/
def equalFoldASCII : List Char → List Char → Bool
  | [], [] => true
  | c :: cs, a :: as => foldsToASCII a c && equalFoldASCII cs as
  | _, _ => false

/-- Go `Handler.isSecureRequest`. -/
def Handler.isSecureRequest {σ : Type} (h : Handler σ) (r : Request) : Bool :=
  if r.TLS then true
  else if !h.trustProxyTLS then false
  else equalFoldASCII (strings.TrimSpace (r.Header "X-Forwarded-Proto")).data "https".data

/-- Go `Handler.authMiddleware`, applied to the handler `next`: `tBlocked` and `tRecord` are the
readings of `time.Now()` inside `IsBlocked` and inside `RecordFailure`. -/
def Handler.authMiddleware {σ : Type} (h : Handler σ) (next : HttpHandler σ)
    (tBlocked tRecord : time.Time) (w : ResponseWriter) (r : Request) (st : σ) :
    ResponseWriter × Handler σ × σ :=
  let requestID := r.Header "X-Request-Id"
  let counter :=
    if strings.TrimSpace requestID == "" then (h.requestCounter + 1) % 2 ^ 64 else h.requestCounter
  let requestID :=
    if strings.TrimSpace requestID == "" then fmt.Sprintf [.lit "req-", .d counter] else requestID
  let h := { h with requestCounter := counter }
  let w := { w with Header := Function.update w.Header "X-Request-Id" requestID }
  if r.Path == "/health" then
    let (w1, st1) := next w r st
    (w1, h, st1)
  else if h.requireTLS && !h.isSecureRequest r then
    (writeJSON w http.StatusUpgradeRequired [("error", "https required")], h, st)
  else if r.Path == "/ready" && !h.readinessRequireAuth then
    let (w1, st1) := next w r st
    (w1, h, st1)
  else
    let remoteIP := clientIP r
    match h.authFailureRateLimiter.IsBlocked tBlocked remoteIP with
    | (true, l1) =>
      (writeJSON w http.StatusTooManyRequests [("error", "too many auth failures")],
        { h with authFailureRateLimiter := l1 }, st)
    | (false, l1) =>
      let h := { h with authFailureRateLimiter := l1 }
      let authHeader := r.Header "Authorization"
      if !strings.HasPrefix authHeader "Bearer " then
        (writeJSON w http.StatusUnauthorized [("error", "unauthorized")],
          { h with authFailureRateLimiter := l1.RecordFailure tRecord remoteIP }, st)
      else
        let token := strings.TrimSpace (strings.TrimPrefix authHeader "Bearer ")
        match lookupCredential h.credentials token with
        | none =>
          (writeJSON w http.StatusUnauthorized [("error", "unauthorized")],
            { h with authFailureRateLimiter := l1.RecordFailure tRecord remoteIP }, st)
        | some pr =>
          let (w1, st1) := next w { r with ctxPrincipal := some pr } st
          (w1, h, st1)

/-- A request served by the middleware together with the two clock readings taken while it is
served. -/
structure Arrival where
  request : Request
  tBlocked : time.Time
  tRecord : time.Time

/-- Requests handled one after another by `authMiddleware(next)`, each with a fresh response
writer: the status codes answered, in order, and the handler and state at the end. -/
def serveAll {σ : Type} (next : HttpHandler σ) :
    List Arrival → Handler σ → σ → List Nat × Handler σ × σ
  | [], h, st => ([], h, st)
  | a :: rest, h, st =>
    match h.authMiddleware next a.tBlocked a.tRecord NewRecorder a.request st with
    | (w, h1, st1) =>
      match serveAll next rest h1 st1 with
      | (codes, h2, st2) => (w.Code :: codes, h2, st2)

/-- The calls `RecordFailure(key)` made at the times `ts`, in order. -/
def recordFailures (l : authFailureLimiter) (key : String) : List time.Time → authFailureLimiter
  | [] => l
  | t :: ts => recordFailures (l.RecordFailure t key) key ts

end api

/-! ## Fixtures of the test suites -/

namespace fixtures

open domain application

/-- The `testCommand` of `dispatcher_test.go`: `Execute` returns `executeErr`, the target is
`clock-1`, the type is `typeName` (or `test_command`), and `Validate` succeeds. -/
def testCommand (typeName : String) (executeErr : Option GoError) : ClockCommand :=
  .Other
    { executeErr := executeErr,
      targetDeviceID := "clock-1",
      commandType := if typeName == "" then "test_command" else typeName,
      validateErr := none }

/-- The `testSender`, `stubSender` and `mockSender` of the test suites: `Send` counts its calls
and returns `err`.  The state is the number of calls. -/
def testSender (err : Option GoError) : ClockCommandSender Nat where
  Send _ calls := (err, calls + 1)

/-- A brightness command for `clock-1`. -/
def brightness (level : Int) : ClockCommand :=
  .SetBrightness { DeviceID := "clock-1", Level := level }

/-- A composite list with a succeeding sender, a nil entry and a sender failing with `a`. -/
def mixedSenders : List (Option (ClockCommandSender Nat)) :=
  [some (testSender none), none, some (testSender (some (errors.New "a")))]

/-- A `GET /ready` request over plain HTTP from `remoteAddr`, with the given `Authorization`
header (empty for none), as the handler tests build them. -/
def readyRequest (remoteAddr authorization : String) : api.Request :=
  { Method := "GET",
    Path := "/ready",
    RemoteAddr := remoteAddr,
    TLS := false,
    Header := fun k => if k == "Authorization" then authorization else "",
    Body := "",
    ctxPrincipal := none }

/-- The request `r` arriving `seconds` seconds after the reference instant. -/
def arrivalAt (seconds : Int) (r : api.Request) : api.Arrival :=
  { request := r, tBlocked := ⟨seconds * 1000000000⟩, tRecord := ⟨seconds * 1000000000⟩ }

/-- The handler built by `TestSharedIPThrottlingDoesNotBlockOtherTokens` and, up to the id of
the credential, by `TestAuthFailureRateLimit`: one credential with the given token and scope
`*`, TLS not required, `/ready` requiring authentication, no readiness checker, and the given
limit of authentication failures per minute. -/
def limitedHandler {σ : Type} (sender : ClockCommandSender σ) (token : String) (limit : Int) :
    api.Handler σ :=
  api.NewHandler (NewCommandDispatcher sender)
    [{ ID := "legit", Token := token, Devices := ["*"] }] false false true (64 * 1024) limit []

/-- The four requests of `TestSharedIPThrottlingDoesNotBlockOtherTokens`, one second apart:
three with the wrong token, then one with the valid token, all from `198.51.100.1:9999`. -/
def sharedIPArrivals : List api.Arrival :=
  [arrivalAt 0 (readyRequest "198.51.100.1:9999" "Bearer wrong-token-attacker"),
   arrivalAt 1 (readyRequest "198.51.100.1:9999" "Bearer wrong-token-attacker"),
   arrivalAt 2 (readyRequest "198.51.100.1:9999" "Bearer wrong-token-attacker"),
   arrivalAt 3 (readyRequest "198.51.100.1:9999" "Bearer valid-secret-token")]

end fixtures

/-! ## Standard library: `unicode/utf8`, `encoding/binary` -/

namespace utf8

/-- The UTF-8 encoding of a code point, as the bytes of a Go string hold it. -/
def EncodeRune (r : Char) : List Nat :=
  let n := r.toNat
  if n ≤ 0x7F then [n]
  else if n ≤ 0x7FF then [0xC0 + n / 64, 0x80 + n % 64]
  else if n ≤ 0xFFFF then [0xE0 + n / 4096, 0x80 + n / 64 % 64, 0x80 + n % 64]
  else [0xF0 + n / 262144, 0x80 + n / 4096 % 64, 0x80 + n / 64 % 64, 0x80 + n % 64]

end utf8

namespace strings

/-- Go `[]byte(s)`: the bytes of a string, each a number below 256. -/
def bytes (s : String) : List Nat := s.data.flatMap utf8.EncodeRune

/-- Go `len(s)`: the number of bytes of a string. -/
def len (s : String) : Nat := (bytes s).length

end strings

namespace binary

/-- Go `binary.BigEndian.PutUint16` into a slice of two bytes: the high byte, then the low byte
of the `uint16` value `v`. -/
def PutUint16 (v : Nat) : List Nat := [v / 256 % 256, v % 256]

/-- Go `binary.BigEndian.Uint16` of the two bytes `b0 b1`. -/
def Uint16 (b0 b1 : Nat) : Nat := b0 % 256 * 256 + b1 % 256

end binary

/-! ## Package `mqtt`: packet encoding -/

namespace mqtt

/-- Go `encodeString`: two bytes holding `uint16(len(b))`, the length truncated to 16 bits, then
the bytes of the string. -/
def encodeString (value : String) : List Nat :=
  let b := strings.bytes value
  binary.PutUint16 (b.length % 65536) ++ b

/-- Go `encodeRemainingLength`.  `length % 128` and `length / 128` are Go's truncated remainder
and quotient, `byte(...)` keeps the low eight bits, and each turn of the loop appends one
byte. -/
def encodeRemainingLength (length : Int) : List Nat :=
  let digit := ((length.tmod 128) % 256).toNat
  let length1 := length.tdiv 128
  let digit := if length1 > 0 then digit ||| 0x80 else digit
  if _h : length1 = 0 then [digit] else digit :: encodeRemainingLength length1
termination_by length.natAbs
decreasing_by
  have h1 : (length.tdiv 128).natAbs = length.natAbs / 128 := Int.natAbs_tdiv length 128
  have h2 : (length.tdiv 128).natAbs ≠ 0 := fun h => _h (Int.natAbs_eq_zero.1 h)
  omega

/-- Go `buildPublishPacket`; `qos` is a byte, `packetID` a `uint16`, `payload` a byte slice. -/
def buildPublishPacket (topic : String) (payload : List Nat) (qos : Nat) (retained : Bool)
    (packetID : Nat) : Except GoError (List Nat) :=
  if strings.TrimSpace topic == "" then
    .error (errors.New "mqtt topic is required")
  else if qos > 1 then
    .error (fmt.Errorf [.lit "unsupported qos ", .d qos])
  else
    let variableHeader := encodeString topic
    let variableHeader :=
      if qos > 0 then variableHeader ++ binary.PutUint16 packetID else variableHeader
    let remaining : Int := variableHeader.length + payload.length
    let fixed := 0x30 ||| ((qos <<< 1) % 256)
    let fixed := if retained then fixed ||| 0x01 else fixed
    .ok ([fixed] ++ encodeRemainingLength remaining ++ variableHeader ++ payload)

/-- The decoding of a remaining length as the MQTT specification gives it, which the claims
compare the encoder with (the repository has no decoder): each byte holds seven bits of the
value, least-significant group first, and bit 7 says that another byte follows; at most four
bytes.  The result is the value and the bytes left. -/
def decodeRemainingLengthFrom (multiplier value : Nat) : List Nat → Option (Nat × List Nat)
  | [] => none
  | encodedByte :: rest =>
    let value := value + (encodedByte % 128) * multiplier
    if multiplier > 128 * 128 * 128 then none
    else if encodedByte / 128 % 2 == 1 then
      decodeRemainingLengthFrom (multiplier * 128) value rest
    else some (value, rest)

/-- The decoding of a remaining length from the start of `bs`. -/
def decodeRemainingLength (bs : List Nat) : Option (Nat × List Nat) :=
  decodeRemainingLengthFrom 1 0 bs

end mqtt

namespace fixtures

/-- A string of `n` bytes, all the letter `a`. -/
def lettersA (n : Nat) : String := String.mk (List.replicate n 'a')

end fixtures

/-! ## Package `api`: command handlers and routing -/

namespace api

open domain application

/-- Go `setAlarmRequest`. -/
structure setAlarmRequest where
  DeviceID : String
  AlarmTime : String
  Label : String

/-- Go `displayMessageRequest`. -/
structure displayMessageRequest where
  DeviceID : String
  Message : String
  DurationSeconds : Int

/-- Go `setBrightnessRequest`. -/
structure setBrightnessRequest where
  DeviceID : String
  Level : Int

/-- The standard-library functions the handlers call and that are not modelled; the handlers
take them as the parameter `lib`.
* `formatRFC3339 t` is `t.Format(time.RFC3339)`.
* `parseRFC3339 s` is `time.Parse(time.RFC3339, s)`, `none` when it returns an error.
* `decodeSetAlarm limit body`, `decodeDisplayMessage`, `decodeSetBrightness` are
  `json.NewDecoder` on the body read through `http.MaxBytesReader` with the byte limit,
  with `DisallowUnknownFields`, decoding into the request struct: the value, or the error.
* `notFound` is the answer of `http.ServeMux` to a path without registered handler. -/
structure Stdlib where
  formatRFC3339 : time.Time → String
  parseRFC3339 : String → Option time.Time
  decodeSetAlarm : Int → String → Except GoError setAlarmRequest
  decodeDisplayMessage : Int → String → Except GoError displayMessageRequest
  decodeSetBrightness : Int → String → Except GoError setBrightnessRequest
  notFound : ResponseWriter → Request → ResponseWriter

/-- Go `Handler.decodeJSON`, with `decode` the decoder for the type of `out`. -/
def Handler.decodeJSON {σ α : Type} (h : Handler σ) (decode : Int → String → Except GoError α)
    (r : Request) : Except GoError α :=
  match decode h.maxBodyBytes r.Body with
  | .error err => .error (fmt.Errorf [.lit "invalid request body: ", .w err])
  | .ok out => .ok out

/-- Go `Handler.authorizeDevice`, reading the principal from the request context. -/
def Handler.authorizeDevice {σ : Type} (_h : Handler σ) (r : Request) (deviceID : String) :
    Option GoError :=
  match r.ctxPrincipal with
  | none => some (errors.New "unauthorized")
  | some pr =>
    if !(security.Credential.Allows { ID := pr.ID, Token := "", Devices := pr.Devices } deviceID)
    then some (errors.New "forbidden for target device")
    else none

/-- What a command handler does: the response written, the state after, the commands passed
to `h.dispatcher.Dispatch`, and the commands that dispatcher handed to its sender. -/
structure Served (σ : Type) where
  w : ResponseWriter
  state : σ
  dispatched : List ClockCommand
  sends : List ClockCommand

/-- The response and the state of a served request. -/
def Served.result {σ : Type} (s : Served σ) : ResponseWriter × σ := (s.w, s.state)

/-- The end of the three command handlers: `h.dispatcher.Dispatch(r.Context(), cmd)`, then
`writeAppError` or 202 with the result marker.  The audit line (`log.Printf`) is not
modelled. -/
def Handler.dispatchAndReply {σ : Type} (h : Handler σ) (lib : Stdlib) (now : time.Time)
    (w : ResponseWriter) (cmd : ClockCommand) (marker : String) (st : σ) : Served σ :=
  let res := h.dispatcher.Dispatch lib.formatRFC3339 now (some cmd) st
  match res.err with
  | some err =>
    { w := writeAppError w (some err), state := res.state, dispatched := [cmd],
      sends := res.sends }
  | none =>
    { w := writeJSON w http.StatusAccepted [("result", marker)], state := res.state,
      dispatched := [cmd], sends := res.sends }

/-- Go `Handler.handleSetAlarm`; `now` is the reading of `time.Now()` inside `Validate`. -/
def Handler.handleSetAlarm {σ : Type} (h : Handler σ) (lib : Stdlib) (now : time.Time)
    (w : ResponseWriter) (r : Request) (st : σ) : Served σ :=
  if r.Method != "POST" then
    { w := methodNotAllowed w, state := st, dispatched := [], sends := [] }
  else
    match h.decodeJSON lib.decodeSetAlarm r with
    | .error err =>
      { w := writeError w http.StatusBadRequest err, state := st, dispatched := [], sends := [] }
    | .ok payload =>
      match h.authorizeDevice r payload.DeviceID with
      | some err =>
        { w := writeError w http.StatusForbidden err, state := st, dispatched := [],
          sends := [] }
      | none =>
        match lib.parseRFC3339 payload.AlarmTime with
        | none =>
          { w := writeError w http.StatusBadRequest (fmt.Errorf [.lit "alarmTime must be RFC3339"]),
            state := st, dispatched := [], sends := [] }
        | some alarmTime =>
          h.dispatchAndReply lib now w
            (.SetAlarm { DeviceID := payload.DeviceID, AlarmTime := alarmTime,
                         Label := payload.Label })
            "scheduled" st

/-- Go `Handler.handleDisplayMessage`. -/
def Handler.handleDisplayMessage {σ : Type} (h : Handler σ) (lib : Stdlib) (now : time.Time)
    (w : ResponseWriter) (r : Request) (st : σ) : Served σ :=
  if r.Method != "POST" then
    { w := methodNotAllowed w, state := st, dispatched := [], sends := [] }
  else
    match h.decodeJSON lib.decodeDisplayMessage r with
    | .error err =>
      { w := writeError w http.StatusBadRequest err, state := st, dispatched := [], sends := [] }
    | .ok payload =>
      match h.authorizeDevice r payload.DeviceID with
      | some err =>
        { w := writeError w http.StatusForbidden err, state := st, dispatched := [],
          sends := [] }
      | none =>
        h.dispatchAndReply lib now w
          (.DisplayMessage { DeviceID := payload.DeviceID, Message := payload.Message,
                             DurationSeconds := payload.DurationSeconds })
          "sent" st

/-- Go `Handler.handleSetBrightness`. -/
def Handler.handleSetBrightness {σ : Type} (h : Handler σ) (lib : Stdlib) (now : time.Time)
    (w : ResponseWriter) (r : Request) (st : σ) : Served σ :=
  if r.Method != "PUT" then
    { w := methodNotAllowed w, state := st, dispatched := [], sends := [] }
  else
    match h.decodeJSON lib.decodeSetBrightness r with
    | .error err =>
      { w := writeError w http.StatusBadRequest err, state := st, dispatched := [], sends := [] }
    | .ok payload =>
      match h.authorizeDevice r payload.DeviceID with
      | some err =>
        { w := writeError w http.StatusForbidden err, state := st, dispatched := [],
          sends := [] }
      | none =>
        h.dispatchAndReply lib now w
          (.SetBrightness { DeviceID := payload.DeviceID, Level := payload.Level })
          "updated" st

/-- The `http.ServeMux` built in `Routes`: the five registered paths, each matched exactly. -/
def Handler.mux {σ : Type} (h : Handler σ) (lib : Stdlib) (now : time.Time) : HttpHandler σ :=
  fun w r st =>
    if r.Path == "/health" then h.handleHealth w r st
    else if r.Path == "/ready" then h.handleReady w r st
    else if r.Path == "/commands/alarms" then (h.handleSetAlarm lib now w r st).result
    else if r.Path == "/commands/messages" then (h.handleDisplayMessage lib now w r st).result
    else if r.Path == "/commands/brightness" then (h.handleSetBrightness lib now w r st).result
    else (lib.notFound w r, st)

/-- Go `Handler.Routes`, serving one request: the mux behind the middleware. -/
def Handler.Routes {σ : Type} (h : Handler σ) (lib : Stdlib) (now tBlocked tRecord : time.Time)
    (w : ResponseWriter) (r : Request) (st : σ) : ResponseWriter × Handler σ × σ :=
  h.authMiddleware (h.mux lib now) tBlocked tRecord w r st

/-- The response writer once the middleware has set `X-Request-Id`: the inbound header when it
is not blank, otherwise `req-<n>` with `n` the incremented request counter. -/
def Handler.withRequestID {σ : Type} (h : Handler σ) (w : ResponseWriter) (r : Request) :
    ResponseWriter :=
  let counter :=
    if strings.TrimSpace (r.Header "X-Request-Id") == "" then (h.requestCounter + 1) % 2 ^ 64
    else h.requestCounter
  let requestID :=
    if strings.TrimSpace (r.Header "X-Request-Id") == "" then fmt.Sprintf [.lit "req-", .d counter]
    else r.Header "X-Request-Id"
  { w with Header := Function.update w.Header "X-Request-Id" requestID }

/-- The handler once the middleware has assigned the request identifier: the counter is
incremented when the inbound header is blank. -/
def Handler.counted {σ : Type} (h : Handler σ) (r : Request) : Handler σ :=
  { h with requestCounter :=
      if strings.TrimSpace (r.Header "X-Request-Id") == "" then (h.requestCounter + 1) % 2 ^ 64
      else h.requestCounter }

/-- The limiter once the middleware has asked `IsBlocked` for the source of the request. -/
def Handler.checkedLimiter {σ : Type} (h : Handler σ) (tBlocked : time.Time) (r : Request) :
    authFailureLimiter :=
  (h.authFailureRateLimiter.IsBlocked tBlocked (clientIP r)).2

/-- The handler after a request that was let through the block check and authenticated: the
request counter and the block check are its only traces. -/
def Handler.afterSuccess {σ : Type} (h : Handler σ) (tBlocked : time.Time) (r : Request) :
    Handler σ :=
  { h.counted r with authFailureRateLimiter := h.checkedLimiter tBlocked r }

/-- The handler after a request that was let through the block check and failed to
authenticate: one `RecordFailure` for the source of the request, at `tRecord`. -/
def Handler.afterFailure {σ : Type} (h : Handler σ) (tBlocked tRecord : time.Time)
    (r : Request) : Handler σ :=
  { h.counted r with
    authFailureRateLimiter := (h.checkedLimiter tBlocked r).RecordFailure tRecord (clientIP r) }

/-- The token the middleware compares: the `Authorization` header without `Bearer `, trimmed. -/
def bearerToken (r : Request) : String :=
  strings.TrimSpace (strings.TrimPrefix (r.Header "Authorization") "Bearer ")

/-- The request gets past the first checks of the middleware, up to the reading of the
`Authorization` header: its path is not `/health`, it passes the TLS check, it is not the
`/ready` path exempt from authentication, and its source is not blocked at `tBlocked`. -/
def Handler.reachesAuth {σ : Type} (h : Handler σ) (tBlocked : time.Time) (r : Request) : Prop :=
  r.Path ≠ "/health" ∧ (h.requireTLS = false ∨ h.isSecureRequest r = true) ∧
  ¬ (r.Path = "/ready" ∧ h.readinessRequireAuth = false) ∧
  (h.authFailureRateLimiter.IsBlocked tBlocked (clientIP r)).1 = false

/-- The trimmed text is `https` up to case, as `strings.EqualFold` compares it: five code
points, each equal to the letter of `https` at its place or to a code point with the same
simple case folding (the other case; for `s` also the long s, U+017F). -/
def foldsToHttps (s : String) : Prop :=
  ∃ c1 c2 c3 c4 c5 : Char, s.data = [c1, c2, c3, c4, c5] ∧
    (c1.toNat = 0x68 ∨ c1.toNat = 0x48) ∧
    (c2.toNat = 0x74 ∨ c2.toNat = 0x54) ∧
    (c3.toNat = 0x74 ∨ c3.toNat = 0x54) ∧
    (c4.toNat = 0x70 ∨ c4.toNat = 0x50) ∧
    (c5.toNat = 0x73 ∨ c5.toNat = 0x53 ∨ c5.toNat = 0x17F)

end api

namespace fixtures

open domain application

/-- The body of the request of `TestDeviceScopeForbidden`. -/
def deniedMessageBody : String :=
  "\x7b\"deviceId\":\"clock-denied\",\"message\":\"hi\",\"durationSeconds\":10\x7d"

/-- Standard-library functions for the examples: the decoder of display-message bodies knows
the body of `TestDeviceScopeForbidden`; every other decoding or parsing fails. -/
def exampleLib : api.Stdlib :=
  { formatRFC3339 := fun _ => "",
    parseRFC3339 := fun _ => none,
    decodeSetAlarm := fun _ _ => .error (errors.New "unexpected end of JSON input"),
    decodeDisplayMessage := fun _ body =>
      if body == deniedMessageBody then
        .ok { DeviceID := "clock-denied", Message := "hi", DurationSeconds := 10 }
      else .error (errors.New "unexpected end of JSON input"),
    decodeSetBrightness := fun _ _ => .error (errors.New "unexpected end of JSON input"),
    notFound := fun w _ => { w with Code := 404 } }

/-- The handler of `TestDeviceScopeForbidden`: one credential scoped to `clock-allowed`. -/
def scopedHandler : api.Handler Nat :=
  api.NewHandler (NewCommandDispatcher (testSender none))
    [{ ID := "ops", Token := "scoped-token", Devices := ["clock-allowed"] }]
    false false true (64 * 1024) 100 []

/-- The request of `TestDeviceScopeForbidden`: `POST /commands/messages` for `clock-denied`,
authenticated with the scoped token. -/
def deniedMessageRequest : api.Request :=
  { Method := "POST",
    Path := "/commands/messages",
    RemoteAddr := "192.0.2.1:1234",
    TLS := false,
    Header := fun k => if k == "Authorization" then "Bearer scoped-token" else "",
    Body := deniedMessageBody,
    ctxPrincipal := none }

end fixtures

namespace fixtures

open domain application

/-- The handler of `TestRoutesRequireTLS` (proxy trust off) and of `TestRoutesTrustProxyTLS`
(proxy trust on): TLS required, one credential with scope `*`. -/
def tlsHandler (trustProxyTLS : Bool) : api.Handler Nat :=
  api.NewHandler (NewCommandDispatcher (testSender none))
    [{ ID := "test", Token := "test-token", Devices := ["*"] }]
    trustProxyTLS true true (64 * 1024) 100 []

/-- A plaintext `GET /ready` with the valid token and the given `X-Forwarded-Proto` header. -/
def forwardedReadyRequest (proto : String) : api.Request :=
  { Method := "GET",
    Path := "/ready",
    RemoteAddr := "192.0.2.1:1234",
    TLS := false,
    Header := fun k =>
      if k == "Authorization" then "Bearer test-token"
      else if k == "X-Forwarded-Proto" then proto
      else "",
    Body := "",
    ctxPrincipal := none }

end fixtures

namespace fixtures

open domain application

/-- A plaintext `POST /health` without any `Authorization` header. -/
def healthRequest : api.Request :=
  { Method := "POST",
    Path := "/health",
    RemoteAddr := "192.0.2.1:1234",
    TLS := false,
    Header := fun _ => "",
    Body := "",
    ctxPrincipal := none }

/-- A handler requiring TLS, with a limit of one authentication failure per minute, after one
failure recorded for the source `192.0.2.1`: that source is blocked. -/
def blockedTLSHandler : api.Handler Nat :=
  let h : api.Handler Nat :=
    api.NewHandler (NewCommandDispatcher (testSender none))
      [{ ID := "test", Token := "test-token", Devices := ["*"] }] false true true (64 * 1024) 1 []
  { h with authFailureRateLimiter := h.authFailureRateLimiter.RecordFailure ⟨0⟩ "192.0.2.1" }

/-- A composite list of two succeeding senders. -/
def succeedingSenders : List (Option (ClockCommandSender Nat)) :=
  [some (testSender none), some (testSender none)]

end fixtures

/-! ## Standard library: `strings.Trim`, `io`, `bytes`, `net` connections -/

namespace strings

/-- Go `strings.Trim(s, cutset)`: `s` without its leading and trailing code points that occur in
`cutset`. -/
def Trim (s cutset : String) : String :=
  String.mk
    ((s.data.dropWhile cutset.data.contains).reverse.dropWhile cutset.data.contains).reverse

end strings

namespace time

/-- Go `time.Second`, in nanoseconds. -/
def Second : Duration := 1000000000

end time

namespace io

/-- Go `io.EOF`. -/
def EOF : GoError := .sentinel "io.EOF" "EOF"

/-- Go `io.ErrUnexpectedEOF`. -/
def ErrUnexpectedEOF : GoError := .sentinel "io.ErrUnexpectedEOF" "unexpected EOF"

/-- An `io.Reader` over a state `ρ` (the stream and whatever feeds it), given by what
`io.ReadFull(r, buf)` makes of it for a buffer of `n` bytes: the `n` bytes that fill the buffer,
or the error met before the buffer was full. -/
structure Reader (ρ : Type) where
  ReadFull : Nat → ρ → Except GoError (List Nat) × ρ

/-- An `io.Writer` over a state `ω`: what `Write(p)` returns. -/
structure Writer (ω : Type) where
  Write : List Nat → ω → Option GoError × ω

end io

namespace bytes

/-- Go `bytes.NewReader(b)` read by `io.ReadFull`; the state is the unread part of `b`.  A
buffer of `n` bytes is filled when `n` bytes are left; otherwise the error is `io.EOF` when
nothing is left and `io.ErrUnexpectedEOF` when the stream ends inside the buffer. -/
def NewReader : io.Reader (List Nat) where
  ReadFull n b :=
    if n ≤ b.length then (.ok (b.take n), b.drop n)
    else (.error (if b.length == 0 then io.EOF else io.ErrUnexpectedEOF), [])

/-- Go `bytes.Buffer` as a writer; the state is the content, and `Write` appends to it. -/
def Buffer : io.Writer (List Nat) where
  Write p b := (none, b ++ p)

end bytes

namespace net

/-- A non-nil `net.Conn`: a handle on a connection of the network. -/
structure Conn where
  id : Nat
deriving DecidableEq

/-- The network as the sender meets it: a state `σ` (the broker, the links, the clock), and
what the calls made on it return.
* `dial tlsConfig address timeout`: `net.Dialer.Dial("tcp", address)` when `tlsConfig` is
  `none`, `tls.DialWithDialer` when it is `some insecureSkipVerify`;
* `setDeadline conn d`: `conn.SetDeadline(time.Now().Add(d))` for `some d`, and
  `conn.SetDeadline(time.Time{})` for `none`;
* `write conn p`: `conn.Write(p)`;
* `readFull conn n`: `io.ReadFull(conn, buf)` with a buffer of `n` bytes;
* `close conn`: `conn.Close()`, whose error the callers drop. -/
structure Network (σ : Type) where
  dial : Option Bool → String → time.Duration → σ → Except GoError Conn × σ
  setDeadline : Conn → Option time.Duration → σ → Option GoError × σ
  write : Conn → List Nat → σ → Option GoError × σ
  readFull : Conn → Nat → σ → Except GoError (List Nat) × σ
  close : Conn → σ → σ

/-- A connection as an `io.Reader`. -/
def Network.reader {σ : Type} (nw : Network σ) (conn : Conn) : io.Reader σ where
  ReadFull n st := nw.readFull conn n st

/-- A connection as an `io.Writer`. -/
def Network.writer {σ : Type} (nw : Network σ) (conn : Conn) : io.Writer σ where
  Write p st := nw.write conn p st

/-- Go `net.JoinHostPort`: a host holding a colon is put in brackets. -/
def JoinHostPort (host port : String) : String :=
  if (indexByte host.data ':').isSome then "[" ++ host ++ "]:" ++ port
  else host ++ ":" ++ port

end net

/-! ## Package `mqtt`: the sender -/

namespace mqtt

open domain

/-- Go `defaultConnectTimeout`. -/
def defaultConnectTimeout : time.Duration := 10 * time.Second

/-- Go `defaultPublishTimeout`. -/
def defaultPublishTimeout : time.Duration := 5 * time.Second

/-- Go `defaultKeepAlive`. -/
def defaultKeepAlive : Nat := 60

/-- Go `mqtt.Config`; `QoS` is a byte. -/
structure Config where
  BrokerURL : String
  ClientID : String
  Username : String
  Password : String
  TopicPrefix : String
  QoS : Nat
  Retained : Bool
  ConnectRetry : Bool
  TLSInsecureSkipVerify : Bool
  AllowInsecureTLS : Bool
  AllowInsecureTransport : Bool

/-- Go `mqtt.Sender` without its mutex; `conn = none` is the nil connection and `packetID` is a
`uint16`.  The fields `conn` and `packetID` are mutable: the methods return the sender after
the call. -/
structure Sender where
  cfg : Config
  brokerHost : String
  brokerPort : String
  tlsEnabled : Bool
  conn : Option net.Conn
  packetID : Nat
  connTimeout : time.Duration
  pubTimeout : time.Duration

/-- The bytes `writeConnectPacket` assembles for `w.Write`. -/
def connectPacket (cfg : Config) : List Nat :=
  let flags := 0x02
  let payload := encodeString cfg.ClientID
  let flags := if cfg.Username != "" then flags ||| 0x80 else flags
  let flags := if cfg.Password != "" then flags ||| 0x40 else flags
  let payload := if cfg.Username != "" then payload ++ encodeString cfg.Username else payload
  let payload := if cfg.Password != "" then payload ++ encodeString cfg.Password else payload
  let varHeader := encodeString "MQTT"
  let varHeader := varHeader ++ [0x04, flags]
  let keepAlive := binary.PutUint16 defaultKeepAlive
  let varHeader := varHeader ++ keepAlive
  let remaining : Int := varHeader.length + payload.length
  [0x10] ++ encodeRemainingLength remaining ++ varHeader ++ payload

/-- Go `writeConnectPacket`: one `Write` of the assembled packet. -/
def writeConnectPacket {ω : Type} (w : io.Writer ω) (cfg : Config) (st : ω) :
    Option GoError × ω :=
  match w.Write (connectPacket cfg) st with
  | (some err, st1) => (some (fmt.Errorf [.lit "write connect packet: ", .w err]), st1)
  | (none, st1) => (none, st1)

/-- Go `readConnAck`; `header` is the buffer of four bytes once `io.ReadFull` has filled it. -/
def readConnAck {ρ : Type} (r : io.Reader ρ) (st : ρ) : Option GoError × ρ :=
  match r.ReadFull 4 st with
  | (.error err, st1) => (some (fmt.Errorf [.lit "read connack: ", .w err]), st1)
  | (.ok header, st1) =>
    if header.getD 0 0 != 0x20 || header.getD 1 0 != 0x02 then
      (some (fmt.Errorf [.lit "invalid connack header: ", .v (header.take 2)]), st1)
    else if header.getD 3 0 != 0x00 then
      (some (fmt.Errorf [.lit "connack error code: ", .d (header.getD 3 0)]), st1)
    else (none, st1)

/-- Go `readPubAck`; `expectedPacketID` is a `uint16`. -/
def readPubAck {ρ : Type} (r : io.Reader ρ) (expectedPacketID : Nat) (st : ρ) :
    Option GoError × ρ :=
  match r.ReadFull 4 st with
  | (.error err, st1) => (some (fmt.Errorf [.lit "read puback: ", .w err]), st1)
  | (.ok header, st1) =>
    if header.getD 0 0 != 0x40 || header.getD 1 0 != 0x02 then
      (some (fmt.Errorf [.lit "invalid puback header: ", .v (header.take 2)]), st1)
    else
      let packetID := binary.Uint16 (header.getD 2 0) (header.getD 3 0)
      if packetID != expectedPacketID then
        (some (fmt.Errorf [.lit "puback packet id mismatch: expected ", .d expectedPacketID,
          .lit " got ", .d packetID]), st1)
      else (none, st1)

/-- Go `buildTopic`. -/
def buildTopic (pfx : String) (cmd : ClockCommand) : String :=
  let cleanPrefix := strings.Trim (strings.TrimSpace pfx) "/"
  fmt.Sprintf [.s cleanPrefix, .lit "/", .s cmd.TargetDeviceID, .lit "/", .s cmd.CommandType]

end mqtt

namespace mqtt

open domain

/-- A value of the payload map, of type `any`: the code stores strings and integers. -/
inductive Any where
  | string (s : String)
  | int (n : Int)

/-- The standard-library functions `Send` relies on and the model leaves open:
`formatRFC3339 t` is `t.Format(time.RFC3339)`, `marshal` is `json.Marshal` on the payload map,
and `typeName cmd` is what `%T` prints for the dynamic type of `cmd`. -/
structure Stdlib where
  formatRFC3339 : time.Time → String
  marshal : (String → Option Any) → Except GoError (List Nat)
  typeName : ClockCommand → String

/-- Go `buildPayload`; the map is given by the value stored under each key. -/
def buildPayload (lib : Stdlib) (cmd : ClockCommand) : Except GoError (String → Option Any) :=
  let base : String → Option Any := fun _ => none
  let base := Function.update base "deviceId" (some (.string cmd.TargetDeviceID))
  let base := Function.update base "type" (some (.string cmd.CommandType))
  match cmd with
  | .SetAlarm c =>
    let base := Function.update base "alarmTime" (some (.string (lib.formatRFC3339 c.AlarmTime)))
    .ok (Function.update base "label" (some (.string c.Label)))
  | .DisplayMessage c =>
    let base := Function.update base "message" (some (.string c.Message))
    .ok (Function.update base "durationSeconds" (some (.int c.DurationSeconds)))
  | .SetBrightness c =>
    .ok (Function.update base "level" (some (.int c.Level)))
  | .Other _ =>
    .error (fmt.Errorf [.lit "unsupported command type ", .s (lib.typeName cmd)])

/-- What one call of `connect` does: the error returned, the sender and the network after. -/
structure ConnectResult (σ : Type) where
  err : Option GoError
  sender : Sender
  world : σ

/-- Go `Sender.connect`: dial, set the deadline, write CONNECT, read CONNACK, clear the
deadline; the connection is stored only when all five succeed, and closed otherwise. -/
def Sender.connect {σ : Type} (s : Sender) (nw : net.Network σ) (st : σ) : ConnectResult σ :=
  let address := net.JoinHostPort s.brokerHost s.brokerPort
  let tlsConfig := if s.tlsEnabled then some s.cfg.TLSInsecureSkipVerify else none
  match nw.dial tlsConfig address s.connTimeout st with
  | (.error err, st1) =>
    { err := some (fmt.Errorf [.lit "dial mqtt broker: ", .w err]), sender := s, world := st1 }
  | (.ok conn, st1) =>
    match nw.setDeadline conn (some s.connTimeout) st1 with
    | (some err, st2) =>
      { err := some (fmt.Errorf [.lit "set connect deadline: ", .w err]), sender := s,
        world := nw.close conn st2 }
    | (none, st2) =>
      match writeConnectPacket (nw.writer conn) s.cfg st2 with
      | (some err, st3) => { err := some err, sender := s, world := nw.close conn st3 }
      | (none, st3) =>
        match readConnAck (nw.reader conn) st3 with
        | (some err, st4) => { err := some err, sender := s, world := nw.close conn st4 }
        | (none, st4) =>
          match nw.setDeadline conn none st4 with
          | (some err, st5) =>
            { err := some (fmt.Errorf [.lit "clear deadline: ", .w err]), sender := s,
              world := nw.close conn st5 }
          | (none, st5) => { err := none, sender := { s with conn := some conn }, world := st5 }

/-- What one call of `publish` does: the error returned, the sender and the network after, and
the packets handed to `conn.Write`. -/
structure PublishResult (σ : Type) where
  err : Option GoError
  sender : Sender
  world : σ
  written : List (List Nat)

/-- Go `Sender.publish`.  The deferred `SetDeadline(time.Time{})` runs on every return after
the deadline was set; its error is dropped. -/
def Sender.publish {σ : Type} (s : Sender) (nw : net.Network σ) (topic : String)
    (payload : List Nat) (st : σ) : PublishResult σ :=
  match s.conn with
  | none =>
    { err := some (errors.New "mqtt connection is not established"), sender := s, world := st,
      written := [] }
  | some conn =>
    match nw.setDeadline conn (some s.pubTimeout) st with
    | (some err, st1) =>
      { err := some (fmt.Errorf [.lit "set publish deadline: ", .w err]), sender := s,
        world := st1, written := [] }
    | (none, st1) =>
      let counter :=
        if s.cfg.QoS > 0 then
          if (s.packetID + 1) % 65536 == 0 then 1 else (s.packetID + 1) % 65536
        else s.packetID
      let packetID := if s.cfg.QoS > 0 then counter else 0
      let s1 := { s with packetID := counter }
      match buildPublishPacket topic payload s.cfg.QoS s.cfg.Retained packetID with
      | .error err =>
        { err := some err, sender := s1, world := (nw.setDeadline conn none st1).2,
          written := [] }
      | .ok packet =>
        match nw.write conn packet st1 with
        | (some err, st2) =>
          { err := some (fmt.Errorf [.lit "write publish packet: ", .w err]), sender := s1,
            world := (nw.setDeadline conn none st2).2, written := [packet] }
        | (none, st2) =>
          if s.cfg.QoS == 1 then
            match readPubAck (nw.reader conn) packetID st2 with
            | (some err, st3) =>
              { err := some err, sender := s1, world := (nw.setDeadline conn none st3).2,
                written := [packet] }
            | (none, st3) =>
              { err := none, sender := s1, world := (nw.setDeadline conn none st3).2,
                written := [packet] }
          else
            { err := none, sender := s1, world := (nw.setDeadline conn none st2).2,
              written := [packet] }

/-- Go `Sender.closeLocked`. -/
def Sender.closeLocked {σ : Type} (s : Sender) (nw : net.Network σ) (st : σ) : Sender × σ :=
  match s.conn with
  | some conn => ({ s with conn := none }, nw.close conn st)
  | none => (s, st)

/-- Go `Sender.Check`. -/
def Sender.Check (s : Sender) : Option GoError :=
  if s.conn.isNone then some (errors.New "mqtt not connected") else none

/-- Go `Sender.Close`. -/
def Sender.Close {σ : Type} (s : Sender) (nw : net.Network σ) (st : σ) : Sender × σ :=
  s.closeLocked nw st

/-- What one turn of the retry loop of `Send` did: the reading of `ctx.Err()`, whether a
connection was held when the turn started, what `connect` returned if it was called, what
`publish` returned if it was called, and the packets `publish` handed to the connection. -/
structure Attempt where
  ctxErr : Option GoError
  held : Bool
  connect : Option (Option GoError)
  publish : Option (Option GoError)
  written : List (List Nat)

/-- The state after one turn of the retry loop: `returned = some r` when the turn leaves `Send`
with `return r`, `returned = none` when it ends with `continue`, having assigned `lastErr`. -/
structure Turn (σ : Type) where
  returned : Option (Option GoError)
  lastErr : Option GoError
  sender : Sender
  world : σ
  record : Attempt

/-- The second half of a turn: `publish`, and `closeLocked` when it fails. -/
def Sender.publishTurn {σ : Type} (s : Sender) (nw : net.Network σ) (topic : String)
    (body : List Nat) (held : Bool) (connect : Option (Option GoError)) (st : σ) : Turn σ :=
  let p := s.publish nw topic body st
  match p.err with
  | some err =>
    { returned := none, lastErr := some err,
      sender := (p.sender.closeLocked nw p.world).1, world := (p.sender.closeLocked nw p.world).2,
      record := { ctxErr := none, held := held, connect := connect, publish := some (some err),
                  written := p.written } }
  | none =>
    { returned := some none, lastErr := none, sender := p.sender, world := p.world,
      record := { ctxErr := none, held := held, connect := connect, publish := some none,
                  written := p.written } }

/-- One turn of the retry loop of `Send`; `ctxErr` is the reading of `ctx.Err()`. -/
def Sender.turn {σ : Type} (s : Sender) (nw : net.Network σ) (ctxErr : Option GoError)
    (topic : String) (body : List Nat) (st : σ) : Turn σ :=
  match ctxErr with
  | some err =>
    { returned := some (some err), lastErr := none, sender := s, world := st,
      record := { ctxErr := some err, held := s.conn.isSome, connect := none, publish := none,
                  written := [] } }
  | none =>
    match s.conn with
    | none =>
      let c := s.connect nw st
      match c.err with
      | some err =>
        { returned := none, lastErr := some err, sender := c.sender, world := c.world,
          record := { ctxErr := none, held := false, connect := some (some err),
                      publish := none, written := [] } }
      | none => c.sender.publishTurn nw topic body false (some none) c.world
    | some _ => s.publishTurn nw topic body true none st

/-- What one call of `Send` does: the error returned, the sender and the network after, and the
record of the turns of the retry loop, in order. -/
structure SendResult (σ : Type) where
  err : Option GoError
  sender : Sender
  world : σ
  attempts : List Attempt

/-- The retry loop of `Send` with `remaining` turns left, `i` being the loop index; `ctx i` is
the reading of `ctx.Err()` at the start of turn `i`.  After the last turn comes the final
`fmt.Errorf`, whose `%w` operand is `lastErr`. -/
def Sender.sendLoop {σ : Type} (nw : net.Network σ) (ctx : Nat → Option GoError)
    (topic : String) (body : List Nat) (attempts : Nat) :
    Nat → Nat → Sender → σ → Option GoError → List Attempt → SendResult σ
  | 0, _, s, st, lastErr, log =>
    { err := some (fmt.Errorf [.lit "mqtt publish failed after ", .d attempts, .lit " attempts: ",
        match lastErr with
        | some err => .w err
        | none => .lit "%!w(<nil>)"]),
      sender := s, world := st, attempts := log }
  | remaining + 1, i, s, st, _, log =>
    let t := s.turn nw (ctx i) topic body st
    match t.returned with
    | some r => { err := r, sender := t.sender, world := t.world, attempts := log ++ [t.record] }
    | none => sendLoop nw ctx topic body attempts remaining (i + 1) t.sender t.world t.lastErr
        (log ++ [t.record])

/-- Go `Sender.Send`; `cmd = none` is the nil command. -/
def Sender.Send {σ : Type} (s : Sender) (nw : net.Network σ) (lib : Stdlib)
    (ctx : Nat → Option GoError) (cmd : Option ClockCommand) (st : σ) : SendResult σ :=
  match cmd with
  | none =>
    { err := some (errors.New "command is required"), sender := s, world := st, attempts := [] }
  | some cmd =>
    match buildPayload lib cmd with
    | .error err => { err := some err, sender := s, world := st, attempts := [] }
    | .ok payload =>
      match lib.marshal payload with
      | .error err =>
        { err := some (fmt.Errorf [.lit "marshal mqtt payload: ", .w err]), sender := s,
          world := st, attempts := [] }
      | .ok body =>
        let topic := buildTopic s.cfg.TopicPrefix cmd
        let attempts := if s.cfg.ConnectRetry then 3 else 1
        Sender.sendLoop nw ctx topic body attempts attempts 0 s st none []

end mqtt

namespace mqtt

/-- The failure of a turn of the retry loop: the error `publish` returned or, when `publish`
was not reached, the error `connect` returned. -/
def Attempt.failure (a : Attempt) : Option GoError :=
  match a.publish with
  | some (some err) => some err
  | some none => none
  | none =>
    match a.connect with
    | some (some err) => some err
    | _ => none

end mqtt

namespace fixtures

open domain mqtt

/-- The state of a scripted network: the packets written so far and the bytes the broker has
sent that are still unread. -/
structure Wire where
  sent : List (List Nat)
  pending : List Nat

/-- A scripted network with one connection: `dial` returns `dialErr` or the connection,
`SetDeadline` returns `deadlineErr`, `Write` records the packet and succeeds, and reading
takes the bytes of `pending` in order, as a `bytes.Reader` would. -/
def wire (dialErr deadlineErr : Option GoError) : net.Network Wire where
  dial _ _ _ st :=
    match dialErr with
    | some err => (.error err, st)
    | none => (.ok ⟨1⟩, st)
  setDeadline _ _ st := (deadlineErr, st)
  write _ p st := (none, { st with sent := st.sent ++ [p] })
  readFull _ n st :=
    ((bytes.NewReader.ReadFull n st.pending).1,
      { st with pending := (bytes.NewReader.ReadFull n st.pending).2 })
  close _ st := st

/-- A sender for `mqtt://broker:1883` with the given QoS, retry setting, connection and
packet-id counter. -/
def mqttSender (qos : Nat) (connectRetry : Bool) (conn : Option net.Conn) (packetID : Nat) :
    mqtt.Sender :=
  { cfg :=
      { BrokerURL := "mqtt://broker:1883", ClientID := "clock-dispatcher", Username := "",
        Password := "", TopicPrefix := "clocks/commands", QoS := qos, Retained := false,
        ConnectRetry := connectRetry, TLSInsecureSkipVerify := false,
        AllowInsecureTLS := false, AllowInsecureTransport := true },
    brokerHost := "broker",
    brokerPort := "1883",
    tlsEnabled := false,
    conn := conn,
    packetID := packetID,
    connTimeout := defaultConnectTimeout,
    pubTimeout := defaultPublishTimeout }

/-- Standard-library functions for the examples: every payload marshals to the same two
bytes `{}`. -/
def mqttLib : mqtt.Stdlib :=
  { formatRFC3339 := fun _ => "",
    marshal := fun _ => .ok [0x7B, 0x7D],
    typeName := fun _ => "application.testCommand" }

end fixtures

namespace mqtt

/-- The error `Send` returns once the retry loop is over: the final `fmt.Errorf` with the
number of attempts and `lastErr`. -/
def exhausted (attempts : Nat) (lastErr : Option GoError) : GoError :=
  fmt.Errorf [.lit "mqtt publish failed after ", .d attempts, .lit " attempts: ",
    match lastErr with
    | some err => .w err
    | none => .lit "%!w(<nil>)"]

end mqtt

namespace api

/-- The bound on the stored failure counts: every entry of the limiter has a count between 1
and the limit. -/
def authFailureLimiter.bounded (l : authFailureLimiter) : Prop :=
  ∀ key e, l.entries key = some e → 1 ≤ e.count ∧ e.count ≤ l.limit

end api

/-! ## Standard library: `net/url` -/

namespace url

/-- A parsed `*url.URL`, by what the repository reads of it: the fields `Scheme` and `Host`, and
what the methods `Hostname()` and `Port()` return. -/
structure URL where
  Scheme : String
  Host : String
  Hostname : String
  Port : String

end url

/-! ## Package `mqtt`: construction of the sender -/

namespace mqtt

open domain

/-- The standard-library functions the construction of a sender relies on and the model leaves
open: `Parse` is `url.Parse`, `ToLower` is `strings.ToLower`, and `Quote s` is what `%q` prints
for the string `s`. -/
structure URLLib where
  Parse : String → Except GoError url.URL
  ToLower : String → String
  Quote : String → String

/-- Go `parseBrokerURL`: the host, the port and whether TLS is enabled. -/
def parseBrokerURL (lib : URLLib) (raw : String) (allowInsecureTransport : Bool) :
    Except GoError (String × String × Bool) :=
  match lib.Parse raw with
  | .error err => .error (fmt.Errorf [.lit "invalid mqtt broker url: ", .w err])
  | .ok parsed =>
    let scheme := lib.ToLower parsed.Scheme
    let tlsEnabled : Except GoError Bool :=
      if scheme == "mqtt" then
        if !allowInsecureTransport then
          .error (errors.New
            "insecure mqtt:// is disabled; use mqtts:// or set ALLOW_INSECURE_MQTT=true")
        else .ok false
      else if scheme == "mqtts" then .ok true
      else .error (fmt.Errorf [.lit "unsupported mqtt scheme ", .s (lib.Quote parsed.Scheme)])
    match tlsEnabled with
    | .error err => .error err
    | .ok tlsEnabled =>
      let host := parsed.Hostname
      if host == "" then .error (errors.New "mqtt broker host is required")
      else
        let port := parsed.Port
        let port := if port == "" then (if tlsEnabled then "8883" else "1883") else port
        .ok (host, port, tlsEnabled)

/-- Go `NewSender`; `unixNano` is the reading of `time.Now().UnixNano()`.  The result is the
sender or the error, and the network after the initial connect. -/
def NewSender {σ : Type} (lib : URLLib) (nw : net.Network σ) (unixNano : Int) (cfg : Config)
    (st : σ) : Except GoError Sender × σ :=
  if strings.TrimSpace cfg.BrokerURL == "" then
    (.error (errors.New "mqtt broker url is required"), st)
  else
    let cfg :=
      if strings.TrimSpace cfg.TopicPrefix == "" then { cfg with TopicPrefix := "clocks/commands" }
      else cfg
    let cfg :=
      if strings.TrimSpace cfg.ClientID == "" then
        { cfg with ClientID := fmt.Sprintf [.lit "clock-dispatcher-", .d unixNano] }
      else cfg
    if cfg.QoS > 1 then
      (.error (fmt.Errorf [.lit "unsupported qos ", .d cfg.QoS,
        .lit ": only 0 and 1 are supported"]), st)
    else if cfg.TLSInsecureSkipVerify && !cfg.AllowInsecureTLS then
      (.error (errors.New
        "MQTT_TLS_INSECURE_SKIP_VERIFY requires ALLOW_INSECURE_TLS_VERIFY=true"), st)
    else
      match parseBrokerURL lib cfg.BrokerURL cfg.AllowInsecureTransport with
      | .error err => (.error err, st)
      | .ok (host, port, tlsEnabled) =>
        let s : Sender :=
          { cfg := cfg, brokerHost := host, brokerPort := port, tlsEnabled := tlsEnabled,
            conn := none, packetID := 0, connTimeout := defaultConnectTimeout,
            pubTimeout := defaultPublishTimeout }
        let c := s.connect nw st
        match c.err with
        | some err => (.error err, c.world)
        | none => (.ok c.sender, c.world)

/-- The failures of a publish that come from the connection: the deadline that cannot be set,
the write that fails, and the three failures of the acknowledgement (it cannot be read, its
header is wrong, its packet id is another one). -/
def publishIOFailure (e : GoError) : Prop :=
  (∃ err, e = fmt.Errorf [.lit "set publish deadline: ", .w err]) ∨
  (∃ err, e = fmt.Errorf [.lit "write publish packet: ", .w err]) ∨
  (∃ err, e = fmt.Errorf [.lit "read puback: ", .w err]) ∨
  (∃ header, e = fmt.Errorf [.lit "invalid puback header: ", .v header]) ∨
  (∃ expected got : Int, e = fmt.Errorf [.lit "puback packet id mismatch: expected ",
    .d expected, .lit " got ", .d got])

end mqtt

namespace fixtures

/-- Standard-library functions for the examples: `url.Parse` knows the broker address
`mqtt://broker:1883`, lower-casing is the one of ASCII, and `%q` puts double quotes around a
string without special characters. -/
def urlLib : mqtt.URLLib :=
  { Parse := fun raw =>
      if raw == "mqtt://broker:1883" then
        .ok { Scheme := "mqtt", Host := "broker:1883", Hostname := "broker", Port := "1883" }
      else .error (errors.New "parse: unknown address"),
    ToLower := fun s => String.mk (s.data.map Char.toLower),
    Quote := fun s => "\"" ++ s ++ "\"" }

end fixtures

namespace mqtt

/-- A PUBLISH packet as a parser reads it: the qos and the retain flag of the first byte, the
bytes of the topic, the packet identifier when there is one, and the payload. -/
structure Publish where
  qos : Nat
  retained : Bool
  topic : List Nat
  packetID : Option Nat
  payload : List Nat

/-- The parsing of a PUBLISH packet as the MQTT specification gives it, which the claims
compare `buildPublishPacket` with (the repository has no parser).  The first byte holds the
packet type 3 in its high four bits, the qos in bits 1 and 2 and the retain flag in bit 0; the
remaining length follows in base 128; then come the topic with its length in front as two
big-endian bytes, the packet identifier as two big-endian bytes when the qos is above 0, and
the payload, which is the rest of the remaining length.  The result is the packet read, the
remaining length decoded, and the bytes left after the packet. -/
def parsePublish (packet : List Nat) : Option (Publish × Nat × List Nat) :=
  match packet with
  | [] => none
  | first :: rest =>
    if first / 16 != 3 then none
    else
      match decodeRemainingLength rest with
      | none => none
      | some (remaining, body) =>
        if body.length < remaining then none
        else
          match body.take remaining with
          | l0 :: l1 :: afterLength =>
            if afterLength.length < binary.Uint16 l0 l1 then none
            else
              let topic := afterLength.take (binary.Uint16 l0 l1)
              let afterTopic := afterLength.drop (binary.Uint16 l0 l1)
              if first / 2 % 4 > 0 then
                match afterTopic with
                | p0 :: p1 :: payload =>
                  some ({ qos := first / 2 % 4, retained := first % 2 == 1, topic := topic,
                          packetID := some (binary.Uint16 p0 p1), payload := payload },
                    remaining, body.drop remaining)
                | _ => none
              else
                some ({ qos := first / 2 % 4, retained := first % 2 == 1, topic := topic,
                        packetID := none, payload := afterTopic },
                  remaining, body.drop remaining)
          | _ => none

end mqtt

/-! ## Package `security`: parsing of the credentials -/

namespace strings

/-- The pieces of a list of characters between the occurrences of `sep`. -/
def splitChars (sep : Char) : List Char → List (List Char)
  | [] => [[]]
  | c :: cs =>
    if c == sep then [] :: splitChars sep cs
    else
      match splitChars sep cs with
      | [] => [[c]]
      | piece :: pieces => (c :: piece) :: pieces

/-- Go `strings.Split(s, sep)` for a separator of one character, the only kind the repository
uses: the substrings of `s` between the occurrences of `sep`, one more than there are
occurrences. -/
def Split (s : String) (sep : Char) : List String := (splitChars sep s.data).map String.mk

end strings

namespace security

/-- The `for _, scope := range scopeParts` loop of `ParseCredentials`: the scopes, trimmed,
that are not empty, in order. -/
def scopesLoop : List String → List String → List String
  | [], devices => devices
  | scope :: rest, devices =>
    let scope := strings.TrimSpace scope
    if scope != "" then scopesLoop rest (devices ++ [scope])
    else scopesLoop rest devices

/-- The body of the loop of `ParseCredentials` on an entry that is trimmed and not empty: the
credential it appends, or the error it returns.  `quote entry` is what `%q` prints. -/
def parseEntry (quote : String → String) (entry : String) : Except GoError Credential :=
  let parts := strings.Split entry '|'
  if parts.length != 3 then
    .error (fmt.Errorf [.lit "invalid credential entry ", .s (quote entry)])
  else
    let id := strings.TrimSpace (parts.getD 0 "")
    let token := strings.TrimSpace (parts.getD 1 "")
    if id == "" || token == "" then
      .error (fmt.Errorf [.lit "credential id and token are required in ", .s (quote entry)])
    else
      let scopeParts := strings.Split (parts.getD 2 "") ','
      let devices := scopesLoop scopeParts []
      if devices.length == 0 then
        .error (fmt.Errorf [.lit "at least one scope is required in ", .s (quote entry)])
      else .ok { ID := id, Token := token, Devices := devices }

/-- The `for _, entry := range entries` loop of `ParseCredentials`, `out` being the slice of
the credentials appended so far. -/
def parseLoop (quote : String → String) : List String → List Credential →
    Except GoError (List Credential)
  | [], out => .ok out
  | entry :: rest, out =>
    let entry := strings.TrimSpace entry
    if entry == "" then parseLoop quote rest out
    else
      match parseEntry quote entry with
      | .error err => .error err
      | .ok cred => parseLoop quote rest (out ++ [cred])

/-- Go `ParseCredentials`; a nil slice is the empty list. -/
def ParseCredentials (quote : String → String) (raw : String) :
    Except GoError (List Credential) :=
  let raw := strings.TrimSpace raw
  if raw == "" then .ok []
  else parseLoop quote (strings.Split raw ';') []

/-- An entry is well formed, in the words of the claims: it has exactly three parts separated
by `|`, the first (the id) and the second (the token) are not blank, and the third holds a
scope that is not blank among those separated by `,`. -/
def wellFormedEntry (entry : String) : Prop :=
  ∃ a b c : String, strings.Split entry '|' = [a, b, c] ∧
    strings.TrimSpace a ≠ "" ∧ strings.TrimSpace b ≠ "" ∧
    ∃ scope ∈ strings.Split c ',', strings.TrimSpace scope ≠ ""

end security

namespace fixtures

/-- What `%q` prints for a string without special characters: the string between double
quotes. -/
def quote (s : String) : String := "\"" ++ s ++ "\""

end fixtures

/-! ## Command `clockctl`: the client of the server -/

namespace strconv

/-- Go `strconv.ParseBool`: the twelve spellings it accepts; `none` is an error. -/
def ParseBool (str : String) : Option Bool :=
  if str == "1" || str == "t" || str == "T" || str == "TRUE" || str == "true" || str == "True"
  then some true
  else if str == "0" || str == "f" || str == "F" || str == "FALSE" || str == "false" ||
    str == "False"
  then some false
  else none

end strconv

namespace clockctl

/-- An outbound `*http.Request`: the method, the URL it was built for, its headers (the empty
string for a header that is not set) and its body. -/
structure Request where
  Method : String
  URL : String
  Header : String → String
  Body : List Nat

/-- An `*http.Response`, by what `send` reads of it: the status code and the first 1024 bytes of
the body. -/
structure Response where
  StatusCode : Int
  Body : List Nat

/-- The environment and the standard-library functions the client relies on and the model
leaves open, for a payload type `π`: `Getenv` is `os.Getenv`, `Parse` is `url.Parse`, `ToLower`
is `strings.ToLower`, `Marshal` is `json.Marshal` on the payload map, `NewRequest` is
`http.NewRequest` with a reader on the body, and `StringOf` is the conversion of bytes to a
string. -/
structure Stdlib (π : Type) where
  Getenv : String → String
  Parse : String → Except GoError url.URL
  ToLower : String → String
  Marshal : π → Except GoError (List Nat)
  NewRequest : String → String → List Nat → Except GoError Request
  StringOf : List Nat → String

/-- Go `apiClient`; what its `*http.Client` does with a request is the parameter `roundTrip` of
`send`. -/
structure apiClient where
  baseURL : String
  token : String

/-- Go `parseBoolEnv`. -/
def parseBoolEnv {π : Type} (lib : Stdlib π) (key : String) (fallback : Bool) : Bool :=
  let value := strings.TrimSpace (lib.Getenv key)
  if value == "" then fallback
  else
    match strconv.ParseBool value with
    | none => fallback
    | some parsed => parsed

/-- Go `isLocalHost`. -/
def isLocalHost {π : Type} (lib : Stdlib π) (host : String) : Bool :=
  let host := strings.TrimSpace (lib.ToLower host)
  if host == "localhost" || host == "::1" || strings.HasPrefix host "127." then true
  else false

/-- Go `ensureSafeTokenTransport`. -/
def ensureSafeTokenTransport {π : Type} (lib : Stdlib π) (baseURL : String) : Option GoError :=
  match lib.Parse baseURL with
  | .error err => some (fmt.Errorf [.lit "invalid CLOCK_SERVER_BASE_URL: ", .w err])
  | .ok parsed =>
    if api.equalFoldASCII parsed.Scheme.data "https".data then none
    else if parseBoolEnv lib "CLOCKCTL_ALLOW_INSECURE_HTTP" false then none
    else if api.equalFoldASCII parsed.Scheme.data "http".data && isLocalHost lib parsed.Hostname
    then none
    else
      some (fmt.Errorf [.lit "refusing to send bearer token over insecure transport to ",
        .s parsed.Host, .lit "; set CLOCKCTL_ALLOW_INSECURE_HTTP=true to override"])

/-- What one call of `send` does: the error returned, the state of the network after, and the
requests handed to `c.client.Do`. -/
structure SendResult (σ : Type) where
  err : Option GoError
  world : σ
  requests : List Request

/-- The end of `send`: `c.client.Do(req)` and the reading of the response; `roundTrip req` is
what `Do` does, a transition on the state of the network. -/
def exchange {π σ : Type} (lib : Stdlib π)
    (roundTrip : Request → σ → Except GoError Response × σ) (req : Request) (st : σ) :
    SendResult σ :=
  match roundTrip req st with
  | (.error err, st1) =>
    { err := some (fmt.Errorf [.lit "call server: ", .w err]), world := st1, requests := [req] }
  | (.ok resp, st1) =>
    if resp.StatusCode < 200 || resp.StatusCode ≥ 300 then
      { err := some (fmt.Errorf [.lit "server returned status=", .d resp.StatusCode,
          .lit " body=", .s (strings.TrimSpace (lib.StringOf resp.Body))]),
        world := st1, requests := [req] }
    else { err := none, world := st1, requests := [req] }

/-- Go `apiClient.send`. -/
def apiClient.send {π σ : Type} (c : apiClient) (lib : Stdlib π)
    (roundTrip : Request → σ → Except GoError Response × σ) (method path : String)
    (payload : π) (st : σ) : SendResult σ :=
  match lib.Marshal payload with
  | .error err =>
    { err := some (fmt.Errorf [.lit "marshal request: ", .w err]), world := st, requests := [] }
  | .ok body =>
    match lib.NewRequest method (c.baseURL ++ path) body with
    | .error err =>
      { err := some (fmt.Errorf [.lit "build request: ", .w err]), world := st, requests := [] }
    | .ok req =>
      let req := { req with Header := Function.update req.Header "Content-Type" "application/json" }
      if c.token != "" then
        match ensureSafeTokenTransport lib c.baseURL with
        | some err => { err := some err, world := st, requests := [] }
        | none =>
          exchange lib roundTrip
            { req with Header := Function.update req.Header "Authorization" ("Bearer " ++ c.token) }
            st
      else exchange lib roundTrip req st

end clockctl

namespace fixtures

/-- The environment and standard library of the examples: no environment variable is set,
`url.Parse` knows the base URL of `TestAPIClientRejectsInsecureTokenTransport` and a base URL
whose host name starts with `127.`, lower-casing is the one of ASCII, every payload marshals to
`{}`, and `http.NewRequest` accepts every method and URL. -/
def ctlLib : clockctl.Stdlib Unit :=
  { Getenv := fun _ => "",
    Parse := fun raw =>
      if raw == "http://clock-server.local" then
        .ok { Scheme := "http", Host := "clock-server.local", Hostname := "clock-server.local",
              Port := "" }
      else if raw == "http://127.evil.example:8080" then
        .ok { Scheme := "http", Host := "127.evil.example:8080",
              Hostname := "127.evil.example", Port := "8080" }
      else .error (errors.New "parse: unknown address"),
    ToLower := fun s => String.mk (s.data.map Char.toLower),
    Marshal := fun _ => .ok [0x7B, 0x7D],
    NewRequest := fun method target body =>
      .ok { Method := method, URL := target, Header := fun _ => "", Body := body },
    StringOf := fun _ => "" }

/-- A server that answers 202 to every request. -/
def accepting : clockctl.Request → Nat → Except GoError clockctl.Response × Nat :=
  fun _ n => (.ok { StatusCode := 202, Body := [] }, n + 1)

end fixtures

namespace clockctl

/-- A loopback host in the words of the claims, read generously: `localhost`, `::1`, or a host
starting with `127.` and made of digits and dots only, as every address of 127.0.0.0/8 is. -/
def isLoopbackHost (host : String) : Bool :=
  host == "localhost" || host == "::1" ||
    (strings.HasPrefix host "127." && host.data.all (fun ch => ch.isDigit || ch == '.'))

end clockctl

namespace fixtures

open domain application

/-- The `mockSender` of `composite/sender_test.go` as one of several transports, each with its
own counter: `Send` adds one to the counter `i` (`m.calls++`) and returns `err`.  The state
holds the counter of every transport. -/
def countingSender (i : Nat) (err : Option GoError) : ClockCommandSender (Nat → Nat) where
  Send _ calls := (err, Function.update calls i (calls i + 1))

/-- One counting transport per entry of `errs`, the first with the counter `idx`, each
returning its entry. -/
def countingSendersFrom :
    Nat → List (Option GoError) → List (Option (ClockCommandSender (Nat → Nat)))
  | _, [] => []
  | idx, err :: rest => some (countingSender idx err) :: countingSendersFrom (idx + 1) rest

/-- One counting transport per entry of `errs`, transport `i` returning `errs[i]`. -/
def countingSenders (errs : List (Option GoError)) :
    List (Option (ClockCommandSender (Nat → Nat))) :=
  countingSendersFrom 0 errs

end fixtures

namespace mqtt

end mqtt

namespace fixtures

open domain

/-- A brightness command whose device id has 65505 bytes; with the default topic prefix
`clocks/commands` its topic has 65536 bytes.  The JSON body carrying it fits in the default
limit of 65536 bytes. -/
def longIdBrightness : ClockCommand :=
  .SetBrightness { DeviceID := lettersA 65505, Level := 20 }

end fixtures

/-! ## Lemmas on the standard-library model -/

namespace GoError

theorem beq_self (e : GoError) : GoError.beq e e = true := by
  induction e using GoError.rec (motive_2 := fun es => GoError.beqList es es = true) <;>
    simp_all [GoError.beq, GoError.beqList]

end GoError

namespace errors

theorem IsErr_self (e : GoError) : IsErr e e = true := by
  cases e <;> simp [IsErr, GoError.beq_self]

end errors

namespace strings

theorem Contains_middle (a b c : String) : Contains (a ++ b ++ c) b := by
  unfold Contains
  simp only [String.data_append]
  exact List.infix_append a.data b.data c.data

end strings

namespace domain

theorem SetAlarmCommand.Validate_alarm_eq_some (rfc3339 : time.Time → String) (now : time.Time)
    (c : SetAlarmCommand) (e : GoError) (h : c.Validate rfc3339 now = some e) :
    ∃ m, e = .validationError m := by
  unfold SetAlarmCommand.Validate at h
  split_ifs at h <;> simp_all [NewValidationError, NewValidationErrorf] <;> exact ⟨_, h.symm⟩

theorem DisplayMessageCommand.Validate_message_eq_some (c : DisplayMessageCommand) (e : GoError)
    (h : c.Validate = some e) : ∃ m, e = .validationError m := by
  unfold DisplayMessageCommand.Validate at h
  split_ifs at h <;> simp_all [NewValidationError] <;> exact ⟨_, h.symm⟩

theorem SetBrightnessCommand.Validate_brightness_eq_some (c : SetBrightnessCommand) (e : GoError)
    (h : c.Validate = some e) : ∃ m, e = .validationError m := by
  unfold SetBrightnessCommand.Validate at h
  split_ifs at h <;> simp_all [NewValidationError] <;> exact ⟨_, h.symm⟩

theorem ClockCommand.Execute_eq_Validate (rfc3339 : time.Time → String) (now : time.Time)
    (cmd : ClockCommand) (h : cmd.isDomain = true) :
    cmd.Execute rfc3339 now = cmd.Validate rfc3339 now := by
  cases cmd <;> simp_all [ClockCommand.Execute, ClockCommand.Validate, ClockCommand.isDomain]

theorem ClockCommand.Validate_eq_some (rfc3339 : time.Time → String) (now : time.Time)
    (cmd : ClockCommand) (h : cmd.isDomain = true) (e : GoError)
    (hv : cmd.Validate rfc3339 now = some e) : ∃ m, e = .validationError m := by
  cases cmd with
  | SetAlarm c => exact SetAlarmCommand.Validate_alarm_eq_some rfc3339 now c e hv
  | DisplayMessage c => exact DisplayMessageCommand.Validate_message_eq_some c e hv
  | SetBrightness c => exact SetBrightnessCommand.Validate_brightness_eq_some c e hv
  | Other c => simp [ClockCommand.isDomain] at h

end domain

namespace application

open domain

theorem Dispatch_validation (σ : Type) (d : CommandDispatcher σ) (rfc3339 : time.Time → String)
    (now : time.Time) (cmd : ClockCommand) (st : σ) (m : String)
    (h : cmd.Execute rfc3339 now = some (.validationError m)) :
    d.Dispatch rfc3339 now (some cmd) st =
      { err := some (.wrapErrors
          ("validation error" ++ ": execute command " ++ cmd.CommandType ++ ": " ++ m)
          [ErrValidation, .validationError m]),
        state := st, sends := [] } := by
  simp [CommandDispatcher.Dispatch, h, errors.AsValidationError, fmt.Errorf, fmt.wrapped,
    fmt.Sprintf, fmt.Piece.render, String.join, GoError.Error, ErrValidation]


theorem Dispatch_send_error (σ : Type) (d : CommandDispatcher σ) (rfc3339 : time.Time → String)
    (now : time.Time) (cmd : ClockCommand) (st st1 : σ) (e : GoError)
    (hExec : cmd.Execute rfc3339 now = none) (hSend : d.sender.Send cmd st = (some e, st1)) :
    d.Dispatch rfc3339 now (some cmd) st =
      { err := some (.wrapErrors
          ("downstream error" ++ ": send command " ++ cmd.CommandType ++ ": " ++ e.Error)
          [ErrDownstream, e]),
        state := st1, sends := [cmd] } := by
  simp [CommandDispatcher.Dispatch, hExec, hSend, fmt.Errorf, fmt.wrapped,
    fmt.Sprintf, fmt.Piece.render, String.join, GoError.Error, ErrDownstream]

end application

/-! ## Dispatcher: error categories -/

section Dispatcher

open domain application

/-- C2: for every SetAlarm, DisplayMessage or SetBrightness command whose Validate fails with
`verr`, Dispatch returns a non-nil error that is in the validation category, is not in the
downstream category, still wraps `verr`, a domain ValidationError, and the sender is invoked
zero times (no Send, state untouched). -/
theorem C2_dispatch_validation_failure (σ : Type) (d : CommandDispatcher σ)
    (rfc3339 : time.Time → String) (now : time.Time) (cmd : ClockCommand) (st : σ)
    (verr : GoError) (hDomain : cmd.isDomain = true)
    (hFail : cmd.Validate rfc3339 now = some verr) :
    ∃ err, (d.Dispatch rfc3339 now (some cmd) st).err = some err ∧
      errors.Is (some err) ErrValidation = true ∧
      errors.Is (some err) ErrDownstream = false ∧
      errors.Is (some err) verr = true ∧
      (∃ m, verr = .validationError m ∧ errors.AsValidationError err = some m) ∧
      (d.Dispatch rfc3339 now (some cmd) st).sends = [] ∧
      (d.Dispatch rfc3339 now (some cmd) st).state = st := by
  obtain ⟨m, rfl⟩ := ClockCommand.Validate_eq_some rfc3339 now cmd hDomain verr hFail
  have hExec : cmd.Execute rfc3339 now = some (.validationError m) := by
    rw [ClockCommand.Execute_eq_Validate rfc3339 now cmd hDomain, hFail]
  rw [Dispatch_validation σ d rfc3339 now cmd st m hExec]
  refine ⟨_, rfl, ?_, ?_, ?_, ⟨m, rfl, ?_⟩, rfl, rfl⟩
  · simp [errors.Is, errors.IsErr, errors.IsAny, GoError.beq, ErrValidation]
  · simp [errors.Is, errors.IsErr, errors.IsAny, GoError.beq, ErrValidation, ErrDownstream]
  · simp [errors.Is, errors.IsErr, errors.IsAny, GoError.beq]
  · simp [errors.AsValidationError, errors.AsValidationErrorAny, ErrValidation]

/-- C2 at a brightness level of 101: the hypotheses hold and give the conclusion. -/
theorem C2_dispatch_validation_failure_witness :
    (fixtures.brightness 101).isDomain = true ∧
    (fixtures.brightness 101).Validate (fun _ => "") ⟨0⟩ =
      some (.validationError "brightness level must be between 0 and 100") ∧
    ∃ err,
      ((NewCommandDispatcher (fixtures.testSender none)).Dispatch (fun _ => "") ⟨0⟩
        (some (fixtures.brightness 101)) 0).err = some err ∧
      errors.Is (some err) ErrValidation = true ∧
      errors.Is (some err) ErrDownstream = false ∧
      errors.Is (some err) (.validationError "brightness level must be between 0 and 100") = true ∧
      (∃ m, GoError.validationError "brightness level must be between 0 and 100" =
          .validationError m ∧ errors.AsValidationError err = some m) ∧
      ((NewCommandDispatcher (fixtures.testSender none)).Dispatch (fun _ => "") ⟨0⟩
        (some (fixtures.brightness 101)) 0).sends = [] ∧
      ((NewCommandDispatcher (fixtures.testSender none)).Dispatch (fun _ => "") ⟨0⟩
        (some (fixtures.brightness 101)) 0).state = 0 :=
  ⟨rfl, rfl, C2_dispatch_validation_failure Nat _ (fun _ => "") ⟨0⟩
    (fixtures.brightness 101) 0 _ rfl rfl⟩

/-- C3: for every non-nil command whose Execute succeeds and every sender whose Send returns an
error `e`, Dispatch invokes the sender exactly once (with that command) and returns an error in
the downstream category that wraps `e` and whose message contains
`send command <CommandType()>`. -/
theorem C3_dispatch_send_failure (σ : Type) (d : CommandDispatcher σ)
    (rfc3339 : time.Time → String) (now : time.Time) (cmd : ClockCommand) (st st1 : σ)
    (e : GoError) (hExec : cmd.Execute rfc3339 now = none)
    (hSend : d.sender.Send cmd st = (some e, st1)) :
    ∃ err, (d.Dispatch rfc3339 now (some cmd) st).err = some err ∧
      errors.Is (some err) ErrDownstream = true ∧
      errors.Is (some err) e = true ∧
      strings.Contains err.Error ("send command " ++ cmd.CommandType) ∧
      (d.Dispatch rfc3339 now (some cmd) st).sends = [cmd] ∧
      (d.Dispatch rfc3339 now (some cmd) st).state = st1 := by
  rw [Dispatch_send_error σ d rfc3339 now cmd st st1 e hExec hSend]
  refine ⟨_, rfl, ?_, ?_, ?_, rfl, rfl⟩
  · simp [errors.Is, errors.IsErr, errors.IsAny, GoError.beq, ErrDownstream]
  · simp [errors.Is, errors.IsErr, errors.IsAny, errors.IsErr_self]
  · have hmsg : (GoError.wrapErrors
          ("downstream error" ++ ": send command " ++ cmd.CommandType ++ ": " ++ e.Error)
          [ErrDownstream, e]).Error =
        "downstream error: " ++ ("send command " ++ cmd.CommandType) ++ (": " ++ e.Error) := by
      simp only [GoError.Error, String.ext_iff, String.data_append, List.append_assoc]
      rfl
    rw [hmsg]
    exact strings.Contains_middle _ _ _

/-- C3 on the case of `TestDispatchReturnsSendError`: the command of type `send_test` and a
sender that fails with `transport down`. -/
theorem C3_dispatch_send_failure_witness :
    (fixtures.testCommand "send_test" none).Execute (fun _ => "") ⟨0⟩ = none ∧
    (fixtures.testSender (some (errors.New "transport down"))).Send
        (fixtures.testCommand "send_test" none) 0 = (some (errors.New "transport down"), 1) ∧
    ∃ err,
      ((NewCommandDispatcher (fixtures.testSender (some (errors.New "transport down")))).Dispatch
        (fun _ => "") ⟨0⟩ (some (fixtures.testCommand "send_test" none)) 0).err = some err ∧
      errors.Is (some err) ErrDownstream = true ∧
      errors.Is (some err) (errors.New "transport down") = true ∧
      strings.Contains err.Error ("send command " ++ "send_test") ∧
      ((NewCommandDispatcher (fixtures.testSender (some (errors.New "transport down")))).Dispatch
        (fun _ => "") ⟨0⟩ (some (fixtures.testCommand "send_test" none)) 0).sends =
        [fixtures.testCommand "send_test" none] ∧
      ((NewCommandDispatcher (fixtures.testSender (some (errors.New "transport down")))).Dispatch
        (fun _ => "") ⟨0⟩ (some (fixtures.testCommand "send_test" none)) 0).state = 1 :=
  ⟨rfl, rfl,
    C3_dispatch_send_failure Nat
      (NewCommandDispatcher (fixtures.testSender (some (errors.New "transport down"))))
      (fun _ => "") ⟨0⟩ (fixtures.testCommand "send_test" none) 0 1
      (errors.New "transport down") rfl rfl⟩

end Dispatcher

namespace composite

open domain application

theorem toString_natCast (n : Nat) : toString (n : Int) = toString n := rfl

theorem contributions_cons (idx : Nat) (o : Option (Option GoError))
    (os : List (Option (Option GoError))) :
    contributions idx (o :: os) =
      (match contribution idx o with
        | some e => [e]
        | none => []) ++ contributions (idx + 1) os := by
  unfold contributions
  rw [List.enumFrom_cons, List.filterMap_cons]
  cases contribution idx o <;> rfl

theorem expectedCalls_cons {σ : Type} (cmd : ClockCommand) (idx : Nat)
    (s : Option (ClockCommandSender σ)) (rest : List (Option (ClockCommandSender σ))) :
    expectedCalls cmd idx (s :: rest) =
      (match s with
        | some _ => [(idx, cmd)]
        | none => []) ++ expectedCalls cmd (idx + 1) rest := by
  unfold expectedCalls
  rw [List.enumFrom_cons, List.filterMap_cons]
  cases s <;> rfl

theorem sendLoop_eq (σ : Type) (cmd : ClockCommand)
    (senders : List (Option (ClockCommandSender σ))) :
    ∀ (idx : Nat) (acc : LoopState σ),
      (sendLoop cmd idx senders acc).errs =
          acc.errs ++ contributions idx (outcomes cmd senders acc.state) ∧
      (sendLoop cmd idx senders acc).calls = acc.calls ++ expectedCalls cmd idx senders := by
  induction senders with
  | nil =>
    intro idx acc
    simp [sendLoop, outcomes, contributions, expectedCalls]
  | cons s rest ih =>
    intro idx acc
    cases s with
    | none =>
      simp [sendLoop, outcomes, contributions_cons, contribution, expectedCalls_cons, ih,
        fmt.Errorf, fmt.wrapped, fmt.Sprintf, fmt.Piece.render, String.join, toString_natCast]
    | some sender =>
      rcases hS : sender.Send cmd acc.state with ⟨r, st1⟩
      cases r with
      | none =>
        simp [sendLoop, outcomes, contributions_cons, contribution, expectedCalls_cons, ih, hS]
      | some e =>
        simp [sendLoop, outcomes, contributions_cons, contribution, expectedCalls_cons, ih, hS,
          fmt.Errorf, fmt.wrapped, fmt.Sprintf, fmt.Piece.render, String.join, toString_natCast]

theorem contributions_length (os : List (Option (Option GoError))) :
    ∀ idx : Nat, (contributions idx os).length = os.countP failed := by
  induction os with
  | nil => intro idx; simp [contributions]
  | cons o rest ih =>
    intro idx
    rw [contributions_cons, List.length_append, ih, List.countP_cons]
    rcases o with _ | _ | e <;> simp [contribution, failed] <;> omega

theorem outcomes_length {σ : Type} (cmd : ClockCommand)
    (senders : List (Option (ClockCommandSender σ))) :
    ∀ st : σ, (outcomes cmd senders st).length = senders.length := by
  induction senders with
  | nil => intro st; rfl
  | cons s rest ih => intro st; cases s <;> simp [outcomes, ih]

/-- `Send` on a non-empty list, in closed form. -/
theorem Send_eq (σ : Type) (s : Sender σ) (cmd : ClockCommand) (st : σ)
    (hN : 1 ≤ s.senders.length) :
    (s.Send cmd st).err = errors.Join (contributions 0 (outcomes cmd s.senders st)) ∧
    (s.Send cmd st).calls = expectedCalls cmd 0 s.senders := by
  have h := sendLoop_eq σ cmd s.senders 0 { errs := [], state := st, calls := [] }
  have hne : s.senders.length ≠ 0 := by omega
  unfold Sender.Send
  simp only [beq_iff_eq, hne, if_false]
  simp only [List.nil_append] at h
  by_cases hE : (contributions 0 (outcomes cmd s.senders st)).length > 0
  · simp [h.1, h.2, hE]
  · have : contributions 0 (outcomes cmd s.senders st) = [] := by
      cases hc : contributions 0 (outcomes cmd s.senders st) with
      | nil => rfl
      | cons a b => rw [hc] at hE; simp at hE
    simp [h.1, h.2, this, errors.Join]


theorem expectedCalls_snd {σ : Type} (cmd : ClockCommand)
    (senders : List (Option (ClockCommandSender σ))) :
    ∀ (idx : Nat), ∀ c ∈ expectedCalls cmd idx senders, c.2 = cmd := by
  induction senders with
  | nil => intro idx c hc; simp [expectedCalls] at hc
  | cons s rest ih =>
    intro idx c hc
    rw [expectedCalls_cons, List.mem_append] at hc
    rcases hc with hc | hc
    · cases s <;> simp at hc
      rw [hc]
    · exact ih (idx + 1) c hc

theorem mem_expectedCalls_fst {σ : Type} (cmd : ClockCommand)
    (senders : List (Option (ClockCommandSender σ))) :
    ∀ (idx i : Nat), i ∈ (expectedCalls cmd idx senders).map Prod.fst ↔
      idx ≤ i ∧ ∃ t, senders[i - idx]? = some (some t) := by
  induction senders with
  | nil => intro idx i; simp [expectedCalls]
  | cons s rest ih =>
    intro idx i
    rw [expectedCalls_cons, List.map_append, List.mem_append, ih (idx + 1) i]
    constructor
    · rintro (h | ⟨h1, t, h2⟩)
      · cases s with
        | none => simp at h
        | some t0 =>
          simp at h
          subst h
          exact ⟨le_refl _, t0, by simp⟩
      · refine ⟨by omega, t, ?_⟩
        have : i - idx = (i - (idx + 1)) + 1 := by omega
        rw [this, List.getElem?_cons_succ]
        exact h2
    · rintro ⟨h1, t, h2⟩
      by_cases hi : i = idx
      · subst hi
        left
        simp at h2
        subst h2
        simp
      · right
        refine ⟨by omega, t, ?_⟩
        have : i - idx = (i - (idx + 1)) + 1 := by omega
        rw [this, List.getElem?_cons_succ] at h2
        exact h2

theorem expectedCalls_pairwise {σ : Type} (cmd : ClockCommand)
    (senders : List (Option (ClockCommandSender σ))) :
    ∀ (idx : Nat), ((expectedCalls cmd idx senders).map Prod.fst).Pairwise (· < ·) := by
  induction senders with
  | nil => intro idx; simp [expectedCalls]
  | cons s rest ih =>
    intro idx
    rw [expectedCalls_cons, List.map_append, List.pairwise_append]
    refine ⟨?_, ih (idx + 1), ?_⟩
    · cases s <;> simp
    · intro a ha b hb
      have hb2 := ((mem_expectedCalls_fst cmd rest (idx + 1) b).1 hb).1
      cases s with
      | none => simp at ha
      | some t0 =>
        simp at ha
        omega

theorem expectedCalls_ne_nil {σ : Type} (cmd : ClockCommand)
    (senders : List (Option (ClockCommandSender σ))) (t : ClockCommandSender σ)
    (ht : some t ∈ senders) : ∀ (idx : Nat), expectedCalls cmd idx senders ≠ [] := by
  induction senders with
  | nil => simp at ht
  | cons s rest ih =>
    intro idx
    rw [expectedCalls_cons]
    cases s with
    | some t0 => simp
    | none =>
      have : some t ∈ rest := by simpa using ht
      simpa using ih this (idx + 1)

theorem IsAny_of_mem (target e : GoError) (es : List GoError) (hmem : e ∈ es)
    (h : errors.IsErr target e = true) : errors.IsAny target es = true := by
  induction es with
  | nil => simp at hmem
  | cons a rest ih =>
    rcases List.mem_cons.1 hmem with rfl | hm
    · simp [errors.IsAny, h]
    · simp [errors.IsAny, ih hm]

theorem mem_contributions (e : GoError) (os : List (Option (Option GoError)))
    (h : some (some e) ∈ os) :
    ∀ idx : Nat, ∃ i : Nat,
      GoError.wrapError ("sender " ++ toString i ++ " failed: " ++ e.Error) e ∈
      contributions idx os := by
  induction os with
  | nil => simp at h
  | cons o rest ih =>
    intro idx
    rw [contributions_cons]
    rcases List.mem_cons.1 h with rfl | hm
    · exact ⟨idx, by simp [contribution]⟩
    · obtain ⟨i, hi⟩ := ih hm (idx + 1)
      exact ⟨i, List.mem_append_right _ hi⟩

/-- The state the loop of `Send` reaches: that of the non-nil entries run one after another in
list order, each on the state the one before left. -/
theorem sendLoop_state (σ : Type) (cmd : ClockCommand)
    (senders : List (Option (ClockCommandSender σ))) :
    ∀ (idx : Nat) (acc : LoopState σ),
      (sendLoop cmd idx senders acc).state =
        senders.foldl (fun st1 t => t.elim st1 (fun t => (t.Send cmd st1).2)) acc.state := by
  induction senders with
  | nil => intro idx acc; rfl
  | cons s rest ih =>
    intro idx acc
    cases s with
    | none => simp [sendLoop, ih]
    | some sender =>
      rcases hS : sender.Send cmd acc.state with ⟨r, st1⟩
      cases r <;> simp [sendLoop, ih, hS]

theorem Send_state (σ : Type) (s : Sender σ) (cmd : ClockCommand) (st : σ) :
    (s.Send cmd st).state =
      s.senders.foldl (fun st1 t => t.elim st1 (fun t => (t.Send cmd st1).2)) st := by
  have h := sendLoop_state σ cmd s.senders 0 { errs := [], state := st, calls := [] }
  unfold Sender.Send
  by_cases h0 : s.senders.length = 0
  · have : s.senders = [] := List.length_eq_zero.mp h0
    simp [this]
  · simp only [beq_iff_eq, h0, if_false]
    split <;> exact h

theorem countingSenders_state (cmd : ClockCommand) (errs : List (Option GoError)) :
    ∀ (idx : Nat) (st : Nat → Nat),
      (fixtures.countingSendersFrom idx errs).foldl
          (fun st1 t => t.elim st1 (fun t => (t.Send cmd st1).2)) st =
        fun i => st i + (if idx ≤ i ∧ i < idx + errs.length then 1 else 0) := by
  induction errs with
  | nil =>
    intro idx st
    funext i
    have : ¬ (idx ≤ i ∧ i < idx + 0) := by omega
    simp [fixtures.countingSendersFrom]
  | cons e rest ih =>
    intro idx st
    rw [fixtures.countingSendersFrom, List.foldl_cons, ih]
    funext i
    simp only [Option.elim, fixtures.countingSender, List.length_cons]
    by_cases hi : i = idx
    · subst hi
      simp
    · rw [Function.update_noteq hi]
      congr 1
      by_cases h1 : idx + 1 ≤ i ∧ i < idx + 1 + rest.length
      · rw [if_pos h1, if_pos (by omega)]
      · rw [if_neg h1, if_neg (by omega)]

end composite
/-! ## Composite transport -/

section Composite

open domain application composite

/-- C5: for a composite sender with at least one configured entry, Send calls the Send of every
non-nil entry exactly once, in list order, each with the command it was given, whatever the
earlier entries returned, and it returns an error if and only if at least one entry fails
(is nil or returns an error), that is M > 0.  The calls are real: the state Send leaves is the
one reached by running the non-nil entries one after another in list order, each on the state
the one before left; and for transports that count their calls, as the mock of the test suite
does, every counter stands at 1 after Send, whatever the transports returned. -/
theorem C5_composite_send_invokes_all (σ : Type) (s : Sender σ) (cmd : ClockCommand) (st : σ)
    (hN : 1 ≤ s.senders.length) :
    (s.Send cmd st).calls = expectedCalls cmd 0 s.senders ∧
    (∀ c ∈ (s.Send cmd st).calls, c.2 = cmd) ∧
    ((s.Send cmd st).calls.map Prod.fst).Pairwise (· < ·) ∧
    (∀ i : Nat, i ∈ (s.Send cmd st).calls.map Prod.fst ↔ ∃ t, s.senders[i]? = some (some t)) ∧
    ((s.Send cmd st).err.isSome = true ↔ 0 < (outcomes cmd s.senders st).countP failed) ∧
    (s.Send cmd st).state =
      s.senders.foldl (fun st1 t => t.elim st1 (fun t => (t.Send cmd st1).2)) st ∧
    (∀ (errs : List (Option GoError)) (i : Nat),
      ((NewSender (fixtures.countingSenders errs)).Send cmd (fun _ => 0)).state i =
        if i < errs.length then 1 else 0) := by
  obtain ⟨hErr, hCalls⟩ := Send_eq σ s cmd st hN
  refine ⟨hCalls, ?_, ?_, ?_, ?_, Send_state σ s cmd st, ?_⟩
  · rw [hCalls]
    exact expectedCalls_snd cmd s.senders 0
  · rw [hCalls]
    exact expectedCalls_pairwise cmd s.senders 0
  · intro i
    rw [hCalls, mem_expectedCalls_fst cmd s.senders 0 i]
    simp
  · rw [hErr, ← contributions_length _ 0]
    cases hc : contributions 0 (outcomes cmd s.senders st) <;> simp [errors.Join]
  · intro errs i
    rw [Send_state]
    unfold NewSender fixtures.countingSenders
    simp only [countingSenders_state]
    simp

/-- C5 on a list of three entries (a succeeding sender, a nil entry, a failing sender, which
share one call counter), and on the two failing mocks of TestCompositeSenderCollectsErrors. -/
theorem C5_composite_send_invokes_all_witness :
    1 ≤ (NewSender fixtures.mixedSenders).senders.length ∧
    ((NewSender fixtures.mixedSenders).Send (fixtures.brightness 20) 0).calls =
      [(0, fixtures.brightness 20), (2, fixtures.brightness 20)] ∧
    (((NewSender fixtures.mixedSenders).Send (fixtures.brightness 20) 0).err.isSome = true ↔
      0 < (outcomes (fixtures.brightness 20) (NewSender fixtures.mixedSenders).senders 0).countP
        failed) ∧
    ((NewSender fixtures.mixedSenders).Send (fixtures.brightness 20) 0).state = 2 ∧
    ((NewSender (fixtures.countingSenders [some (errors.New "a"), some (errors.New "b")])).Send
        (fixtures.brightness 20) (fun _ => 0)).state 0 = 1 ∧
    ((NewSender (fixtures.countingSenders [some (errors.New "a"), some (errors.New "b")])).Send
        (fixtures.brightness 20) (fun _ => 0)).state 1 = 1 :=
  ⟨by decide,
    (C5_composite_send_invokes_all Nat (NewSender fixtures.mixedSenders) (fixtures.brightness 20) 0
      (by decide)).1,
    (C5_composite_send_invokes_all Nat (NewSender fixtures.mixedSenders) (fixtures.brightness 20) 0
      (by decide)).2.2.2.2.1,
    (C5_composite_send_invokes_all Nat (NewSender fixtures.mixedSenders) (fixtures.brightness 20) 0
      (by decide)).2.2.2.2.2.1,
    (C5_composite_send_invokes_all Nat (NewSender fixtures.mixedSenders) (fixtures.brightness 20) 0
      (by decide)).2.2.2.2.2.2 [some (errors.New "a"), some (errors.New "b")] 0,
    (C5_composite_send_invokes_all Nat (NewSender fixtures.mixedSenders) (fixtures.brightness 20) 0
      (by decide)).2.2.2.2.2.2 [some (errors.New "a"), some (errors.New "b")] 1⟩

/-- C6: when Send of a composite with at least one entry returns an error, that error is the
join of one constituent per failing entry and none for the succeeding ones, in index order:
`sender at index i is nil` for a nil entry at index i, and for an entry at index i failing with
`e` the error `sender i failed: <e>` wrapping `e`; so errors.Is finds every underlying failure
in the joined error. -/
theorem C6_composite_joined_error (σ : Type) (s : Sender σ) (cmd : ClockCommand) (st : σ)
    (hN : 1 ≤ s.senders.length) (hErr : (s.Send cmd st).err.isSome = true) :
    (s.Send cmd st).err =
      some (.joinError (contributions 0 (outcomes cmd s.senders st))) ∧
    (contributions 0 (outcomes cmd s.senders st)).length =
      (outcomes cmd s.senders st).countP failed ∧
    (outcomes cmd s.senders st).length = s.senders.length ∧
    (∀ e, some (some e) ∈ outcomes cmd s.senders st →
      errors.Is (s.Send cmd st).err e = true) := by
  obtain ⟨hE, _⟩ := Send_eq σ s cmd st hN
  have hJoin : (s.Send cmd st).err =
      some (.joinError (contributions 0 (outcomes cmd s.senders st))) := by
    rw [hE] at hErr ⊢
    cases hc : contributions 0 (outcomes cmd s.senders st) with
    | nil => simp [errors.Join, hc] at hErr
    | cons a b => simp [errors.Join]
  refine ⟨hJoin, contributions_length _ 0, outcomes_length cmd s.senders st, ?_⟩
  intro e he
  obtain ⟨i, hi⟩ := mem_contributions e _ he 0
  rw [hJoin]
  simp only [errors.Is, errors.IsErr]
  rw [IsAny_of_mem e _ _ hi (by simp [errors.IsErr, errors.IsErr_self])]
  simp

/-- C6 on the list of three entries: the nil entry at index 1 and the failure `a` at index 2
give the two constituents, in that order. -/
theorem C6_composite_joined_error_witness :
    1 ≤ (NewSender fixtures.mixedSenders).senders.length ∧
    ((NewSender fixtures.mixedSenders).Send (fixtures.brightness 20) 0).err.isSome = true ∧
    ((NewSender fixtures.mixedSenders).Send (fixtures.brightness 20) 0).err =
      some (.joinError [.errorString "sender at index 1 is nil",
        .wrapError "sender 2 failed: a" (.errorString "a")]) :=
  ⟨by decide, rfl,
    (C6_composite_joined_error Nat (NewSender fixtures.mixedSenders) (fixtures.brightness 20) 0
      (by decide) rfl).1⟩

end Composite
/-! ## Downstream errors and transport attempts -/

section Propagation

open domain application composite

/-- C4, as stated, fails in two ways.  A command whose Execute fails with an error that is not
a ValidationError (the case of `TestDispatchReturnsExecuteError`) gets a downstream-category
error although the sender is never invoked; and a composite sender without any transport
makes Dispatch return a downstream-category error although no transport Send is attempted. -/
theorem C4_counterexample :
    (errors.Is
        ((NewCommandDispatcher (fixtures.testSender none)).Dispatch (fun _ => "") ⟨0⟩
          (some (fixtures.testCommand "failing" (some (errors.New "validation failed")))) 0).err
        ErrDownstream = true ∧
      ((NewCommandDispatcher (fixtures.testSender none)).Dispatch (fun _ => "") ⟨0⟩
          (some (fixtures.testCommand "failing" (some (errors.New "validation failed")))) 0).sends
        = [] ∧
      ((NewCommandDispatcher (fixtures.testSender none)).Dispatch (fun _ => "") ⟨0⟩
          (some (fixtures.testCommand "failing" (some (errors.New "validation failed")))) 0).state
        = 0) ∧
    (errors.Is
        ((NewCommandDispatcher (NewSender ([] : List (Option (ClockCommandSender Nat)))).asSender).Dispatch
          (fun _ => "") ⟨0⟩ (some (fixtures.brightness 20)) (0, [])).err
        ErrDownstream = true ∧
      ((NewCommandDispatcher (NewSender ([] : List (Option (ClockCommandSender Nat)))).asSender).Dispatch
          (fun _ => "") ⟨0⟩ (some (fixtures.brightness 20)) (0, [])).state = (0, [])) := by
  refine ⟨⟨rfl, rfl, rfl⟩, rfl, rfl⟩

/-- C4, amended: for every command whose Execute succeeds or fails with a domain
ValidationError (every SetAlarm, DisplayMessage and SetBrightness command) and every sender,
whenever Dispatch returns an error in the downstream category the sender's Send has been
invoked, exactly once and with that command; and when the sender is a composite with at least
one non-nil transport, the Send of every non-nil transport has been attempted, so at least
one. -/
theorem C4_downstream_only_after_send :
    (∀ (σ : Type) (d : CommandDispatcher σ) (rfc3339 : time.Time → String) (now : time.Time)
        (cmd : ClockCommand) (st : σ),
        (cmd.Execute rfc3339 now = none ∨ ∃ m, cmd.Execute rfc3339 now = some (.validationError m)) →
        errors.Is (d.Dispatch rfc3339 now (some cmd) st).err ErrDownstream = true →
        (d.Dispatch rfc3339 now (some cmd) st).sends = [cmd]) ∧
    (∀ (σ : Type) (s : Sender σ) (rfc3339 : time.Time → String) (now : time.Time)
        (cmd : ClockCommand) (st : σ) (t : ClockCommandSender σ),
        (cmd.Execute rfc3339 now = none ∨ ∃ m, cmd.Execute rfc3339 now = some (.validationError m)) →
        some t ∈ s.senders →
        errors.Is ((NewCommandDispatcher s.asSender).Dispatch rfc3339 now (some cmd) (st, [])).err
          ErrDownstream = true →
        ((NewCommandDispatcher s.asSender).Dispatch rfc3339 now (some cmd) (st, [])).state.2 =
            expectedCalls cmd 0 s.senders ∧
        ((NewCommandDispatcher s.asSender).Dispatch rfc3339 now (some cmd) (st, [])).state.2 ≠
            []) := by
  have key : ∀ (σ : Type) (d : CommandDispatcher σ) (rfc3339 : time.Time → String)
      (now : time.Time) (cmd : ClockCommand) (st : σ),
      (cmd.Execute rfc3339 now = none ∨ ∃ m, cmd.Execute rfc3339 now = some (.validationError m)) →
      errors.Is (d.Dispatch rfc3339 now (some cmd) st).err ErrDownstream = true →
      cmd.Execute rfc3339 now = none := by
    intro σ d rfc3339 now cmd st hExec hDown
    rcases hExec with h | ⟨m, h⟩
    · exact h
    · rw [Dispatch_validation σ d rfc3339 now cmd st m h] at hDown
      simp [errors.Is, errors.IsErr, errors.IsAny, GoError.beq, ErrValidation, ErrDownstream]
        at hDown
  constructor
  · intro σ d rfc3339 now cmd st hExec hDown
    have h := key σ d rfc3339 now cmd st hExec hDown
    unfold CommandDispatcher.Dispatch
    simp only [h]
    rcases d.sender.Send cmd st with ⟨_ | e, st1⟩ <;> rfl
  · intro σ s rfc3339 now cmd st t hExec ht hDown
    have h := key _ _ rfc3339 now cmd (st, []) hExec hDown
    have hN : 1 ≤ s.senders.length := List.length_pos_of_mem ht
    have hCalls := (Send_eq σ s cmd st hN).2
    have hState : ((NewCommandDispatcher s.asSender).Dispatch rfc3339 now (some cmd)
        (st, [])).state.2 = (s.Send cmd st).calls := by
      unfold CommandDispatcher.Dispatch
      simp only [h, NewCommandDispatcher, Sender.asSender]
      rcases (s.Send cmd st).err with _ | e <;> simp
    rw [hState, hCalls]
    exact ⟨rfl, expectedCalls_ne_nil cmd s.senders t ht 0⟩

/-- C4, amended, on a brightness command sent through a failing sender and through the
composite list of three entries. -/
theorem C4_downstream_only_after_send_witness :
    ((fixtures.brightness 20).Execute (fun _ => "") ⟨0⟩ = none ∨
        ∃ m, (fixtures.brightness 20).Execute (fun _ => "") ⟨0⟩ = some (.validationError m)) ∧
    errors.Is ((NewCommandDispatcher (fixtures.testSender (some (errors.New "transport down")))).Dispatch
        (fun _ => "") ⟨0⟩ (some (fixtures.brightness 20)) 0).err ErrDownstream = true ∧
    ((NewCommandDispatcher (fixtures.testSender (some (errors.New "transport down")))).Dispatch
        (fun _ => "") ⟨0⟩ (some (fixtures.brightness 20)) 0).sends = [fixtures.brightness 20] ∧
    some (fixtures.testSender none) ∈ (NewSender fixtures.mixedSenders).senders ∧
    ((NewCommandDispatcher (NewSender fixtures.mixedSenders).asSender).Dispatch (fun _ => "") ⟨0⟩
        (some (fixtures.brightness 20)) (0, [])).state.2 ≠ [] :=
  ⟨Or.inl rfl, rfl,
    C4_downstream_only_after_send.1 Nat _ (fun _ => "") ⟨0⟩ (fixtures.brightness 20) 0
      (Or.inl rfl) rfl,
    List.mem_cons_self _ _,
    (C4_downstream_only_after_send.2 Nat (NewSender fixtures.mixedSenders) (fun _ => "") ⟨0⟩
      (fixtures.brightness 20) 0 (fixtures.testSender none) (Or.inl rfl)
      (List.mem_cons_self _ _) rfl).2⟩

end Propagation

/-! ## Authentication-failure limiter -/

namespace api

theorem Sub_ge_Minute_iff (t u : time.Time) :
    t.Sub u ≥ time.Minute ↔ t.nsec - u.nsec ≥ time.Minute := by
  unfold time.Time.Sub time.Minute time.maxDuration time.minDuration time.Duration
  simp only []
  split_ifs <;> constructor <;> intro _ <;> omega

theorem IsBlocked_no_entry (l : authFailureLimiter) (now : time.Time) (key : String)
    (h : l.entries key = none) : l.IsBlocked now key = (false, l) := by
  simp [authFailureLimiter.IsBlocked, h]

theorem IsBlocked_in_window (l : authFailureLimiter) (now : time.Time) (key : String)
    (e : authFailureEntry) (h : l.entries key = some e) (hw : l.window = time.Minute)
    (hin : now.nsec - e.windowStart.nsec < time.Minute) :
    l.IsBlocked now key = (decide (e.count ≥ l.limit), l) := by
  have : ¬ (now.Sub e.windowStart ≥ time.Minute) := by
    rw [Sub_ge_Minute_iff]; omega
  simp [authFailureLimiter.IsBlocked, h, hw, this]

theorem IsBlocked_elapsed (l : authFailureLimiter) (now : time.Time) (key : String)
    (e : authFailureEntry) (h : l.entries key = some e) (hw : l.window = time.Minute)
    (hout : now.nsec - e.windowStart.nsec ≥ time.Minute) :
    (l.IsBlocked now key).1 = false := by
  have : now.Sub e.windowStart ≥ time.Minute := (Sub_ge_Minute_iff _ _).2 hout
  simp [authFailureLimiter.IsBlocked, h, hw, this]

theorem RecordFailure_limit (l : authFailureLimiter) (now : time.Time) (key : String) :
    (l.RecordFailure now key).limit = l.limit ∧ (l.RecordFailure now key).window = l.window := by
  unfold authFailureLimiter.RecordFailure
  split
  · exact ⟨rfl, rfl⟩
  · split_ifs <;> exact ⟨rfl, rfl⟩

theorem RecordFailure_fresh (l : authFailureLimiter) (now : time.Time) (key : String)
    (h : l.entries key = none) :
    (l.RecordFailure now key).entries key = some { windowStart := now, count := 1 } := by
  simp [authFailureLimiter.RecordFailure, h]

theorem RecordFailure_in_window (l : authFailureLimiter) (now : time.Time) (key : String)
    (e : authFailureEntry) (h : l.entries key = some e) (hw : l.window = time.Minute)
    (hin : now.nsec - e.windowStart.nsec < time.Minute) :
    (l.RecordFailure now key).entries key =
      some { windowStart := e.windowStart, count := e.count + 1 } := by
  have : ¬ (now.Sub e.windowStart ≥ time.Minute) := by
    rw [Sub_ge_Minute_iff]; omega
  simp [authFailureLimiter.RecordFailure, h, hw, this]

theorem recordFailures_limit (key : String) (ts : List time.Time) :
    ∀ l : authFailureLimiter, (recordFailures l key ts).limit = l.limit ∧
      (recordFailures l key ts).window = l.window := by
  induction ts with
  | nil => intro l; exact ⟨rfl, rfl⟩
  | cons t rest ih =>
    intro l
    simp only [recordFailures]
    rw [(ih _).1, (ih _).2]
    exact RecordFailure_limit l t key

/-- Failures recorded inside the window of an existing entry only raise its count. -/
theorem recordFailures_in_window (key : String) (ts : List time.Time) :
    ∀ (l : authFailureLimiter) (e : authFailureEntry), l.entries key = some e →
      l.window = time.Minute →
      (∀ t ∈ ts, t.nsec - e.windowStart.nsec < time.Minute) →
      (recordFailures l key ts).entries key =
        some { windowStart := e.windowStart, count := e.count + ts.length } := by
  induction ts with
  | nil => intro l e h _ _; simpa [recordFailures] using h
  | cons t rest ih =>
    intro l e h hw hts
    simp only [recordFailures]
    have h1 := RecordFailure_in_window l t key e h hw (hts t (List.mem_cons_self _ _))
    have hw1 : (l.RecordFailure t key).window = time.Minute := by
      rw [(RecordFailure_limit l t key).2, hw]
    rw [ih _ _ h1 hw1 (fun u hu => hts u (List.mem_cons_of_mem _ hu))]
    simp only [List.length_cons, Nat.cast_add, Nat.cast_one]
    congr 2
    omega

/-- Failures recorded for a key without entry, all inside the window opened by the first. -/
theorem recordFailures_fresh (key : String) (l : authFailureLimiter) (t0 : time.Time)
    (ts : List time.Time) (h : l.entries key = none) (hw : l.window = time.Minute)
    (hts : ∀ t ∈ ts, t.nsec - t0.nsec < time.Minute) :
    (recordFailures l key (t0 :: ts)).entries key =
      some { windowStart := t0, count := ((t0 :: ts).length : Int) } := by
  simp only [recordFailures]
  have h1 := RecordFailure_fresh l t0 key h
  have hw1 : (l.RecordFailure t0 key).window = time.Minute := by
    rw [(RecordFailure_limit l t0 key).2, hw]
  rw [recordFailures_in_window key ts _ _ h1 hw1 hts]
  simp only [List.length_cons, Nat.cast_add, Nat.cast_one]
  congr 2
  omega

end api
/-! ## Security gateway: throttling of authentication failures -/

section Limiter

open domain application api

/-- C1, evaluated on the code: in `TestSharedIPThrottlingDoesNotBlockOtherTokens` (limit 2, TLS
not required, `/ready` requiring authentication, requests served one after another, one second
apart) the three requests with the invalid token are answered 401, 401, 429 and the following
request from the same source IP with the valid token is answered 429 as well, whatever the
wrapped handler is: the valid token is never looked at and the wrapped handler never runs.
The same valid request sent to a handler that has seen no failure is served with 200. -/
theorem C1_valid_token_blocked_after_failures (σ : Type) (sender : ClockCommandSender σ)
    (next : HttpHandler σ) (st : σ) :
    (serveAll next fixtures.sharedIPArrivals
      (fixtures.limitedHandler sender "valid-secret-token" 2) st).1 = [401, 401, 429, 429] ∧
    (serveAll next fixtures.sharedIPArrivals
      (fixtures.limitedHandler sender "valid-secret-token" 2) st).2.2 = st ∧
    (serveAll (fixtures.limitedHandler sender "valid-secret-token" 2).handleReady
      [fixtures.arrivalAt 3 (fixtures.readyRequest "198.51.100.1:9999" "Bearer valid-secret-token")]
      (fixtures.limitedHandler sender "valid-secret-token" 2) st).1 = [200] := by
  refine ⟨rfl, rfl, rfl⟩

/-- C7: for every limit L >= 1 and key without entry, after n calls of RecordFailure for the
key, all less than one minute after the first, IsBlocked asked less than one minute after the
first failure answers true if and only if n >= L.  With L = 2 three requests with an invalid
token are answered 401, 401, 429, and with L = 1 the second request without credentials is
answered 429. -/
theorem C7_blocked_iff_limit_reached :
    (∀ (l : authFailureLimiter) (key : String) (L : Int) (ts : List time.Time) (tq : time.Time),
      1 ≤ L → l.limit = L → l.window = time.Minute → l.entries key = none →
      (∀ t ∈ ts, t.nsec - (ts.headD tq).nsec < time.Minute) →
      tq.nsec - (ts.headD tq).nsec < time.Minute →
      (((recordFailures l key ts).IsBlocked tq key).1 = true ↔ L ≤ (ts.length : Int))) ∧
    (∀ (σ : Type) (sender : ClockCommandSender σ) (next : HttpHandler σ) (st : σ),
      (serveAll next (fixtures.sharedIPArrivals.take 3)
        (fixtures.limitedHandler sender "valid-secret-token" 2) st).1 = [401, 401, 429]) ∧
    (∀ (σ : Type) (sender : ClockCommandSender σ) (next : HttpHandler σ) (st : σ),
      (serveAll next
        [fixtures.arrivalAt 0 (fixtures.readyRequest "203.0.113.10:1234" ""),
         fixtures.arrivalAt 1 (fixtures.readyRequest "203.0.113.10:1234" "")]
        (fixtures.limitedHandler sender "test-token" 1) st).1 = [401, 429]) := by
  refine ⟨?_, fun _ _ _ _ => rfl, fun _ _ _ _ => rfl⟩
  intro l key L ts tq hL hlimit hw hfresh hts hq
  cases ts with
  | nil =>
    simp only [recordFailures, IsBlocked_no_entry l tq key hfresh, List.length_nil]
    constructor
    · intro h; simp at h
    · intro h; simp at h; omega
  | cons t0 rest =>
    simp only [List.headD_cons] at hts hq
    have hrest : ∀ t ∈ rest, t.nsec - t0.nsec < time.Minute :=
      fun t ht => hts t (List.mem_cons_of_mem _ ht)
    have hentry := recordFailures_fresh key l t0 rest hfresh hw hrest
    have hw2 : (recordFailures l key (t0 :: rest)).window = time.Minute := by
      rw [(recordFailures_limit key (t0 :: rest) l).2, hw]
    rw [IsBlocked_in_window _ tq key _ hentry hw2 hq, (recordFailures_limit key (t0 :: rest) l).1,
      hlimit]
    simp

/-- C7 with limit 2 and two failures, ten and twenty seconds into the window. -/
theorem C7_blocked_iff_limit_reached_witness :
    (1 : Int) ≤ 2 ∧ (newAuthFailureLimiter 2).limit = 2 ∧
    (newAuthFailureLimiter 2).window = time.Minute ∧
    (newAuthFailureLimiter 2).entries "198.51.100.1" = none ∧
    (((recordFailures (newAuthFailureLimiter 2) "198.51.100.1"
        [⟨0⟩, ⟨10000000000⟩]).IsBlocked ⟨20000000000⟩ "198.51.100.1").1 = true ↔
      (2 : Int) ≤ ([(⟨0⟩ : time.Time), ⟨10000000000⟩].length : Int)) :=
  ⟨by decide, rfl, rfl, rfl,
    C7_blocked_iff_limit_reached.1 (newAuthFailureLimiter 2) "198.51.100.1" 2
      [⟨0⟩, ⟨10000000000⟩] ⟨20000000000⟩ (by decide) rfl rfl rfl
      (by decide) (by decide)⟩

/-- C8: for every limiter, key and time, when the key has no entry, or at least one minute has
passed since the window start of its entry, IsBlocked answers false whatever the stored count
is; so a key whose failures were all recorded in one window is not blocked once one minute
has passed since the first of them. -/
theorem C8_not_blocked_outside_window :
    (∀ (l : authFailureLimiter) (key : String) (now : time.Time),
      l.window = time.Minute →
      (l.entries key = none ∨
        ∃ e, l.entries key = some e ∧ now.nsec - e.windowStart.nsec ≥ time.Minute) →
      (l.IsBlocked now key).1 = false) ∧
    (∀ (l : authFailureLimiter) (key : String) (t0 : time.Time) (ts : List time.Time)
      (now : time.Time),
      l.window = time.Minute → l.entries key = none →
      (∀ t ∈ ts, t.nsec - t0.nsec < time.Minute) →
      now.nsec - t0.nsec ≥ time.Minute →
      ((recordFailures l key (t0 :: ts)).IsBlocked now key).1 = false) := by
  constructor
  · intro l key now hw h
    rcases h with h | ⟨e, h, hout⟩
    · rw [IsBlocked_no_entry l now key h]
    · exact IsBlocked_elapsed l now key e h hw hout
  · intro l key t0 ts now hw hfresh hts hout
    have hentry := recordFailures_fresh key l t0 ts hfresh hw hts
    have hw2 : (recordFailures l key (t0 :: ts)).window = time.Minute := by
      rw [(recordFailures_limit key (t0 :: ts) l).2, hw]
    exact IsBlocked_elapsed _ now key _ hentry hw2 hout

/-- C8 on a key blocked by two failures under limit 2, asked again one minute after the
first failure. -/
theorem C8_not_blocked_outside_window_witness :
    (newAuthFailureLimiter 2).window = time.Minute ∧
    (newAuthFailureLimiter 2).entries "198.51.100.1" = none ∧
    ((recordFailures (newAuthFailureLimiter 2) "198.51.100.1"
        [⟨0⟩, ⟨10000000000⟩]).IsBlocked ⟨59999999999⟩ "198.51.100.1").1 = true ∧
    ((recordFailures (newAuthFailureLimiter 2) "198.51.100.1"
        [⟨0⟩, ⟨10000000000⟩]).IsBlocked ⟨60000000000⟩ "198.51.100.1").1 = false ∧
    ((newAuthFailureLimiter 2).IsBlocked ⟨0⟩ "198.51.100.1").1 = false :=
  ⟨rfl, rfl, by decide,
    C8_not_blocked_outside_window.2 (newAuthFailureLimiter 2) "198.51.100.1" ⟨0⟩
      [⟨10000000000⟩] ⟨60000000000⟩ rfl rfl (by decide) (by decide),
    C8_not_blocked_outside_window.1 (newAuthFailureLimiter 2) "198.51.100.1" ⟨0⟩ rfl
      (Or.inl rfl)⟩

end Limiter

/-! ## Credential scopes -/

namespace strings

theorem HasSuffix_iff (s sfx : String) : HasSuffix s sfx = true ↔ ∃ p : String, s = p ++ sfx := by
  unfold HasSuffix
  rw [List.isSuffixOf_iff_suffix]
  constructor
  · rintro ⟨l, hl⟩
    exact ⟨String.mk l, by rw [String.ext_iff, String.data_append]; exact hl.symm⟩
  · rintro ⟨p, rfl⟩
    exact ⟨p.data, by rw [String.data_append]⟩

theorem HasPrefix_iff (s pfx : String) : HasPrefix s pfx = true ↔ ∃ r : String, s = pfx ++ r := by
  unfold HasPrefix
  rw [List.isPrefixOf_iff_prefix]
  constructor
  · rintro ⟨l, hl⟩
    exact ⟨String.mk l, by rw [String.ext_iff, String.data_append]; exact hl.symm⟩
  · rintro ⟨r, rfl⟩
    exact ⟨r.data, by rw [String.data_append]⟩

theorem TrimSuffix_append (p sfx : String) : TrimSuffix (p ++ sfx) sfx = p := by
  unfold TrimSuffix
  rw [if_pos ((HasSuffix_iff _ _).2 ⟨p, rfl⟩), String.ext_iff]
  simp [String.data_append]

theorem append_right_cancel (p q sfx : String) (h : p ++ sfx = q ++ sfx) : p = q := by
  rw [String.ext_iff, String.data_append, String.data_append] at h
  exact String.ext_iff.2 (List.append_cancel_right h)

end strings

namespace security

theorem allowsLoop_cons (dt scope : String) (rest : List String) :
    allowsLoop dt (scope :: rest) =
      if strings.TrimSpace scope == "*" then true
      else if strings.HasSuffix (strings.TrimSpace scope) "*" then
        if strings.HasPrefix dt (strings.TrimSuffix (strings.TrimSpace scope) "*") then true
        else allowsLoop dt rest
      else if dt == strings.TrimSpace scope then true
      else allowsLoop dt rest := rfl

/-- The loop of `Allows` answers true exactly when some scope admits the trimmed device id. -/
theorem allowsLoop_iff (dt : String) (scopes : List String) :
    allowsLoop dt scopes = true ↔
      ∃ s ∈ scopes, strings.TrimSpace s = "*" ∨
        (∃ p r : String, strings.TrimSpace s = p ++ "*" ∧ dt = p ++ r) ∨
        strings.TrimSpace s = dt := by
  induction scopes with
  | nil => simp [allowsLoop]
  | cons scope rest ih =>
    rw [List.exists_mem_cons_iff, ← ih, allowsLoop_cons]
    by_cases h1 : strings.TrimSpace scope = "*"
    · simp [h1]
    · have h1b : (strings.TrimSpace scope == "*") = false := by simpa using h1
      by_cases h2 : strings.HasSuffix (strings.TrimSpace scope) "*" = true
      · obtain ⟨p, hp⟩ := (strings.HasSuffix_iff _ _).1 h2
        by_cases h3 : strings.HasPrefix dt (strings.TrimSuffix (strings.TrimSpace scope) "*") = true
        · have h3b := h3
          rw [hp, strings.TrimSuffix_append, strings.HasPrefix_iff] at h3b
          obtain ⟨r, hr⟩ := h3b
          simp only [h1b, h2, h3, if_true]
          exact iff_of_true (by simp) (Or.inl (Or.inr (Or.inl ⟨p, r, hp, hr⟩)))
        · have hno : ¬ (strings.TrimSpace scope = "*" ∨
              (∃ p r : String, strings.TrimSpace scope = p ++ "*" ∧ dt = p ++ r) ∨
              strings.TrimSpace scope = dt) := by
            rintro (h | ⟨q, r, hq, hr⟩ | h)
            · exact h1 h
            · apply h3
              rw [hq, strings.TrimSuffix_append, strings.HasPrefix_iff]
              exact ⟨r, hr⟩
            · apply h3
              rw [hp, strings.TrimSuffix_append, strings.HasPrefix_iff]
              exact ⟨"*", by rw [← h, hp]⟩
          rw [or_iff_right hno]
          simp [h1b, h2, h3]
      · have h2f : strings.HasSuffix (strings.TrimSpace scope) "*" = false := by
          simpa using h2
        by_cases h4 : dt = strings.TrimSpace scope
        · simp [h1b, h2f, h4]
        · have hno : ¬ (strings.TrimSpace scope = "*" ∨
              (∃ p r : String, strings.TrimSpace scope = p ++ "*" ∧ dt = p ++ r) ∨
              strings.TrimSpace scope = dt) := by
            rintro (h | ⟨q, r, hq, _⟩ | h)
            · exact h1 h
            · exact h2 ((strings.HasSuffix_iff _ _).2 ⟨q, hq⟩)
            · exact h4 h.symm
          rw [or_iff_right hno]
          simp [h1b, h2f, h4]

end security

section Scopes

open security

/-- C9: Allows(d) is true if and only if some scope s of the credential, once trimmed, is `*`,
or ends with `*` and the trimmed d starts with s minus its final `*`, or equals the trimmed d.
So `clock-*` allows `clock-42` and denies `thermostat-1`, `*` allows every device id, and a
credential none of whose scopes matches denies. -/
theorem C9_allows_iff_scope_matches :
    (∀ (c : Credential) (d : String), c.Allows d = true ↔
      ∃ s ∈ c.Devices, strings.TrimSpace s = "*" ∨
        (∃ p r : String, strings.TrimSpace s = p ++ "*" ∧ strings.TrimSpace d = p ++ r) ∨
        strings.TrimSpace s = strings.TrimSpace d) ∧
    Credential.Allows { ID := "ops", Token := "", Devices := ["clock-*"] } "clock-42" = true ∧
    Credential.Allows { ID := "ops", Token := "", Devices := ["clock-*"] } "thermostat-1" = false ∧
    (∀ (id token d : String),
      Credential.Allows { ID := id, Token := token, Devices := ["*"] } d = true) ∧
    (∀ (c : Credential) (d : String),
      (∀ s ∈ c.Devices, ¬ (strings.TrimSpace s = "*" ∨
        (∃ p r : String, strings.TrimSpace s = p ++ "*" ∧ strings.TrimSpace d = p ++ r) ∨
        strings.TrimSpace s = strings.TrimSpace d)) →
      c.Allows d = false) := by
  have main : ∀ (c : Credential) (d : String), c.Allows d = true ↔
      ∃ s ∈ c.Devices, strings.TrimSpace s = "*" ∨
        (∃ p r : String, strings.TrimSpace s = p ++ "*" ∧ strings.TrimSpace d = p ++ r) ∨
        strings.TrimSpace s = strings.TrimSpace d :=
    fun c d => allowsLoop_iff (strings.TrimSpace d) c.Devices
  refine ⟨main, by decide, by decide, ?_, ?_⟩
  · intro id token d
    exact (main _ d).2 ⟨"*", List.mem_cons_self _ _, Or.inl (by decide)⟩
  · intro c d h
    cases hA : c.Allows d with
    | false => rfl
    | true =>
      obtain ⟨s, hs, hm⟩ := (main c d).1 hA
      exact absurd hm (h s hs)

/-- C10, as stated, fails: the credential whose only scope is `clock-1` also allows a device id
that is `clock-1` surrounded by white space, which is not exactly `clock-1`. -/
theorem C10_counterexample :
    Credential.Allows { ID := "ops", Token := "", Devices := ["clock-1"] } " clock-1" = true ∧
    " clock-1" ≠ "clock-1" := by
  decide

/-- C10, amended: a credential whose only scope is `clock-1` allows a device id if and only if
the id with its surrounding white space removed is exactly `clock-1`. -/
theorem C10_exact_scope_allows_trimmed_match (id token d : String) :
    Credential.Allows { ID := id, Token := token, Devices := ["clock-1"] } d = true ↔
      strings.TrimSpace d = "clock-1" := by
  have hT : strings.TrimSpace "clock-1" = "clock-1" := by decide
  have hS : strings.HasSuffix "clock-1" "*" = false := by decide
  have hne : ("clock-1" == "*") = false := by decide
  unfold Credential.Allows
  rw [allowsLoop_cons, hT, hS, hne]
  simp [allowsLoop]

end Scopes

/-! ## Command validation -/

section Validation

open domain

/-- C15: for every SetAlarm command with a non-blank device id and a non-zero alarm time, and
every current time, Validate fails if and only if the alarm time is strictly earlier than the
current time minus one minute, and then the error is a ValidationError whose message carries
the RFC3339 text of the alarm time; an alarm time exactly one minute in the past, or any later
one, validates. -/
theorem C15_set_alarm_validate_past (rfc3339 : time.Time → String) (now : time.Time)
    (c : SetAlarmCommand) (hDevice : strings.TrimSpace c.DeviceID ≠ "")
    (hTime : c.AlarmTime.IsZero = false) :
    (c.Validate rfc3339 now ≠ none ↔ c.AlarmTime.nsec < now.nsec - time.Minute) ∧
    (c.AlarmTime.nsec < now.nsec - time.Minute →
      c.Validate rfc3339 now =
        some (.validationError ("alarm time " ++ rfc3339 c.AlarmTime ++ " is in the past")) ∧
      strings.Contains ("alarm time " ++ rfc3339 c.AlarmTime ++ " is in the past")
        (rfc3339 c.AlarmTime)) ∧
    (c.AlarmTime.nsec = now.nsec - time.Minute → c.Validate rfc3339 now = none) ∧
    (now.nsec - time.Minute ≤ c.AlarmTime.nsec → c.Validate rfc3339 now = none) := by
  have hD : (strings.TrimSpace c.DeviceID == "") = false := by simpa using hDevice
  have hV : c.Validate rfc3339 now =
      if c.AlarmTime.nsec < now.nsec - time.Minute then
        some (.validationError ("alarm time " ++ rfc3339 c.AlarmTime ++ " is in the past"))
      else none := by
    unfold SetAlarmCommand.Validate
    simp only [hD, hTime, Bool.false_eq_true, if_false, time.Time.Before, time.Time.Add,
      NewValidationErrorf, fmt.Sprintf, fmt.Piece.render, List.map, String.join, List.foldl]
    have : now.nsec + -1 * time.Minute = now.nsec - time.Minute := by
      unfold time.Minute time.Duration; omega
    have e1 : decide (c.AlarmTime.nsec < now.nsec + -1 * time.Minute) =
        decide (c.AlarmTime.nsec < now.nsec - time.Minute) := by rw [this]
    rw [e1]
    by_cases h : c.AlarmTime.nsec < now.nsec - time.Minute <;> simp [h]
  refine ⟨?_, ?_, ?_, ?_⟩
  · rw [hV]
    by_cases h : c.AlarmTime.nsec < now.nsec - time.Minute <;> simp [h]
  · intro h
    refine ⟨by rw [hV, if_pos h], ?_⟩
    exact strings.Contains_middle _ _ _
  · intro h
    rw [hV, if_neg (by rw [h]; exact lt_irrefl _)]
  · intro h
    rw [hV, if_neg (not_lt.2 h)]

/-- C15 on the case of `TestSetAlarmCommandRejectsPastTime`: an alarm two minutes in the
past. -/
theorem C15_set_alarm_validate_past_witness :
    strings.TrimSpace "clock-1" ≠ "" ∧
    (⟨1000000000000 - 120000000000⟩ : time.Time).IsZero = false ∧
    (({ DeviceID := "clock-1", AlarmTime := ⟨1000000000000 - 120000000000⟩, Label := "" } :
        SetAlarmCommand).Validate (fun _ => "T") ⟨1000000000000⟩ ≠ none ↔
      (1000000000000 - 120000000000 : Int) < 1000000000000 - time.Minute) :=
  ⟨by decide, rfl,
    (C15_set_alarm_validate_past (fun _ => "T") ⟨1000000000000⟩
      { DeviceID := "clock-1", AlarmTime := ⟨1000000000000 - 120000000000⟩, Label := "" }
      (by decide) rfl).1⟩

/-- C16: for every DisplayMessage command, Validate succeeds if and only if the device id and
the message are both non-blank after trimming and the duration is between 1 and 3600 seconds;
every failure is a ValidationError, and the durations 0, 3601 and every negative one fail. -/
theorem C16_display_message_validate :
    (∀ c : DisplayMessageCommand, c.Validate = none ↔
      strings.TrimSpace c.DeviceID ≠ "" ∧ strings.TrimSpace c.Message ≠ "" ∧
        1 ≤ c.DurationSeconds ∧ c.DurationSeconds ≤ 3600) ∧
    (∀ (c : DisplayMessageCommand) (e : GoError), c.Validate = some e →
      ∃ m, e = .validationError m) ∧
    (∀ (deviceID message : String) (d : Int), d = 0 ∨ d = 3601 ∨ d < 0 →
      ∃ m, (DisplayMessageCommand.mk deviceID message d).Validate =
        some (.validationError m)) := by
  have main : ∀ c : DisplayMessageCommand, c.Validate = none ↔
      strings.TrimSpace c.DeviceID ≠ "" ∧ strings.TrimSpace c.Message ≠ "" ∧
        1 ≤ c.DurationSeconds ∧ c.DurationSeconds ≤ 3600 := by
    intro c
    unfold DisplayMessageCommand.Validate
    by_cases h1 : strings.TrimSpace c.DeviceID = ""
    · simp [h1]
    · by_cases h2 : strings.TrimSpace c.Message = ""
      · simp [h1, h2]
      · by_cases h3 : c.DurationSeconds ≤ 0
        · simp [h1, h2, h3]; omega
        · by_cases h4 : c.DurationSeconds > 3600
          · simp [h1, h2, h3, h4]
          · simp [h1, h2, h3, h4]; omega
  refine ⟨main, DisplayMessageCommand.Validate_message_eq_some, ?_⟩
  intro deviceID message d hd
  cases hv : (DisplayMessageCommand.mk deviceID message d).Validate with
  | some e =>
    obtain ⟨m, rfl⟩ := DisplayMessageCommand.Validate_message_eq_some _ e hv
    exact ⟨m, rfl⟩
  | none =>
    have := (main _).1 hv
    simp only at this
    omega

/-- C17: for every SetBrightness command, Validate succeeds if and only if the device id is
non-blank after trimming and the level is between 0 and 100; every failure is a
ValidationError; the levels -1 and 101 fail and the levels 0 and 100 succeed. -/
theorem C17_set_brightness_validate :
    (∀ c : SetBrightnessCommand, c.Validate = none ↔
      strings.TrimSpace c.DeviceID ≠ "" ∧ 0 ≤ c.Level ∧ c.Level ≤ 100) ∧
    (∀ (c : SetBrightnessCommand) (e : GoError), c.Validate = some e →
      ∃ m, e = .validationError m) ∧
    (∀ (deviceID : String) (level : Int), level = -1 ∨ level = 101 →
      ∃ m, (SetBrightnessCommand.mk deviceID level).Validate = some (.validationError m)) ∧
    (∀ (deviceID : String) (level : Int), strings.TrimSpace deviceID ≠ "" →
      level = 0 ∨ level = 100 → (SetBrightnessCommand.mk deviceID level).Validate = none) := by
  have main : ∀ c : SetBrightnessCommand, c.Validate = none ↔
      strings.TrimSpace c.DeviceID ≠ "" ∧ 0 ≤ c.Level ∧ c.Level ≤ 100 := by
    intro c
    unfold SetBrightnessCommand.Validate
    by_cases h1 : strings.TrimSpace c.DeviceID = ""
    · simp [h1]
    · by_cases h2 : c.Level < 0
      · simp [h1, h2]
      · by_cases h3 : c.Level > 100
        · simp [h1, h2, h3]
        · simp [h1, h2, h3]; omega
  refine ⟨main, SetBrightnessCommand.Validate_brightness_eq_some, ?_, ?_⟩
  · intro deviceID level hl
    cases hv : (SetBrightnessCommand.mk deviceID level).Validate with
    | some e =>
      obtain ⟨m, rfl⟩ := SetBrightnessCommand.Validate_brightness_eq_some _ e hv
      exact ⟨m, rfl⟩
    | none =>
      have := (main _).1 hv
      simp only at this
      omega
  · intro deviceID level hd hl
    exact (main _).2 ⟨hd, by simp only; omega, by simp only; omega⟩

end Validation

/-! ## Error categories and status codes -/

section StatusCodes

open application api

/-- C14: writeAppError answers 400 `invalid command` when the error is in the validation
category, otherwise 502 `command dispatch failed` when it is in the downstream category,
otherwise 500 `internal error`.  The body is one of these three fixed objects, chosen by the
two category tests alone: two errors in the same categories get the same response, whatever
their text. -/
theorem C14_write_app_error_mapping (w : ResponseWriter) (err : Option GoError) :
    (errors.Is err ErrValidation = true →
      writeAppError w err = writeJSON w 400 [("error", "invalid command")]) ∧
    (errors.Is err ErrValidation = false → errors.Is err ErrDownstream = true →
      writeAppError w err = writeJSON w 502 [("error", "command dispatch failed")]) ∧
    (errors.Is err ErrValidation = false → errors.Is err ErrDownstream = false →
      writeAppError w err = writeJSON w 500 [("error", "internal error")]) ∧
    (((writeAppError w err).Code = 400 ∧
        (writeAppError w err).Body = [("error", "invalid command")]) ∨
      ((writeAppError w err).Code = 502 ∧
        (writeAppError w err).Body = [("error", "command dispatch failed")]) ∨
      ((writeAppError w err).Code = 500 ∧
        (writeAppError w err).Body = [("error", "internal error")])) ∧
    (∀ err2 : Option GoError,
      errors.Is err2 ErrValidation = errors.Is err ErrValidation →
      errors.Is err2 ErrDownstream = errors.Is err ErrDownstream →
      writeAppError w err2 = writeAppError w err) := by
  refine ⟨?_, ?_, ?_, ?_, ?_⟩
  · intro h; simp [writeAppError, h, http.StatusBadRequest]
  · intro h1 h2; simp [writeAppError, h1, h2, http.StatusBadGateway]
  · intro h1 h2; simp [writeAppError, h1, h2, http.StatusInternalServerError]
  · unfold writeAppError
    split_ifs
    · left; exact ⟨rfl, rfl⟩
    · right; left; exact ⟨rfl, rfl⟩
    · right; right; exact ⟨rfl, rfl⟩
  · intro err2 h1 h2
    unfold writeAppError
    rw [h1, h2]

end StatusCodes

/-! ## MQTT packet encoding -/

namespace mqtt

theorem lor_128 : ∀ d : Nat, d < 128 → d ||| 0x80 = d + 128 := by decide

theorem encodeRemainingLength_natCast (n : Nat) :
    encodeRemainingLength (n : Int) =
      if n / 128 = 0 then [n % 128]
      else (n % 128 ||| 0x80) :: encodeRemainingLength ((n / 128 : Nat) : Int) := by
  rw [encodeRemainingLength]
  have h1 : (n : Int).tdiv 128 = ((n / 128 : Nat) : Int) := (Int.ofNat_tdiv n 128).symm
  have h2 : (n : Int).tmod 128 = ((n % 128 : Nat) : Int) := (Int.ofNat_tmod n 128).symm
  have h3 : ((((n % 128 : Nat) : Int)) % 256).toNat = n % 128 := by omega
  simp only [h1, h2, h3]
  by_cases h : n / 128 = 0
  · have hz : ((n / 128 : Nat) : Int) = 0 := by omega
    have hnp : ¬ ((n / 128 : Nat) : Int) > 0 := by omega
    rw [dif_pos hz, if_neg hnp, if_pos h]
  · have hpos : ((n / 128 : Nat) : Int) > 0 := by omega
    have hne : ¬ ((n / 128 : Nat) : Int) = 0 := by omega
    rw [dif_neg hne, if_pos hpos, if_neg h]

/-- One byte for a length below 128. -/
theorem encodeRemainingLength_one (n : Nat) (h : n < 128) :
    encodeRemainingLength (n : Int) = [n] := by
  rw [encodeRemainingLength_natCast, if_pos (by omega)]
  congr 1
  omega

/-- A continuation byte followed by the encoding of the quotient, from 128 on. -/
theorem encodeRemainingLength_step (n : Nat) (h : 128 ≤ n) :
    encodeRemainingLength (n : Int) =
      (n % 128 + 128) :: encodeRemainingLength ((n / 128 : Nat) : Int) := by
  rw [encodeRemainingLength_natCast, if_neg (by omega), lor_128 _ (Nat.mod_lt _ (by decide))]

theorem encodeRemainingLength_two (n : Nat) (h1 : 128 ≤ n) (h2 : n < 16384) :
    encodeRemainingLength (n : Int) = [n % 128 + 128, n / 128] := by
  rw [encodeRemainingLength_step n h1, encodeRemainingLength_one _ (by omega)]

theorem encodeRemainingLength_three (n : Nat) (h1 : 16384 ≤ n) (h2 : n < 2097152) :
    encodeRemainingLength (n : Int) = [n % 128 + 128, n / 128 % 128 + 128, n / 128 / 128] := by
  rw [encodeRemainingLength_step n (by omega), encodeRemainingLength_two _ (by omega) (by omega)]

theorem encodeRemainingLength_four (n : Nat) (h1 : 2097152 ≤ n) (h2 : n < 268435456) :
    encodeRemainingLength (n : Int) =
      [n % 128 + 128, n / 128 % 128 + 128, n / 128 / 128 % 128 + 128, n / 128 / 128 / 128] := by
  rw [encodeRemainingLength_step n (by omega),
    encodeRemainingLength_three _ (by omega) (by omega)]

theorem decode_continuation (m v d : Nat) (rest : List Nat) (hd : d < 128)
    (hm : m ≤ 128 * 128 * 128) :
    decodeRemainingLengthFrom m v ((d + 128) :: rest) =
      decodeRemainingLengthFrom (m * 128) (v + d * m) rest := by
  have h1 : (d + 128) % 128 = d := by omega
  have h2 : (d + 128) / 128 % 2 = 1 := by omega
  rw [decodeRemainingLengthFrom]
  simp only [h1, h2, if_neg (Nat.not_lt.2 hm), beq_self_eq_true, if_true]

theorem decode_last (m v d : Nat) (rest : List Nat) (hd : d < 128)
    (hm : m ≤ 128 * 128 * 128) :
    decodeRemainingLengthFrom m v (d :: rest) = some (v + d * m, rest) := by
  have h1 : d % 128 = d := by omega
  have h2 : d / 128 % 2 = 0 := by omega
  rw [decodeRemainingLengthFrom]
  simp only [h1, h2, if_neg (Nat.not_lt.2 hm)]
  rfl

/-- The round trip on natural numbers, with any bytes following the encoding. -/
theorem decode_encode (n : Nat) (hn : n ≤ 268435455) (rest : List Nat) :
    decodeRemainingLength (encodeRemainingLength (n : Int) ++ rest) = some (n, rest) := by
  unfold decodeRemainingLength
  by_cases c1 : n < 128
  · rw [encodeRemainingLength_one n c1]
    simp only [List.cons_append, List.nil_append]
    rw [decode_last _ _ _ _ c1 (by decide)]
    simp
  · by_cases c2 : n < 16384
    · rw [encodeRemainingLength_two n (by omega) c2]
      simp only [List.cons_append, List.nil_append]
      rw [decode_continuation _ _ _ _ (Nat.mod_lt _ (by decide)) (by decide),
        decode_last _ _ _ _ (by omega) (by decide)]
      congr 2
      omega
    · by_cases c3 : n < 2097152
      · rw [encodeRemainingLength_three n (by omega) c3]
        simp only [List.cons_append, List.nil_append]
        rw [decode_continuation _ _ _ _ (Nat.mod_lt _ (by decide)) (by decide),
          decode_continuation _ _ _ _ (Nat.mod_lt _ (by decide)) (by decide),
          decode_last _ _ _ _ (by omega) (by decide)]
        congr 2
        omega
      · rw [encodeRemainingLength_four n (by omega) (by omega)]
        simp only [List.cons_append, List.nil_append]
        rw [decode_continuation _ _ _ _ (Nat.mod_lt _ (by decide)) (by decide),
          decode_continuation _ _ _ _ (Nat.mod_lt _ (by decide)) (by decide),
          decode_continuation _ _ _ _ (Nat.mod_lt _ (by decide)) (by decide),
          decode_last _ _ _ _ (by omega) (by decide)]
        congr 2
        omega

end mqtt

section Encoding

open mqtt

/-- C18: for every integer n with 0 <= n <= 268435455, decoding encodeRemainingLength(n) with
the base-128 scheme of MQTT gives back n (also when other bytes follow); the encoding has 1
byte up to 127, 2 bytes up to 16383, 3 bytes up to 2097151 and 4 bytes above; and every byte
except the last has bit 7 set, the last has it clear. -/
theorem C18_remaining_length_round_trip (n : Int) (h0 : 0 ≤ n) (hn : n ≤ 268435455) :
    decodeRemainingLength (encodeRemainingLength n) = some (n.toNat, []) ∧
    (∀ rest : List Nat,
      decodeRemainingLength (encodeRemainingLength n ++ rest) = some (n.toNat, rest)) ∧
    (encodeRemainingLength n).length =
      (if n ≤ 127 then 1 else if n ≤ 16383 then 2 else if n ≤ 2097151 then 3 else 4) ∧
    (∃ (front : List Nat) (last : Nat), encodeRemainingLength n = front ++ [last] ∧
      (∀ b ∈ front, 128 ≤ b ∧ b < 256) ∧ last < 128) := by
  obtain ⟨m, rfl⟩ := Int.eq_ofNat_of_zero_le h0
  have hm : m ≤ 268435455 := by omega
  simp only [Int.toNat_ofNat]
  refine ⟨?_, fun rest => decode_encode m hm rest, ?_, ?_⟩
  · simpa using decode_encode m hm []
  · by_cases c1 : m < 128
    · rw [encodeRemainingLength_one m c1, if_pos (by omega)]
      rfl
    · by_cases c2 : m < 16384
      · rw [encodeRemainingLength_two m (by omega) c2, if_neg (by omega), if_pos (by omega)]
        rfl
      · by_cases c3 : m < 2097152
        · rw [encodeRemainingLength_three m (by omega) c3, if_neg (by omega), if_neg (by omega),
            if_pos (by omega)]
          rfl
        · rw [encodeRemainingLength_four m (by omega) (by omega), if_neg (by omega),
            if_neg (by omega), if_neg (by omega)]
          rfl
  · by_cases c1 : m < 128
    · exact ⟨[], m, by rw [encodeRemainingLength_one m c1]; rfl, by simp, c1⟩
    · by_cases c2 : m < 16384
      · refine ⟨[m % 128 + 128], m / 128,
          by rw [encodeRemainingLength_two m (by omega) c2]; rfl, ?_, by omega⟩
        intro b hb
        simp only [List.mem_singleton] at hb
        omega
      · by_cases c3 : m < 2097152
        · refine ⟨[m % 128 + 128, m / 128 % 128 + 128], m / 128 / 128,
            by rw [encodeRemainingLength_three m (by omega) c3]; rfl, ?_, by omega⟩
          intro b hb
          simp only [List.mem_cons, List.mem_singleton, List.not_mem_nil, or_false] at hb
          omega
        · refine ⟨[m % 128 + 128, m / 128 % 128 + 128, m / 128 / 128 % 128 + 128],
            m / 128 / 128 / 128,
            by rw [encodeRemainingLength_four m (by omega) (by omega)]; rfl, ?_, by omega⟩
          intro b hb
          simp only [List.mem_cons, List.mem_singleton, List.not_mem_nil, or_false] at hb
          omega

/-- C18 on the boundary values 0, 127, 128, 16383 and 16384: their encodings, and the round
trip of 16384. -/
theorem C18_remaining_length_round_trip_witness :
    (0 : Int) ≤ 16384 ∧ (16384 : Int) ≤ 268435455 ∧
    encodeRemainingLength 0 = [0x00] ∧
    encodeRemainingLength 127 = [0x7F] ∧
    encodeRemainingLength 128 = [0x80, 0x01] ∧
    encodeRemainingLength 16383 = [0xFF, 0x7F] ∧
    encodeRemainingLength 16384 = [0x80, 0x80, 0x01] ∧
    decodeRemainingLength (encodeRemainingLength 16384) = some (16384, []) :=
  ⟨by decide, by decide,
    encodeRemainingLength_one 0 (by decide),
    encodeRemainingLength_one 127 (by decide),
    encodeRemainingLength_two 128 (by decide) (by decide),
    encodeRemainingLength_two 16383 (by decide) (by decide),
    encodeRemainingLength_three 16384 (by decide) (by decide),
    (C18_remaining_length_round_trip 16384 (by decide) (by decide)).1⟩

end Encoding

namespace mqtt

theorem bytes_lettersA (n : Nat) : strings.bytes (fixtures.lettersA n) = List.replicate n 97 := by
  unfold strings.bytes fixtures.lettersA
  induction n with
  | zero => rfl
  | succ k ih =>
    rw [List.replicate_succ, List.replicate_succ]
    simp only [List.flatMap_cons, ih]
    rfl

theorem len_lettersA (n : Nat) : strings.len (fixtures.lettersA n) = n := by
  unfold strings.len
  rw [bytes_lettersA, List.length_replicate]

theorem encodeString_eq (s : String) :
    encodeString s = [strings.len s % 65536 / 256, strings.len s % 256] ++ strings.bytes s := by
  unfold encodeString binary.PutUint16 strings.len
  simp only []
  congr 2
  · omega
  · congr 1
    omega

end mqtt

section Publish

open mqtt

/-- C19: for every topic that is not blank, every payload, qos 0 or 1, retained flag and packet
id, buildPublishPacket returns exactly the byte 0x30 | (qos << 1) | (1 if retained), then
encodeRemainingLength(r), then encodeString(topic), then the packet id as two big-endian bytes
if and only if qos > 0, then the payload unchanged, with
r = 2 + len(topic) + (2 if qos > 0) + len(payload). -/
theorem C19_build_publish_packet_layout (topic : String) (payload : List Nat) (qos : Nat)
    (retained : Bool) (packetID : Nat) (hTopic : strings.TrimSpace topic ≠ "")
    (hQos : qos = 0 ∨ qos = 1) (hID : packetID < 65536) :
    buildPublishPacket topic payload qos retained packetID =
      .ok ([0x30 ||| (qos <<< 1) ||| (if retained then 1 else 0)] ++
        encodeRemainingLength
          ((2 + strings.len topic + (if qos > 0 then 2 else 0) + payload.length : Nat) : Int) ++
        encodeString topic ++
        (if qos > 0 then [packetID / 256, packetID % 256] else []) ++
        payload) ∧
    0x30 ||| (qos <<< 1) ||| (if retained then 1 else 0) =
      0x30 + 2 * qos + (if retained then 1 else 0) := by
  have hT : (strings.TrimSpace topic == "") = false := by simpa using hTopic
  have hLen : (encodeString topic).length = 2 + strings.len topic := by
    rw [encodeString_eq]
    simp [strings.len]
    omega
  have hPid : packetID / 256 % 256 = packetID / 256 := by omega
  rcases hQos with rfl | rfl
  · constructor
    · cases retained <;>
        simp [buildPublishPacket, hT, hLen]
    · cases retained <;> decide
  · constructor
    · cases retained <;>
        simp [buildPublishPacket, hT, hLen, binary.PutUint16, hPid]
    · cases retained <;> decide

/-- C19 on the second seed of `FuzzBuildPublishPacket`: topic `topic/b`, empty payload, qos 1,
retained, packet id 7. -/
theorem C19_build_publish_packet_layout_witness :
    strings.TrimSpace "topic/b" ≠ "" ∧ ((1 : Nat) = 0 ∨ (1 : Nat) = 1) ∧ (7 : Nat) < 65536 ∧
    buildPublishPacket "topic/b" [] 1 true 7 =
      .ok ([0x33] ++ encodeRemainingLength 11 ++
        [0x00, 0x07, 0x74, 0x6F, 0x70, 0x69, 0x63, 0x2F, 0x62] ++ [0x00, 0x07] ++ []) :=
  ⟨by decide, Or.inr rfl, by decide,
    (C19_build_publish_packet_layout "topic/b" [] 1 true 7 (by decide) (Or.inr rfl)
      (by decide)).1⟩

end Publish

/-! ## Security gateway: the middleware step by step -/

namespace api

open domain application

theorem lookupCredential_eq_some (credentials : List security.Credential) (token : String)
    (pr : principal) (h : lookupCredential credentials token = some pr) :
    ∃ cred ∈ credentials, cred.Token = token ∧ pr = { ID := cred.ID, Devices := cred.Devices } := by
  induction credentials with
  | nil => simp [lookupCredential] at h
  | cons c rest ih =>
    unfold lookupCredential at h
    by_cases hc : token = c.Token
    · simp [hc] at h
      exact ⟨c, List.mem_cons_self _ _, hc.symm, h.symm⟩
    · simp [hc] at h
      obtain ⟨cred, hm, ht, hp⟩ := ih h
      exact ⟨cred, List.mem_cons_of_mem _ hm, ht, hp⟩

/-- The middleware on a request that reaches the reading of the `Authorization` header. -/
theorem authMiddleware_reachesAuth {σ : Type} (h : Handler σ) (next : HttpHandler σ)
    (tBlocked tRecord : time.Time) (w : ResponseWriter) (r : Request) (st : σ)
    (hReach : h.reachesAuth tBlocked r) :
    h.authMiddleware next tBlocked tRecord w r st =
      if !strings.HasPrefix (r.Header "Authorization") "Bearer " then
        (writeJSON (h.withRequestID w r) http.StatusUnauthorized [("error", "unauthorized")],
          h.afterFailure tBlocked tRecord r, st)
      else
        match lookupCredential h.credentials (bearerToken r) with
        | none =>
          (writeJSON (h.withRequestID w r) http.StatusUnauthorized [("error", "unauthorized")],
            h.afterFailure tBlocked tRecord r, st)
        | some pr =>
          ((next (h.withRequestID w r) { r with ctxPrincipal := some pr } st).1,
            h.afterSuccess tBlocked r,
            (next (h.withRequestID w r) { r with ctxPrincipal := some pr } st).2) := by
  obtain ⟨hPath, hTLS, hReady, hNB⟩ := hReach
  have hP : (r.Path == "/health") = false := by simpa using hPath
  have hT : (h.requireTLS && !(h.counted r).isSecureRequest r) = false := by
    have e : (h.counted r).isSecureRequest r = h.isSecureRequest r := rfl
    rw [e]
    rcases hTLS with h1 | h1 <;> simp [h1]
  have hR : (r.Path == "/ready" && !h.readinessRequireAuth) = false := by
    cases hq : h.readinessRequireAuth
    · have : r.Path ≠ "/ready" := fun e => hReady ⟨e, hq⟩
      simp [this]
    · simp
  rcases hB : h.authFailureRateLimiter.IsBlocked tBlocked (clientIP r) with ⟨b, l1⟩
  rw [hB] at hNB
  simp only at hNB
  subst hNB
  unfold Handler.counted at hT
  unfold Handler.authMiddleware
  simp only [hP, hT, hR, hB, Handler.counted, Handler.withRequestID, bearerToken,
    Handler.afterFailure, Handler.afterSuccess, Handler.checkedLimiter,
    Bool.false_eq_true, if_false]

end api

namespace api

open domain application

theorem authorizeDevice_denied {σ : Type} (h : Handler σ) (r : Request) (pr : principal)
    (deviceID : String) (hPr : r.ctxPrincipal = some pr)
    (hNo : security.Credential.Allows { ID := pr.ID, Token := "", Devices := pr.Devices }
      deviceID = false) :
    h.authorizeDevice r deviceID = some (errors.New "forbidden for target device") := by
  simp [Handler.authorizeDevice, hPr, hNo]

theorem handleSetAlarm_denied {σ : Type} (h : Handler σ) (lib : Stdlib) (now : time.Time)
    (w : ResponseWriter) (r : Request) (st : σ) (pr : principal) (payload : setAlarmRequest)
    (hPr : r.ctxPrincipal = some pr) (hMethod : r.Method = "POST")
    (hBody : h.decodeJSON lib.decodeSetAlarm r = .ok payload)
    (hNo : security.Credential.Allows { ID := pr.ID, Token := "", Devices := pr.Devices }
      payload.DeviceID = false) :
    h.handleSetAlarm lib now w r st =
      { w := writeError w http.StatusForbidden (errors.New "forbidden for target device"),
        state := st, dispatched := [], sends := [] } := by
  unfold Handler.handleSetAlarm
  simp [hMethod, hBody, authorizeDevice_denied h r pr _ hPr hNo]

theorem handleDisplayMessage_denied {σ : Type} (h : Handler σ) (lib : Stdlib) (now : time.Time)
    (w : ResponseWriter) (r : Request) (st : σ) (pr : principal)
    (payload : displayMessageRequest)
    (hPr : r.ctxPrincipal = some pr) (hMethod : r.Method = "POST")
    (hBody : h.decodeJSON lib.decodeDisplayMessage r = .ok payload)
    (hNo : security.Credential.Allows { ID := pr.ID, Token := "", Devices := pr.Devices }
      payload.DeviceID = false) :
    h.handleDisplayMessage lib now w r st =
      { w := writeError w http.StatusForbidden (errors.New "forbidden for target device"),
        state := st, dispatched := [], sends := [] } := by
  unfold Handler.handleDisplayMessage
  simp [hMethod, hBody, authorizeDevice_denied h r pr _ hPr hNo]

theorem handleSetBrightness_denied {σ : Type} (h : Handler σ) (lib : Stdlib) (now : time.Time)
    (w : ResponseWriter) (r : Request) (st : σ) (pr : principal)
    (payload : setBrightnessRequest)
    (hPr : r.ctxPrincipal = some pr) (hMethod : r.Method = "PUT")
    (hBody : h.decodeJSON lib.decodeSetBrightness r = .ok payload)
    (hNo : security.Credential.Allows { ID := pr.ID, Token := "", Devices := pr.Devices }
      payload.DeviceID = false) :
    h.handleSetBrightness lib now w r st =
      { w := writeError w http.StatusForbidden (errors.New "forbidden for target device"),
        state := st, dispatched := [], sends := [] } := by
  unfold Handler.handleSetBrightness
  simp [hMethod, hBody, authorizeDevice_denied h r pr _ hPr hNo]

theorem mux_alarms {σ : Type} (h : Handler σ) (lib : Stdlib) (now : time.Time)
    (w : ResponseWriter) (r : Request) (st : σ) (hPath : r.Path = "/commands/alarms") :
    h.mux lib now w r st = (h.handleSetAlarm lib now w r st).result := by
  unfold Handler.mux
  simp only [hPath]
  rfl

theorem mux_messages {σ : Type} (h : Handler σ) (lib : Stdlib) (now : time.Time)
    (w : ResponseWriter) (r : Request) (st : σ) (hPath : r.Path = "/commands/messages") :
    h.mux lib now w r st = (h.handleDisplayMessage lib now w r st).result := by
  unfold Handler.mux
  simp only [hPath]
  rfl

theorem mux_brightness {σ : Type} (h : Handler σ) (lib : Stdlib) (now : time.Time)
    (w : ResponseWriter) (r : Request) (st : σ) (hPath : r.Path = "/commands/brightness") :
    h.mux lib now w r st = (h.handleSetBrightness lib now w r st).result := by
  unfold Handler.mux
  simp only [hPath]
  rfl

/-- `Routes` on a request that authenticates as `pr`: the mux runs on the request bound to
`pr`. -/
theorem Routes_authenticated {σ : Type} (h : Handler σ) (lib : Stdlib)
    (now tBlocked tRecord : time.Time) (w : ResponseWriter) (r : Request) (st : σ)
    (pr : principal) (hReach : h.reachesAuth tBlocked r)
    (hBearer : strings.HasPrefix (r.Header "Authorization") "Bearer " = true)
    (hCred : lookupCredential h.credentials (bearerToken r) = some pr) :
    h.Routes lib now tBlocked tRecord w r st =
      ((h.mux lib now (h.withRequestID w r) { r with ctxPrincipal := some pr } st).1,
        h.afterSuccess tBlocked r,
        (h.mux lib now (h.withRequestID w r) { r with ctxPrincipal := some pr } st).2) := by
  unfold Handler.Routes
  rw [authMiddleware_reachesAuth h _ tBlocked tRecord w r st hReach]
  simp [hBearer, hCred]

end api

/-! ## Device scope of the authenticated principal -/

section DeviceScope

open domain application api

/-- C11: for every request to a command endpoint that authenticates as the principal `pr`,
with the method of the endpoint and a body that decodes to `payload`: when the scopes of `pr`
do not allow the device id of the payload, the response is 403
`forbidden for target device`, the dispatcher is not invoked, no command reaches a sender and
the state of the transports is untouched, whatever the other fields of the payload are. -/
theorem C11_device_scope_forbidden (σ : Type) (h : Handler σ) (lib : Stdlib)
    (now tBlocked tRecord : time.Time) (w : ResponseWriter) (r : Request) (st : σ)
    (pr : principal) (hReach : h.reachesAuth tBlocked r)
    (hBearer : strings.HasPrefix (r.Header "Authorization") "Bearer " = true)
    (hCred : lookupCredential h.credentials (bearerToken r) = some pr) :
    (∀ payload : setAlarmRequest, r.Path = "/commands/alarms" → r.Method = "POST" →
      h.decodeJSON lib.decodeSetAlarm r = .ok payload →
      security.Credential.Allows { ID := pr.ID, Token := "", Devices := pr.Devices }
        payload.DeviceID = false →
      h.Routes lib now tBlocked tRecord w r st =
        (writeError (h.withRequestID w r) 403 (errors.New "forbidden for target device"),
          h.afterSuccess tBlocked r, st) ∧
      (h.Routes lib now tBlocked tRecord w r st).1.Code = 403 ∧
      (h.handleSetAlarm lib now (h.withRequestID w r)
        { r with ctxPrincipal := some pr } st).dispatched = [] ∧
      (h.handleSetAlarm lib now (h.withRequestID w r)
        { r with ctxPrincipal := some pr } st).sends = []) ∧
    (∀ payload : displayMessageRequest, r.Path = "/commands/messages" → r.Method = "POST" →
      h.decodeJSON lib.decodeDisplayMessage r = .ok payload →
      security.Credential.Allows { ID := pr.ID, Token := "", Devices := pr.Devices }
        payload.DeviceID = false →
      h.Routes lib now tBlocked tRecord w r st =
        (writeError (h.withRequestID w r) 403 (errors.New "forbidden for target device"),
          h.afterSuccess tBlocked r, st) ∧
      (h.Routes lib now tBlocked tRecord w r st).1.Code = 403 ∧
      (h.handleDisplayMessage lib now (h.withRequestID w r)
        { r with ctxPrincipal := some pr } st).dispatched = [] ∧
      (h.handleDisplayMessage lib now (h.withRequestID w r)
        { r with ctxPrincipal := some pr } st).sends = []) ∧
    (∀ payload : setBrightnessRequest, r.Path = "/commands/brightness" → r.Method = "PUT" →
      h.decodeJSON lib.decodeSetBrightness r = .ok payload →
      security.Credential.Allows { ID := pr.ID, Token := "", Devices := pr.Devices }
        payload.DeviceID = false →
      h.Routes lib now tBlocked tRecord w r st =
        (writeError (h.withRequestID w r) 403 (errors.New "forbidden for target device"),
          h.afterSuccess tBlocked r, st) ∧
      (h.Routes lib now tBlocked tRecord w r st).1.Code = 403 ∧
      (h.handleSetBrightness lib now (h.withRequestID w r)
        { r with ctxPrincipal := some pr } st).dispatched = [] ∧
      (h.handleSetBrightness lib now (h.withRequestID w r)
        { r with ctxPrincipal := some pr } st).sends = []) := by
  have hRoutes := Routes_authenticated h lib now tBlocked tRecord w r st pr hReach hBearer hCred
  refine ⟨?_, ?_, ?_⟩
  · intro payload hPath hMethod hBody hNo
    have hH := handleSetAlarm_denied h lib now (h.withRequestID w r)
      { r with ctxPrincipal := some pr } st pr payload rfl hMethod hBody hNo
    have hR : h.Routes lib now tBlocked tRecord w r st =
        (writeError (h.withRequestID w r) 403 (errors.New "forbidden for target device"),
          h.afterSuccess tBlocked r, st) := by
      rw [hRoutes, mux_alarms h lib now (h.withRequestID w r) { r with ctxPrincipal := some pr } st
        hPath, hH]
      rfl
    exact ⟨hR, by rw [hR]; rfl, by rw [hH], by rw [hH]⟩
  · intro payload hPath hMethod hBody hNo
    have hH := handleDisplayMessage_denied h lib now (h.withRequestID w r)
      { r with ctxPrincipal := some pr } st pr payload rfl hMethod hBody hNo
    have hR : h.Routes lib now tBlocked tRecord w r st =
        (writeError (h.withRequestID w r) 403 (errors.New "forbidden for target device"),
          h.afterSuccess tBlocked r, st) := by
      rw [hRoutes, mux_messages h lib now (h.withRequestID w r) { r with ctxPrincipal := some pr } st
        hPath, hH]
      rfl
    exact ⟨hR, by rw [hR]; rfl, by rw [hH], by rw [hH]⟩
  · intro payload hPath hMethod hBody hNo
    have hH := handleSetBrightness_denied h lib now (h.withRequestID w r)
      { r with ctxPrincipal := some pr } st pr payload rfl hMethod hBody hNo
    have hR : h.Routes lib now tBlocked tRecord w r st =
        (writeError (h.withRequestID w r) 403 (errors.New "forbidden for target device"),
          h.afterSuccess tBlocked r, st) := by
      rw [hRoutes, mux_brightness h lib now (h.withRequestID w r) { r with ctxPrincipal := some pr } st
        hPath, hH]
      rfl
    exact ⟨hR, by rw [hR]; rfl, by rw [hH], by rw [hH]⟩

/-- C11 on the request of `TestDeviceScopeForbidden`: the token is scoped to `clock-allowed`
and the body targets `clock-denied`. -/
theorem C11_device_scope_forbidden_witness :
    fixtures.scopedHandler.reachesAuth ⟨0⟩ fixtures.deniedMessageRequest ∧
    strings.HasPrefix (fixtures.deniedMessageRequest.Header "Authorization") "Bearer " = true ∧
    lookupCredential fixtures.scopedHandler.credentials (bearerToken fixtures.deniedMessageRequest)
      = some { ID := "ops", Devices := ["clock-allowed"] } ∧
    fixtures.scopedHandler.decodeJSON fixtures.exampleLib.decodeDisplayMessage
        fixtures.deniedMessageRequest =
      .ok { DeviceID := "clock-denied", Message := "hi", DurationSeconds := 10 } ∧
    (fixtures.scopedHandler.Routes fixtures.exampleLib ⟨0⟩ ⟨0⟩ ⟨0⟩ NewRecorder
      fixtures.deniedMessageRequest 0).1.Code = 403 ∧
    (fixtures.scopedHandler.Routes fixtures.exampleLib ⟨0⟩ ⟨0⟩ ⟨0⟩ NewRecorder
      fixtures.deniedMessageRequest 0).2.2 = 0 :=
  have hReach : fixtures.scopedHandler.reachesAuth ⟨0⟩ fixtures.deniedMessageRequest :=
    ⟨by decide, Or.inl rfl, by decide, rfl⟩
  have hAll := (C11_device_scope_forbidden Nat fixtures.scopedHandler fixtures.exampleLib ⟨0⟩ ⟨0⟩
    ⟨0⟩ NewRecorder fixtures.deniedMessageRequest 0 { ID := "ops", Devices := ["clock-allowed"] }
    hReach rfl rfl).2.1 { DeviceID := "clock-denied", Message := "hi", DurationSeconds := 10 }
    rfl rfl rfl (by decide)
  ⟨hReach, rfl, rfl, rfl, hAll.2.1, by rw [hAll.1]⟩

end DeviceScope

namespace net

end net

namespace api

theorem IsBlocked_entries_other (l : authFailureLimiter) (now : time.Time) (key k : String)
    (hk : k ≠ key) : (l.IsBlocked now key).2.entries k = l.entries k := by
  unfold authFailureLimiter.IsBlocked
  split
  · rfl
  · split_ifs
    · exact Function.update_noteq hk _ _
    · rfl

theorem IsBlocked_entries_key (l : authFailureLimiter) (now : time.Time) (key : String) :
    (l.IsBlocked now key).2.entries key = l.entries key ∨
      (l.IsBlocked now key).2.entries key = none := by
  unfold authFailureLimiter.IsBlocked
  split
  · left; rfl
  · split_ifs
    · right; exact Function.update_same _ _ _
    · left; rfl

theorem RecordFailure_entries_other (l : authFailureLimiter) (now : time.Time) (key k : String)
    (hk : k ≠ key) : (l.RecordFailure now key).entries k = l.entries k := by
  unfold authFailureLimiter.RecordFailure
  split
  · exact Function.update_noteq hk _ _
  · split_ifs <;> exact Function.update_noteq hk _ _

theorem RecordFailure_entries_key (l : authFailureLimiter) (now : time.Time) (key : String) :
    (l.RecordFailure now key).entries key = some { windowStart := now, count := 1 } ∨
      ∃ e, l.entries key = some e ∧
        (l.RecordFailure now key).entries key =
          some { windowStart := e.windowStart, count := e.count + 1 } := by
  unfold authFailureLimiter.RecordFailure
  split
  · left; exact Function.update_same _ _ _
  · rename_i e he
    split_ifs
    · left; exact Function.update_same _ _ _
    · right; exact ⟨e, he, Function.update_same _ _ _⟩

end api

/-! ## Security gateway: authentication -/

section Authentication

open domain application api

end Authentication

namespace api

theorem isAlpha_iff (c : Char) :
    c.isAlpha = true ↔ (65 ≤ c.toNat ∧ c.toNat ≤ 90) ∨ (97 ≤ c.toNat ∧ c.toNat ≤ 122) := by
  simp only [Char.isAlpha, Char.isUpper, Char.isLower, Bool.or_eq_true, Bool.and_eq_true,
    decide_eq_true_eq, Char.toNat, ge_iff_le, UInt32.le_def]
  rfl

/-- The code points that fold to one of the letters of `https`. -/
theorem foldsToASCII_iff (a c : Char) (ha : a = 'h' ∨ a = 't' ∨ a = 'p' ∨ a = 's') :
    foldsToASCII a c = true ↔
      c.toNat = a.toNat ∨ c.toNat + 32 = a.toNat ∨ (a = 's' ∧ c.toNat = 0x17F) := by
  by_cases hr : (65 ≤ c.toNat ∧ c.toNat ≤ 90) ∨ (97 ≤ c.toNat ∧ c.toNat ≤ 122)
  · obtain ⟨n, hn⟩ : ∃ n, n = c.toNat := ⟨_, rfl⟩
    have hc : c = Char.ofNat n := by rw [hn, Char.ofNat_toNat]
    rw [← hn] at hr
    clear hn
    subst hc
    rcases ha with rfl | rfl | rfl | rfl <;> rcases hr with ⟨h1, h2⟩ | ⟨h1, h2⟩ <;>
      interval_cases n <;> decide
  · have hal : c.isAlpha = false := by
      cases hA : c.isAlpha with
      | false => rfl
      | true => exact absurd ((isAlpha_iff c).1 hA) hr
    have hne : ∀ a : Char, (97 ≤ a.toNat ∧ a.toNat ≤ 122) → (c == a) = false := by
      intro a ha2
      have : c ≠ a := by
        rintro rfl
        exact hr (Or.inr ha2)
      simpa using this
    rcases ha with rfl | rfl | rfl | rfl
    · have e1 := hne 'h' (by decide)
      have k1 : ('h'.toLower == 'k') = false := by decide
      have k2 : ('h'.toLower == 's') = false := by decide
      have t : ¬ (c.toNat = 'h'.toNat ∨ c.toNat + 32 = 'h'.toNat ∨ ('h' = 's' ∧ c.toNat = 0x17F)) := by
        have hn : 'h'.toNat = 104 := by decide
        rw [hn]
        rintro (h1 | h1 | ⟨h1, _⟩)
        · omega
        · omega
        · exact absurd h1 (by decide)
      simp only [foldsToASCII, e1, hal, k1, k2, t, Bool.and_false, Bool.false_and, Bool.or_false,
        Bool.false_eq_true]
    · have e1 := hne 't' (by decide)
      have k1 : ('t'.toLower == 'k') = false := by decide
      have k2 : ('t'.toLower == 's') = false := by decide
      have t : ¬ (c.toNat = 't'.toNat ∨ c.toNat + 32 = 't'.toNat ∨ ('t' = 's' ∧ c.toNat = 0x17F)) := by
        have hn : 't'.toNat = 116 := by decide
        rw [hn]
        rintro (h1 | h1 | ⟨h1, _⟩)
        · omega
        · omega
        · exact absurd h1 (by decide)
      simp only [foldsToASCII, e1, hal, k1, k2, t, Bool.and_false, Bool.false_and, Bool.or_false,
        Bool.false_eq_true]
    · have e1 := hne 'p' (by decide)
      have k1 : ('p'.toLower == 'k') = false := by decide
      have k2 : ('p'.toLower == 's') = false := by decide
      have t : ¬ (c.toNat = 'p'.toNat ∨ c.toNat + 32 = 'p'.toNat ∨ ('p' = 's' ∧ c.toNat = 0x17F)) := by
        have hn : 'p'.toNat = 112 := by decide
        rw [hn]
        rintro (h1 | h1 | ⟨h1, _⟩)
        · omega
        · omega
        · exact absurd h1 (by decide)
      simp only [foldsToASCII, e1, hal, k1, k2, t, Bool.and_false, Bool.false_and, Bool.or_false,
        Bool.false_eq_true]
    · have e1 := hne 's' (by decide)
      have k1 : ('s'.toLower == 'k') = false := by decide
      have k2 : ('s'.toLower == 's') = true := by decide
      have hs : 's'.toNat = 115 := by decide
      simp only [foldsToASCII, e1, hal, k1, k2, hs, Bool.and_false, Bool.false_and,
        Bool.or_false, Bool.false_or, Bool.true_and, beq_iff_eq, true_and]
      omega

end api

namespace api

theorem foldsTo_h (c : Char) : foldsToASCII 'h' c = true ↔ c.toNat = 0x68 ∨ c.toNat = 0x48 := by
  rw [foldsToASCII_iff 'h' c (Or.inl rfl)]
  have hn : 'h'.toNat = 104 := by decide
  have hs : ¬ ('h' = 's') := by decide
  rw [hn]
  simp only [hs, false_and, or_false]
  omega

theorem foldsTo_t (c : Char) : foldsToASCII 't' c = true ↔ c.toNat = 0x74 ∨ c.toNat = 0x54 := by
  rw [foldsToASCII_iff 't' c (Or.inr (Or.inl rfl))]
  have hn : 't'.toNat = 116 := by decide
  have hs : ¬ ('t' = 's') := by decide
  rw [hn]
  simp only [hs, false_and, or_false]
  omega

theorem foldsTo_p (c : Char) : foldsToASCII 'p' c = true ↔ c.toNat = 0x70 ∨ c.toNat = 0x50 := by
  rw [foldsToASCII_iff 'p' c (Or.inr (Or.inr (Or.inl rfl)))]
  have hn : 'p'.toNat = 112 := by decide
  have hs : ¬ ('p' = 's') := by decide
  rw [hn]
  simp only [hs, false_and, or_false]
  omega

theorem foldsTo_s (c : Char) :
    foldsToASCII 's' c = true ↔ c.toNat = 0x73 ∨ c.toNat = 0x53 ∨ c.toNat = 0x17F := by
  rw [foldsToASCII_iff 's' c (Or.inr (Or.inr (Or.inr rfl)))]
  have hn : 's'.toNat = 115 := by decide
  rw [hn]
  simp only [true_and]
  omega

/-- `strings.EqualFold(s, "https")`, spelled out. -/
theorem equalFold_https (s : String) :
    equalFoldASCII s.data "https".data = true ↔ foldsToHttps s := by
  have hd : "https".data = ['h', 't', 't', 'p', 's'] := rfl
  rw [hd]
  unfold foldsToHttps
  rcases hs : s.data with _ | ⟨c1, _ | ⟨c2, _ | ⟨c3, _ | ⟨c4, _ | ⟨c5, _ | ⟨c6, rest⟩⟩⟩⟩⟩⟩
  · simp [equalFoldASCII]
  · simp [equalFoldASCII]
  · simp [equalFoldASCII]
  · simp [equalFoldASCII]
  · simp [equalFoldASCII]
  · simp only [equalFoldASCII, Bool.and_true, Bool.and_eq_true, foldsTo_h, foldsTo_t, foldsTo_p,
      foldsTo_s]
    constructor
    · rintro ⟨h1, h2, h3, h4, h5⟩
      exact ⟨c1, c2, c3, c4, c5, rfl, h1, h2, h3, h4, h5⟩
    · rintro ⟨d1, d2, d3, d4, d5, he, h1, h2, h3, h4, h5⟩
      simp only [List.cons.injEq, and_true] at he
      obtain ⟨rfl, rfl, rfl, rfl, rfl⟩ := he
      exact ⟨h1, h2, h3, h4, h5⟩
  · simp [equalFoldASCII]

theorem isSecureRequest_iff {σ : Type} (h : Handler σ) (r : Request) :
    h.isSecureRequest r = true ↔
      (r.TLS = true ∨
        (h.trustProxyTLS = true ∧
          foldsToHttps (strings.TrimSpace (r.Header "X-Forwarded-Proto")))) := by
  unfold Handler.isSecureRequest
  cases hT : r.TLS
  · cases hP : h.trustProxyTLS
    · simp
    · simp only [Bool.false_eq_true, if_false, Bool.not_true, false_or, true_and]
      exact equalFold_https _
  · simp

/-- The middleware on the `/ready` path exempt from authentication: the next handler runs on
the request as it is. -/
theorem authMiddleware_readyExempt {σ : Type} (h : Handler σ) (next : HttpHandler σ)
    (tBlocked tRecord : time.Time) (w : ResponseWriter) (r : Request) (st : σ)
    (hTLS : h.requireTLS = false ∨ h.isSecureRequest r = true)
    (hPath : r.Path = "/ready") (hExempt : h.readinessRequireAuth = false) :
    h.authMiddleware next tBlocked tRecord w r st =
      ((next (h.withRequestID w r) r st).1, h.counted r, (next (h.withRequestID w r) r st).2) := by
  obtain ⟨d, c, tp, rt, ra, mb, lim, rc, ch⟩ := h
  simp only at hExempt
  subst hExempt
  have hT : (rt && !(if r.TLS = true then true
      else if (!tp) = true then false
      else equalFoldASCII (strings.TrimSpace (r.Header "X-Forwarded-Proto")).data "https".data))
      = false := by
    rcases hTLS with h1 | h1
    · simp only at h1
      rw [h1]
      rfl
    · unfold Handler.isSecureRequest at h1
      simp only at h1
      rw [h1]
      simp
  unfold Handler.authMiddleware Handler.isSecureRequest
  simp only [hPath, hT, Handler.counted, Handler.withRequestID]
  rfl

/-- The middleware on a request whose source is blocked: 429, and nothing else happens. -/
theorem authMiddleware_blocked {σ : Type} (h : Handler σ) (next : HttpHandler σ)
    (tBlocked tRecord : time.Time) (w : ResponseWriter) (r : Request) (st : σ)
    (hPath : r.Path ≠ "/health")
    (hTLS : h.requireTLS = false ∨ h.isSecureRequest r = true)
    (hReady : ¬ (r.Path = "/ready" ∧ h.readinessRequireAuth = false))
    (hBlocked : (h.authFailureRateLimiter.IsBlocked tBlocked (clientIP r)).1 = true) :
    h.authMiddleware next tBlocked tRecord w r st =
      (writeJSON (h.withRequestID w r) 429 [("error", "too many auth failures")],
        h.afterSuccess tBlocked r, st) := by
  have hP : (r.Path == "/health") = false := by simpa using hPath
  have hT : (h.requireTLS && !(h.counted r).isSecureRequest r) = false := by
    have e : (h.counted r).isSecureRequest r = h.isSecureRequest r := rfl
    rw [e]
    rcases hTLS with h1 | h1 <;> simp [h1]
  have hR : (r.Path == "/ready" && !h.readinessRequireAuth) = false := by
    cases hq : h.readinessRequireAuth
    · have : r.Path ≠ "/ready" := fun e => hReady ⟨e, hq⟩
      simp [this]
    · simp
  rcases hB : h.authFailureRateLimiter.IsBlocked tBlocked (clientIP r) with ⟨b, l1⟩
  rw [hB] at hBlocked
  simp only at hBlocked
  subst hBlocked
  unfold Handler.counted at hT
  unfold Handler.authMiddleware
  simp only [hP, hT, hR, hB, Handler.counted, Handler.withRequestID,
    Handler.afterSuccess, Handler.checkedLimiter, Bool.false_eq_true, if_false]
  rfl

end api

/-! ## Security gateway: transport security -/

section TransportSecurity

open domain application api

/-- C12: when TLS is required, a request to a path other than /health is accepted as secure if
and only if it arrived over TLS, or proxy trust is enabled and its X-Forwarded-Proto header,
trimmed, is `https` up to case.  A request that is not secure is answered 426
`https required` whatever the next handler is, with the limiter and the state untouched: no
block check, no authentication, no failure recorded.  A secure request is served as if TLS
were not required.  With proxy trust disabled a plaintext request gets 426 whatever its
X-Forwarded-Proto header says. -/
theorem C12_tls_required_gate (σ : Type) (h : Handler σ) (next : HttpHandler σ)
    (tBlocked tRecord : time.Time) (w : ResponseWriter) (r : Request) (st : σ)
    (hTLS : h.requireTLS = true) (hPath : r.Path ≠ "/health") :
    (h.isSecureRequest r = true ↔
      (r.TLS = true ∨
        (h.trustProxyTLS = true ∧
          foldsToHttps (strings.TrimSpace (r.Header "X-Forwarded-Proto"))))) ∧
    (h.isSecureRequest r = false →
      h.authMiddleware next tBlocked tRecord w r st =
        (writeJSON (h.withRequestID w r) 426 [("error", "https required")], h.counted r, st) ∧
      (h.authMiddleware next tBlocked tRecord w r st).1.Code = 426 ∧
      (h.authMiddleware next tBlocked tRecord w r st).2.1.authFailureRateLimiter =
        h.authFailureRateLimiter) ∧
    (h.isSecureRequest r = true →
      (h.authMiddleware next tBlocked tRecord w r st).1 =
        (Handler.authMiddleware { h with requireTLS := false } next tBlocked tRecord w r st).1 ∧
      (h.authMiddleware next tBlocked tRecord w r st).2.2 =
        (Handler.authMiddleware { h with requireTLS := false } next tBlocked tRecord w r st).2.2 ∧
      (h.authMiddleware next tBlocked tRecord w r st).2.1.authFailureRateLimiter =
        (Handler.authMiddleware { h with requireTLS := false } next tBlocked tRecord w r
          st).2.1.authFailureRateLimiter) ∧
    (h.trustProxyTLS = false → r.TLS = false →
      (h.authMiddleware next tBlocked tRecord w r st).1.Code = 426) := by
  have hP : (r.Path == "/health") = false := by simpa using hPath
  have hInsecure : h.isSecureRequest r = false →
      h.authMiddleware next tBlocked tRecord w r st =
        (writeJSON (h.withRequestID w r) 426 [("error", "https required")],
          h.counted r, st) := by
    intro hS
    obtain ⟨d, c, tp, rt, ra, mb, lim, rc, ch⟩ := h
    simp only at hTLS
    subst hTLS
    unfold Handler.isSecureRequest at hS
    simp only at hS
    unfold Handler.authMiddleware Handler.isSecureRequest
    simp only [hP, hS, Handler.counted, Handler.withRequestID, Bool.false_eq_true,
      if_false, Bool.not_false, Bool.and_self, if_true]
    rfl
  refine ⟨isSecureRequest_iff h r, ?_, ?_, ?_⟩
  · intro hS
    have hEq := hInsecure hS
    exact ⟨hEq, by rw [hEq]; rfl, by rw [hEq]; rfl⟩
  · intro hS
    have hS0 : Handler.isSecureRequest { h with requireTLS := false } r = true := hS
    by_cases hReady : r.Path = "/ready" ∧ h.readinessRequireAuth = false
    · rw [authMiddleware_readyExempt h next tBlocked tRecord w r st (Or.inr hS) hReady.1 hReady.2,
        authMiddleware_readyExempt { h with requireTLS := false } next tBlocked tRecord w r st
          (Or.inl rfl) hReady.1 hReady.2]
      exact ⟨rfl, rfl, rfl⟩
    · cases hB : (h.authFailureRateLimiter.IsBlocked tBlocked (clientIP r)).1
      · have hR1 : h.reachesAuth tBlocked r := ⟨hPath, Or.inr hS, hReady, hB⟩
        have hR0 : Handler.reachesAuth { h with requireTLS := false } tBlocked r :=
          ⟨hPath, Or.inl rfl, hReady, hB⟩
        rw [authMiddleware_reachesAuth h next tBlocked tRecord w r st hR1,
          authMiddleware_reachesAuth { h with requireTLS := false } next tBlocked tRecord w r st
            hR0]
        have hw : Handler.withRequestID { h with requireTLS := false } w r =
            h.withRequestID w r := rfl
        rw [hw]
        by_cases hPfx : strings.HasPrefix (r.Header "Authorization") "Bearer " = true
        · simp only [hPfx, Bool.not_true, Bool.false_eq_true, if_false]
          cases lookupCredential h.credentials (bearerToken r) <;> exact ⟨rfl, rfl, rfl⟩
        · have hPfx2 : strings.HasPrefix (r.Header "Authorization") "Bearer " = false := by
            simpa using hPfx
          simp only [hPfx2, Bool.not_false, if_true]
          refine ⟨?_, ?_, ?_⟩ <;> trivial
      · rw [authMiddleware_blocked h next tBlocked tRecord w r st hPath (Or.inr hS) hReady hB,
          authMiddleware_blocked { h with requireTLS := false } next tBlocked tRecord w r st
            hPath (Or.inl rfl) hReady hB]
        exact ⟨rfl, rfl, rfl⟩
  · intro hNoTrust hPlain
    have hS : h.isSecureRequest r = false := by
      cases hq : h.isSecureRequest r with
      | false => rfl
      | true =>
        rcases (isSecureRequest_iff h r).1 hq with h1 | ⟨h1, _⟩
        · rw [hPlain] at h1; exact absurd h1 (by decide)
        · rw [hNoTrust] at h1; exact absurd h1 (by decide)
    rw [hInsecure hS]
    rfl

/-- C12 on the requests of `TestRoutesRequireTLS` and `TestRoutesTrustProxyTLS`: with proxy
trust off the plaintext request gets 426 although it says `X-Forwarded-Proto: https`; with
proxy trust on it is secure, also when the header reads ` HTTPS `, and it is served with
200. -/
theorem C12_tls_required_gate_witness :
    (fixtures.tlsHandler false).requireTLS = true ∧
    (fixtures.forwardedReadyRequest "https").Path ≠ "/health" ∧
    ((fixtures.tlsHandler false).authMiddleware
        ((fixtures.tlsHandler false).mux fixtures.exampleLib ⟨0⟩) ⟨0⟩ ⟨0⟩ NewRecorder
        (fixtures.forwardedReadyRequest "https") 0).1.Code = 426 ∧
    (fixtures.tlsHandler true).isSecureRequest (fixtures.forwardedReadyRequest " HTTPS ") = true ∧
    ((fixtures.tlsHandler true).Routes fixtures.exampleLib ⟨0⟩ ⟨0⟩ ⟨0⟩ NewRecorder
        (fixtures.forwardedReadyRequest "https") 0).1.Code = 200 :=
  ⟨rfl, by decide,
    (C12_tls_required_gate Nat (fixtures.tlsHandler false) _ ⟨0⟩ ⟨0⟩ NewRecorder
      (fixtures.forwardedReadyRequest "https") 0 rfl (by decide)).2.2.2 rfl rfl,
    by decide, by decide⟩

end TransportSecurity

/-! ## The nil command, the empty composite, the health endpoint -/

section NilCommand

open domain application

/-- C28: Dispatch of the nil command returns an error `err` with `errors.Is(err, ErrValidation)`
whose message contains `command is required`, and it never invokes the sender: no Send is made
and the state of the sender is the one before the call. -/
theorem C28_dispatch_nil_command (σ : Type) (d : CommandDispatcher σ)
    (rfc3339 : time.Time → String) (now : time.Time) (st : σ) :
    ∃ err : GoError, (d.Dispatch rfc3339 now none st).err = some err ∧
      errors.Is (some err) ErrValidation = true ∧
      strings.Contains err.Error "command is required" ∧
      (d.Dispatch rfc3339 now none st).sends = [] ∧
      (d.Dispatch rfc3339 now none st).state = st := by
  refine ⟨fmt.Errorf [.w ErrValidation, .lit ": command is required"], rfl, rfl, ?_, rfl, rfl⟩
  exact ⟨"validation error: ".data, [], rfl⟩

end NilCommand

section CompositeEdges

open domain application composite

/-- C29: a composite sender built with an empty list returns the error
`no command senders configured` for every command, calling nothing; a composite sender with a
non-empty list in which every transport succeeds (no entry is nil and every Send returns nil)
returns nil. -/
theorem C29_composite_empty_and_all_succeed (σ : Type) (cmd : ClockCommand) (st : σ) :
    ((NewSender ([] : List (Option (ClockCommandSender σ)))).Send cmd st).err =
        some (errors.New "no command senders configured") ∧
    (errors.New "no command senders configured").Error = "no command senders configured" ∧
    ((NewSender ([] : List (Option (ClockCommandSender σ)))).Send cmd st).calls = [] ∧
    (∀ senders : List (Option (ClockCommandSender σ)), 1 ≤ senders.length →
      (∀ o ∈ outcomes cmd senders st, o = some none) →
      ((NewSender senders).Send cmd st).err = none) := by
  refine ⟨rfl, rfl, rfl, ?_⟩
  intro senders hN hAll
  have hLen := contributions_length (outcomes cmd senders st) 0
  have hCount : (outcomes cmd senders st).countP failed = 0 := by
    rw [List.countP_eq_zero]
    intro o ho
    rw [hAll o ho]
    simp [failed]
  rw [hCount] at hLen
  have hNil : contributions 0 (outcomes cmd senders st) = [] := List.length_eq_zero.mp hLen
  rw [(Send_eq σ (NewSender senders) cmd st hN).1]
  show errors.Join (contributions 0 (outcomes cmd senders st)) = none
  rw [hNil]
  rfl

/-- C29 on the empty list and on a list of two succeeding senders. -/
theorem C29_composite_empty_and_all_succeed_witness :
    ((NewSender ([] : List (Option (ClockCommandSender Nat)))).Send (fixtures.brightness 20) 0).err =
        some (.errorString "no command senders configured") ∧
    ((NewSender fixtures.succeedingSenders).Send (fixtures.brightness 20) 0).err = none :=
  ⟨(C29_composite_empty_and_all_succeed Nat (fixtures.brightness 20) 0).1,
    (C29_composite_empty_and_all_succeed Nat (fixtures.brightness 20) 0).2.2.2
      fixtures.succeedingSenders (by decide)
      (by
        intro o ho
        simpa [fixtures.succeedingSenders, outcomes, fixtures.testSender] using ho)⟩

end CompositeEdges

section Health

open domain application api

/-- C30: for every handler configuration and every request whose path is `/health`, the routes
answer 200 with the body `{"status":"ok"}`, whatever the TLS requirement, the `Authorization`
header and the state of the failure limiter are; the limiter is left as it was, so no
authentication failure is recorded, and the sender state is untouched.  The only traces are
the `X-Request-Id` header and the request counter. -/
theorem C30_health_always_ok (σ : Type) (h : Handler σ) (lib : Stdlib)
    (now tBlocked tRecord : time.Time) (w : ResponseWriter) (r : Request) (st : σ)
    (hPath : r.Path = "/health") :
    (h.Routes lib now tBlocked tRecord w r st).1.Code = 200 ∧
    (h.Routes lib now tBlocked tRecord w r st).1.Body = [("status", "ok")] ∧
    (h.Routes lib now tBlocked tRecord w r st).2.1.authFailureRateLimiter =
      h.authFailureRateLimiter ∧
    (h.Routes lib now tBlocked tRecord w r st).2.2 = st ∧
    h.Routes lib now tBlocked tRecord w r st =
      (writeJSON (h.withRequestID w r) http.StatusOK [("status", "ok")], h.counted r, st) := by
  have hEq : h.Routes lib now tBlocked tRecord w r st =
      (writeJSON (h.withRequestID w r) http.StatusOK [("status", "ok")], h.counted r, st) := by
    obtain ⟨d, c, tp, rt, ra, mb, lim, rc, ch⟩ := h
    unfold Handler.Routes Handler.authMiddleware Handler.mux
    simp only [hPath, Handler.handleHealth, Handler.withRequestID, Handler.counted]
    rfl
  rw [hEq]
  exact ⟨rfl, rfl, rfl, rfl, rfl⟩

/-- C30 on a plaintext `POST /health` without credentials, from a blocked source, to a handler
that requires TLS. -/
theorem C30_health_always_ok_witness :
    fixtures.healthRequest.Path = "/health" ∧
    fixtures.blockedTLSHandler.requireTLS = true ∧
    (fixtures.blockedTLSHandler.authFailureRateLimiter.IsBlocked ⟨1⟩
      (clientIP fixtures.healthRequest)).1 = true ∧
    (fixtures.blockedTLSHandler.Routes fixtures.exampleLib ⟨1⟩ ⟨1⟩ ⟨1⟩ NewRecorder
      fixtures.healthRequest 0).1.Code = 200 ∧
    (fixtures.blockedTLSHandler.Routes fixtures.exampleLib ⟨1⟩ ⟨1⟩ ⟨1⟩ NewRecorder
      fixtures.healthRequest 0).1.Body = [("status", "ok")] :=
  ⟨rfl, rfl, by decide,
    (C30_health_always_ok Nat fixtures.blockedTLSHandler fixtures.exampleLib ⟨1⟩ ⟨1⟩ ⟨1⟩
      NewRecorder fixtures.healthRequest 0 rfl).1,
    (C30_health_always_ok Nat fixtures.blockedTLSHandler fixtures.exampleLib ⟨1⟩ ⟨1⟩ ⟨1⟩
      NewRecorder fixtures.healthRequest 0 rfl).2.1⟩

end Health

/-! ## MQTT: when a PUBLISH packet is refused -/

namespace strings

theorem trimChars_eq_nil_iff (cs : List Char) :
    trimChars cs = [] ↔ ∀ c ∈ cs, unicode.IsSpace c = true := by
  unfold trimChars
  rw [List.reverse_eq_nil_iff]
  constructor
  · intro h
    have h2 : cs.dropWhile unicode.IsSpace = [] := by
      cases hd : cs.dropWhile unicode.IsSpace with
      | nil => rfl
      | cons a rest =>
        have hHead := List.head_dropWhile_not unicode.IsSpace cs (by rw [hd]; simp)
        simp only [hd, List.head_cons] at hHead
        rw [hd, List.dropWhile_eq_nil_iff] at h
        have := h a (by simp)
        rw [this] at hHead
        simp at hHead
    rw [List.dropWhile_eq_nil_iff] at h2
    exact h2
  · intro h
    have h2 : cs.dropWhile unicode.IsSpace = [] := by
      rw [List.dropWhile_eq_nil_iff]
      exact h
    rw [h2]
    rfl

/-- `TrimSpace` gives the empty string exactly on the strings made of white space only. -/
theorem TrimSpace_eq_empty_iff (s : String) :
    TrimSpace s = "" ↔ ∀ c ∈ s.data, unicode.IsSpace c = true := by
  rw [← trimChars_eq_nil_iff]
  unfold TrimSpace
  constructor
  · intro h
    have := congrArg String.data h
    simpa using this
  · intro h
    rw [h]

theorem len_pos_of_ne_nil (s : String) (h : s.data ≠ []) : 1 ≤ len s := by
  unfold len bytes
  cases hd : s.data with
  | nil => exact absurd hd h
  | cons c cs =>
    rw [List.flatMap_cons, List.length_append]
    have : 1 ≤ (utf8.EncodeRune c).length := by
      unfold utf8.EncodeRune
      simp only []
      split_ifs <;> simp
    omega

end strings

namespace mqtt

theorem encodeRemainingLength_length_pos (length : Int) :
    1 ≤ (encodeRemainingLength length).length := by
  rw [encodeRemainingLength]
  split <;> simp

end mqtt

section PublishErrors

open mqtt

/-- C21: buildPublishPacket returns an error if and only if the topic is empty or made of white
space only, or qos > 1; and whenever it returns no error, it returns a packet of at least 4
bytes. -/
theorem C21_build_publish_packet_errors (topic : String) (payload : List Nat) (qos : Nat)
    (retained : Bool) (packetID : Nat) :
    ((∃ err, buildPublishPacket topic payload qos retained packetID = .error err) ↔
      ((∀ c ∈ topic.data, unicode.IsSpace c = true) ∨ qos > 1)) ∧
    ((∃ packet, buildPublishPacket topic payload qos retained packetID = .ok packet) ↔
      ¬ ((∀ c ∈ topic.data, unicode.IsSpace c = true) ∨ qos > 1)) ∧
    (∀ packet, buildPublishPacket topic payload qos retained packetID = .ok packet →
      4 ≤ packet.length) := by
  rw [← strings.TrimSpace_eq_empty_iff]
  by_cases hT : strings.TrimSpace topic = ""
  · simp [buildPublishPacket, hT]
  · have hT2 : (strings.TrimSpace topic == "") = false := by simpa using hT
    by_cases hQ : qos > 1
    · simp [buildPublishPacket, hT2, hQ]
    · have hData : topic.data ≠ [] := by
        intro hd
        apply hT
        rw [strings.TrimSpace_eq_empty_iff, hd]
        simp
      have hLen := strings.len_pos_of_ne_nil topic hData
      have hES : (encodeString topic).length = 2 + strings.len topic := by
        rw [encodeString_eq]
        simp [strings.len]
        omega
      refine ⟨?_, ?_, ?_⟩
      · simp [buildPublishPacket, hT2, hQ, hT]
      · simp [buildPublishPacket, hT2, hQ, hT]
      · intro packet hp
        simp only [buildPublishPacket, hT2, hQ, if_false, Bool.false_eq_true] at hp
        injection hp with hp
        rw [← hp]
        have hR := encodeRemainingLength_length_pos
          (((if qos > 0 then encodeString topic ++ binary.PutUint16 packetID
            else encodeString topic).length : Int) + (payload.length : Int))
        simp only [List.length_append, List.length_cons, List.length_nil]
        split_ifs at hR ⊢ <;> simp only [List.length_append, hES] at hR ⊢ <;> omega

end PublishErrors

/-! ## MQTT: acknowledgements, topics, the CONNECT packet -/

section Acks

open mqtt

/-- C22: for every expected packet id `p` and every input stream, readPubAck succeeds if and
only if four bytes can be read and they are 0x40, 0x02 and then `p` as a big-endian 16-bit
integer.  A short read gives an error wrapping the end-of-stream error, another header gives
`invalid puback header`, another packet id gives `puback packet id mismatch`; on an input of
four bytes or more readPubAck always returns, with nil or with one of these two errors, leaving
the bytes after the fourth unread.  The same equivalence holds for every reader: success
exactly when `io.ReadFull` fills the four bytes with that header and that id. -/
theorem C22_read_puback (p : Nat) (b : List Nat) (hP : p < 65536) (hB : ∀ x ∈ b, x < 256) :
    ((readPubAck bytes.NewReader p b).1 = none ↔
      ∃ rest, b = 0x40 :: 0x02 :: p / 256 :: p % 256 :: rest) ∧
    (b = [] → (readPubAck bytes.NewReader p b).1 =
      some (.wrapError "read puback: EOF" io.EOF)) ∧
    (0 < b.length → b.length < 4 → (readPubAck bytes.NewReader p b).1 =
      some (.wrapError "read puback: unexpected EOF" io.ErrUnexpectedEOF)) ∧
    (∀ b0 b1 b2 b3 rest, b = b0 :: b1 :: b2 :: b3 :: rest →
      (readPubAck bytes.NewReader p b).2 = rest ∧
      ((b0 ≠ 0x40 ∨ b1 ≠ 0x02) → (readPubAck bytes.NewReader p b).1 =
        some (fmt.Errorf [.lit "invalid puback header: ", .v [b0, b1]])) ∧
      (b0 = 0x40 → b1 = 0x02 → b2 * 256 + b3 ≠ p → (readPubAck bytes.NewReader p b).1 =
        some (fmt.Errorf [.lit "puback packet id mismatch: expected ", .d p, .lit " got ",
          .d (b2 * 256 + b3 : Nat)]))) ∧
    (∀ (ρ : Type) (r : io.Reader ρ) (st : ρ),
      (readPubAck r p st).1 = none ↔
        ∃ header, (r.ReadFull 4 st).1 = .ok header ∧ header.getD 0 0 = 0x40 ∧
          header.getD 1 0 = 0x02 ∧
          binary.Uint16 (header.getD 2 0) (header.getD 3 0) = p) := by
  refine ⟨?_, ?_, ?_, ?_, ?_⟩
  · rcases b with _ | ⟨b0, _ | ⟨b1, _ | ⟨b2, _ | ⟨b3, rest⟩⟩⟩⟩
    · simp [readPubAck, bytes.NewReader]
    · simp [readPubAck, bytes.NewReader]
    · simp [readPubAck, bytes.NewReader]
    · simp [readPubAck, bytes.NewReader]
    · have h2 : b2 < 256 := hB b2 (by simp)
      have h3 : b3 < 256 := hB b3 (by simp)
      simp only [readPubAck, bytes.NewReader, binary.Uint16]
      by_cases h0 : b0 = 0x40
      · by_cases h1 : b1 = 0x02
        · by_cases hp : b2 % 256 * 256 + b3 % 256 = p
          · have e2 : b2 = p / 256 := by omega
            have e3 : b3 = p % 256 := by omega
            simp [h0, h1, hp, ← e2, ← e3]
          · have hne : ¬ (b2 = p / 256 ∧ b3 = p % 256) := by
              rintro ⟨e2, e3⟩
              apply hp
              omega
            simp [h0, h1, hp, hne]
        · simp [h0, h1]
      · simp [h0]
  · rintro rfl
    rfl
  · intro h0 h4
    rcases b with _ | ⟨b0, _ | ⟨b1, _ | ⟨b2, _ | ⟨b3, rest⟩⟩⟩⟩
    · simp at h0
    · rfl
    · rfl
    · rfl
    · simp only [List.length_cons] at h4
      omega
  · rintro b0 b1 b2 b3 rest rfl
    have h2 : b2 < 256 := hB b2 (by simp)
    have h3 : b3 < 256 := hB b3 (by simp)
    have e2 : b2 % 256 = b2 := Nat.mod_eq_of_lt h2
    have e3 : b3 % 256 = b3 := Nat.mod_eq_of_lt h3
    refine ⟨?_, ?_, ?_⟩
    · simp only [readPubAck, bytes.NewReader]
      simp only [List.length_cons, Nat.le_add_left, if_true]
      split_ifs <;> rfl
    · intro hne
      have hc : (b0 != 0x40 || b1 != 0x02) = true := by
        rcases hne with h | h <;> simp [h]
      simp only [readPubAck, bytes.NewReader]
      simp only [List.length_cons, Nat.le_add_left, if_true]
      simp [hc]
    · rintro rfl rfl hne
      have hU : binary.Uint16 b2 b3 = b2 * 256 + b3 := by
        unfold binary.Uint16
        rw [e2, e3]
      simp [readPubAck, bytes.NewReader, hU, hne]
  · intro ρ r st
    unfold readPubAck
    rcases hR : r.ReadFull 4 st with ⟨res, st1⟩
    cases res with
    | error err => simp
    | ok header =>
      simp only [Except.ok.injEq, exists_eq_left']
      generalize header.getD 0 0 = x0
      generalize header.getD 1 0 = x1
      generalize binary.Uint16 (header.getD 2 0) (header.getD 3 0) = x
      by_cases h0 : x0 = 0x40
      · by_cases h1 : x1 = 0x02
        · by_cases hp : x = p
          · simp [h0, h1, hp]
          · simp [h0, h1, hp]
        · simp [h0, h1]
      · simp [h0]

/-- C22 on the first seed of `FuzzReadPubAck`: the acknowledgement of packet id 1. -/
theorem C22_read_puback_witness :
    (1 : Nat) < 65536 ∧ (∀ x ∈ [0x40, 0x02, 0x00, 0x01], x < 256) ∧
    (readPubAck bytes.NewReader 1 [0x40, 0x02, 0x00, 0x01]).1 = none :=
  ⟨by decide, by decide,
    (C22_read_puback 1 [0x40, 0x02, 0x00, 0x01] (by decide) (by decide)).1.mpr ⟨[], rfl⟩⟩

/-- C23: readConnAck succeeds if and only if four bytes can be read, the first two are 0x20 and
0x02, and the fourth (the return code) is 0x00; the third byte is not looked at.  The same
equivalence holds for every reader, success being exactly that `io.ReadFull` fills the four
bytes and they pass these three tests. -/
theorem C23_read_connack (b : List Nat) :
    ((readConnAck bytes.NewReader b).1 = none ↔
      ∃ b2 rest, b = 0x20 :: 0x02 :: b2 :: 0x00 :: rest) ∧
    (∀ (ρ : Type) (r : io.Reader ρ) (st : ρ),
      (readConnAck r st).1 = none ↔
        ∃ header, (r.ReadFull 4 st).1 = .ok header ∧ header.getD 0 0 = 0x20 ∧
          header.getD 1 0 = 0x02 ∧ header.getD 3 0 = 0x00) := by
  constructor
  · rcases b with _ | ⟨b0, _ | ⟨b1, _ | ⟨b2, _ | ⟨b3, rest⟩⟩⟩⟩
    · simp [readConnAck, bytes.NewReader]
    · simp [readConnAck, bytes.NewReader]
    · simp [readConnAck, bytes.NewReader]
    · simp [readConnAck, bytes.NewReader]
    · simp only [readConnAck, bytes.NewReader]
      by_cases h0 : b0 = 0x20
      · by_cases h1 : b1 = 0x02
        · by_cases h3 : b3 = 0
          · simp [h0, h1, h3]
          · simp [h0, h1, h3]
        · simp [h0, h1]
      · simp [h0]
  · intro ρ r st
    unfold readConnAck
    rcases hR : r.ReadFull 4 st with ⟨res, st1⟩
    cases res with
    | error err => simp
    | ok header =>
      simp only [Except.ok.injEq, exists_eq_left']
      generalize header.getD 0 0 = x0
      generalize header.getD 1 0 = x1
      generalize header.getD 3 0 = x3
      by_cases h0 : x0 = 0x20
      · by_cases h1 : x1 = 0x02
        · by_cases h3 : x3 = 0
          · simp [h0, h1, h3]
          · simp [h0, h1, h3]
        · simp [h0, h1]
      · simp [h0]

end Acks

namespace strings

theorem head?_dropWhile_ne (p : Char → Bool) (l : List Char) (c : Char) (hc : p c = true) :
    (l.dropWhile p).head? ≠ some c := by
  induction l with
  | nil => simp
  | cons a rest ih =>
    rw [List.dropWhile_cons]
    by_cases ha : p a = true
    · rw [if_pos ha]
      exact ih
    · rw [if_neg ha]
      intro h
      simp only [List.head?_cons, Option.some.injEq] at h
      rw [h] at ha
      exact ha hc

/-- What trimming both ends of `l` from the characters satisfying `p` leaves: the removed ends
hold such characters only, and what is left neither starts nor ends with one. -/
theorem trim_both (p : Char → Bool) (l : List Char) :
    ∃ a b : List Char,
      l = a ++ ((l.dropWhile p).reverse.dropWhile p).reverse ++ b ∧
      (∀ c ∈ a, p c = true) ∧ (∀ c ∈ b, p c = true) ∧
      (∀ c, p c = true →
        ((l.dropWhile p).reverse.dropWhile p).reverse.head? ≠ some c ∧
        ((l.dropWhile p).reverse.dropWhile p).reverse.getLast? ≠ some c) := by
  refine ⟨l.takeWhile p, ((l.dropWhile p).reverse.takeWhile p).reverse, ?_, ?_, ?_, ?_⟩
  · rw [List.append_assoc, ← List.reverse_append, List.takeWhile_append_dropWhile,
      List.reverse_reverse, List.takeWhile_append_dropWhile]
  · intro c hc
    exact (List.mem_takeWhile_imp hc)
  · intro c hc
    rw [List.mem_reverse] at hc
    exact (List.mem_takeWhile_imp hc)
  · intro c hc
    constructor
    · intro hHead
      have hSplit : l.dropWhile p =
          ((l.dropWhile p).reverse.dropWhile p).reverse ++
            ((l.dropWhile p).reverse.takeWhile p).reverse := by
        rw [← List.reverse_append, List.takeWhile_append_dropWhile, List.reverse_reverse]
      cases hm : ((l.dropWhile p).reverse.dropWhile p).reverse with
      | nil => rw [hm] at hHead; simp at hHead
      | cons x xs =>
        rw [hm] at hHead hSplit
        simp only [List.head?_cons, Option.some.injEq] at hHead
        apply head?_dropWhile_ne p l c hc
        rw [hSplit, ← hHead]
        rfl
    · rw [List.getLast?_reverse]
      exact head?_dropWhile_ne p _ c hc

end strings

section Topic

open domain mqtt

/-- C26: buildTopic(prefix, cmd) is `P/<TargetDeviceID>/<CommandType>`, where `P` is the prefix
with the surrounding white space removed and then the leading and trailing `/` removed (what
is removed at both ends of the trimmed prefix is made of `/` only, and `P` neither starts nor
ends with `/`), and where the device id and the type are what the command returns: for the
three variants its device id, which `TargetDeviceID()` returns without surrounding white space,
and `set_alarm`, `display_message` or `set_brightness`.  The prefix
`clocks/commands` and SetBrightness for `clock-9` give
`clocks/commands/clock-9/set_brightness`. -/
theorem C26_build_topic (pfx : String) (cmd : ClockCommand) :
    (∃ P : String, ∃ a b : List Char,
      buildTopic pfx cmd = P ++ "/" ++ cmd.TargetDeviceID ++ "/" ++ cmd.CommandType ∧
      P = strings.Trim (strings.TrimSpace pfx) "/" ∧
      (strings.TrimSpace pfx).data = a ++ P.data ++ b ∧
      (∀ c ∈ a, c = '/') ∧ (∀ c ∈ b, c = '/') ∧
      P.data.head? ≠ some '/' ∧ P.data.getLast? ≠ some '/') ∧
    (∀ c : SetAlarmCommand, cmd = .SetAlarm c →
      cmd.TargetDeviceID = strings.TrimSpace c.DeviceID ∧ cmd.CommandType = "set_alarm") ∧
    (∀ c : DisplayMessageCommand, cmd = .DisplayMessage c →
      cmd.TargetDeviceID = strings.TrimSpace c.DeviceID ∧ cmd.CommandType = "display_message") ∧
    (∀ c : SetBrightnessCommand, cmd = .SetBrightness c →
      cmd.TargetDeviceID = strings.TrimSpace c.DeviceID ∧ cmd.CommandType = "set_brightness") ∧
    buildTopic "clocks/commands" (.SetBrightness { DeviceID := "clock-9", Level := 50 }) =
      "clocks/commands/clock-9/set_brightness" := by
  refine ⟨?_, ?_, ?_, ?_, by decide⟩
  · obtain ⟨a, b, hSplit, ha, hb, hEnds⟩ :=
      strings.trim_both "/".data.contains (strings.TrimSpace pfx).data
    have hSlash : ∀ c : Char, "/".data.contains c = true ↔ c = '/' := by
      intro c
      simp
    refine ⟨strings.Trim (strings.TrimSpace pfx) "/", a, b, ?_, rfl, hSplit, ?_, ?_, ?_, ?_⟩
    · simp [buildTopic, fmt.Sprintf, fmt.Piece.render, String.join]
    · intro c hc
      exact (hSlash c).mp (ha c hc)
    · intro c hc
      exact (hSlash c).mp (hb c hc)
    · exact (hEnds '/' (by decide)).1
    · exact (hEnds '/' (by decide)).2
  · rintro c rfl
    exact ⟨rfl, rfl⟩
  · rintro c rfl
    exact ⟨rfl, rfl⟩
  · rintro c rfl
    exact ⟨rfl, rfl⟩

end Topic

section Connect

open mqtt

theorem encodeString_MQTT : encodeString "MQTT" = [0x00, 0x04, 0x4D, 0x51, 0x54, 0x54] := by
  decide

/-- C27: writeConnectPacket writes, in one Write, exactly the byte 0x10, then
encodeRemainingLength(10 + payload length), then 0x00 0x04 `M` `Q` `T` `T`, then the protocol
level 0x04, then the flags byte, then the keep-alive 0x00 0x3C, then the payload:
encodeString(ClientID), followed by encodeString(Username) if and only if the Username is not
empty, followed by encodeString(Password) if and only if the Password is not empty.  The flags
byte is 0x02 with bit 7 set if and only if the Username is not empty and bit 6 set if and only
if the Password is not empty.  The error of the Write, if any, comes back wrapped. -/
theorem C27_connect_packet_layout (cfg : Config) :
    ∃ (flags : Nat) (payload : List Nat),
      payload = encodeString cfg.ClientID ++
        (if cfg.Username ≠ "" then encodeString cfg.Username else []) ++
        (if cfg.Password ≠ "" then encodeString cfg.Password else []) ∧
      flags = 0x02 ||| (if cfg.Username ≠ "" then 0x80 else 0) |||
        (if cfg.Password ≠ "" then 0x40 else 0) ∧
      (flags / 128 % 2 = 1 ↔ cfg.Username ≠ "") ∧
      (flags / 64 % 2 = 1 ↔ cfg.Password ≠ "") ∧
      flags % 64 = 0x02 ∧ flags < 256 ∧
      writeConnectPacket bytes.Buffer cfg [] =
        (none, [0x10] ++ encodeRemainingLength ((10 + payload.length : Nat) : Int) ++
          [0x00, 0x04, 0x4D, 0x51, 0x54, 0x54] ++ [0x04] ++ [flags] ++ [0x00, 0x3C] ++ payload) ∧
      (∀ (ω : Type) (w : io.Writer ω) (st : ω),
        writeConnectPacket w cfg st =
          ((w.Write ([0x10] ++ encodeRemainingLength ((10 + payload.length : Nat) : Int) ++
              [0x00, 0x04, 0x4D, 0x51, 0x54, 0x54] ++ [0x04] ++ [flags] ++ [0x00, 0x3C] ++
              payload) st).1.map
            (fun err => fmt.Errorf [.lit "write connect packet: ", .w err]),
           (w.Write ([0x10] ++ encodeRemainingLength ((10 + payload.length : Nat) : Int) ++
              [0x00, 0x04, 0x4D, 0x51, 0x54, 0x54] ++ [0x04] ++ [flags] ++ [0x00, 0x3C] ++
              payload) st).2)) := by
  have hPacket : ∀ (flags : Nat) (payload : List Nat),
      payload = encodeString cfg.ClientID ++
        (if cfg.Username ≠ "" then encodeString cfg.Username else []) ++
        (if cfg.Password ≠ "" then encodeString cfg.Password else []) →
      flags = 0x02 ||| (if cfg.Username ≠ "" then 0x80 else 0) |||
        (if cfg.Password ≠ "" then 0x40 else 0) →
      connectPacket cfg =
        [0x10] ++ encodeRemainingLength ((10 + payload.length : Nat) : Int) ++
          [0x00, 0x04, 0x4D, 0x51, 0x54, 0x54] ++ [0x04] ++ [flags] ++ [0x00, 0x3C] ++ payload := by
    intro flags payload hP hF
    subst hP hF
    unfold connectPacket
    rw [encodeString_MQTT]
    by_cases hU : cfg.Username = "" <;> by_cases hPw : cfg.Password = "" <;>
      simp [hU, hPw, binary.PutUint16, defaultKeepAlive, Nat.add_comm]
  refine ⟨_, _, rfl, rfl, ?_, ?_, ?_, ?_, ?_, ?_⟩
  · by_cases hU : cfg.Username = "" <;> by_cases hPw : cfg.Password = "" <;> simp [hU, hPw]
  · by_cases hU : cfg.Username = "" <;> by_cases hPw : cfg.Password = "" <;> simp [hU, hPw]
  · by_cases hU : cfg.Username = "" <;> by_cases hPw : cfg.Password = "" <;> simp [hU, hPw]
  · by_cases hU : cfg.Username = "" <;> by_cases hPw : cfg.Password = "" <;> simp [hU, hPw]
  · unfold writeConnectPacket
    rw [hPacket _ _ rfl rfl]
    rfl
  · intro ω w st
    unfold writeConnectPacket
    rw [hPacket _ _ rfl rfl]
    rcases w.Write _ st with ⟨_ | err, st1⟩ <;> rfl

end Connect

/-! ## MQTT: the packet identifier -/

namespace mqtt

/-- The packet `buildPublishPacket` returns for a topic that is not blank and a qos of 0 or 1. -/
theorem buildPublishPacket_ok (topic : String) (payload : List Nat) (qos : Nat)
    (retained : Bool) (packetID : Nat) (hTopic : strings.TrimSpace topic ≠ "")
    (hQos : qos = 0 ∨ qos = 1) (hID : packetID < 65536) :
    buildPublishPacket topic payload qos retained packetID =
      .ok ([0x30 ||| (qos <<< 1) ||| (if retained then 1 else 0)] ++
        encodeRemainingLength
          ((2 + strings.len topic + (if qos > 0 then 2 else 0) + payload.length : Nat) : Int) ++
        encodeString topic ++
        (if qos > 0 then [packetID / 256, packetID % 256] else []) ++
        payload) := by
  have hT : (strings.TrimSpace topic == "") = false := by simpa using hTopic
  have hLen : (encodeString topic).length = 2 + strings.len topic := by
    rw [encodeString_eq]
    simp [strings.len]
    omega
  have hPid : packetID / 256 % 256 = packetID / 256 := by omega
  rcases hQos with rfl | rfl
  · cases retained <;> simp [buildPublishPacket, hT, hLen]
  · cases retained <;> simp [buildPublishPacket, hT, hLen, binary.PutUint16, hPid]

end mqtt

section PacketID

open mqtt

end PacketID

/-! ## MQTT: the retry loop of `Send` -/

namespace mqtt

theorem Sender.publishTurn_spec {σ : Type} (s : Sender) (nw : net.Network σ) (topic : String)
    (body : List Nat) (held : Bool) (connect : Option (Option GoError)) (st : σ) :
    (s.publishTurn nw topic body held connect st).record.ctxErr = none ∧
    (s.publishTurn nw topic body held connect st).record.held = held ∧
    (s.publishTurn nw topic body held connect st).record.connect = connect ∧
    (((s.publishTurn nw topic body held connect st).returned = some none ∧
        (s.publishTurn nw topic body held connect st).record.publish = some none) ∨
      (∃ e, (s.publishTurn nw topic body held connect st).returned = none ∧
        (s.publishTurn nw topic body held connect st).lastErr = some e ∧
        (s.publishTurn nw topic body held connect st).record.publish = some (some e))) := by
  unfold Sender.publishTurn
  cases h : (s.publish nw topic body st).err with
  | none => simp [h]
  | some e => simp [h]

/-- A turn that finds the context cancelled returns its error and does nothing else. -/
theorem Sender.turn_cancelled {σ : Type} (s : Sender) (nw : net.Network σ) (e : GoError)
    (topic : String) (body : List Nat) (st : σ) :
    s.turn nw (some e) topic body st =
      { returned := some (some e), lastErr := none, sender := s, world := st,
        record := { ctxErr := some e, held := s.conn.isSome, connect := none, publish := none,
                    written := [] } } := rfl

/-- A turn that finds the context alive: it connects exactly when no connection is held, and
either publishes and returns nil, or fails, assigns the failure to `lastErr` and goes on. -/
theorem Sender.turn_spec {σ : Type} (s : Sender) (nw : net.Network σ) (topic : String)
    (body : List Nat) (st : σ) :
    (s.turn nw none topic body st).record.ctxErr = none ∧
    (s.turn nw none topic body st).record.held = s.conn.isSome ∧
    ((s.turn nw none topic body st).record.connect.isSome = true ↔
      (s.turn nw none topic body st).record.held = false) ∧
    (((s.turn nw none topic body st).returned = some none ∧
        (s.turn nw none topic body st).record.publish = some none) ∨
      (∃ e, (s.turn nw none topic body st).returned = none ∧
        (s.turn nw none topic body st).lastErr = some e ∧
        (s.turn nw none topic body st).record.failure = some e ∧
        (s.turn nw none topic body st).record.publish ≠ some none)) := by
  unfold Sender.turn
  cases hConn : s.conn with
  | none =>
    simp only []
    cases hC : (s.connect nw st).err with
    | some e =>
      simp [hC, Attempt.failure]
    | none =>
      simp only [hC]
      obtain ⟨h1, h2, h3, h4⟩ :=
        Sender.publishTurn_spec (s.connect nw st).sender nw topic body false (some none)
          (s.connect nw st).world
      refine ⟨h1, by simpa using h2, by simp [h2, h3], ?_⟩
      rcases h4 with h4 | ⟨e, h5, h6, h7⟩
      · exact Or.inl h4
      · exact Or.inr ⟨e, h5, h6, by simp [Attempt.failure, h7], by simp [h7]⟩
  | some conn =>
    obtain ⟨h1, h2, h3, h4⟩ := Sender.publishTurn_spec s nw topic body true none st
    refine ⟨h1, by simpa using h2, by simp [h2, h3], ?_⟩
    rcases h4 with h4 | ⟨e, h5, h6, h7⟩
    · exact Or.inl h4
    · exact Or.inr ⟨e, h5, h6, by simp [Attempt.failure, h7], by simp [h7]⟩

end mqtt

namespace mqtt

theorem Sender.sendLoop_zero {σ : Type} (nw : net.Network σ) (ctx : Nat → Option GoError)
    (topic : String) (body : List Nat) (attempts i : Nat) (s : Sender) (st : σ)
    (lastErr : Option GoError) (log : List Attempt) :
    Sender.sendLoop nw ctx topic body attempts 0 i s st lastErr log =
      { err := some (exhausted attempts lastErr), sender := s, world := st, attempts := log } :=
  rfl

theorem Sender.sendLoop_succ {σ : Type} (nw : net.Network σ) (ctx : Nat → Option GoError)
    (topic : String) (body : List Nat) (attempts remaining i : Nat) (s : Sender) (st : σ)
    (lastErr : Option GoError) (log : List Attempt) :
    Sender.sendLoop nw ctx topic body attempts (remaining + 1) i s st lastErr log =
      match (s.turn nw (ctx i) topic body st).returned with
      | some r =>
        { err := r, sender := (s.turn nw (ctx i) topic body st).sender,
          world := (s.turn nw (ctx i) topic body st).world,
          attempts := log ++ [(s.turn nw (ctx i) topic body st).record] }
      | none =>
        Sender.sendLoop nw ctx topic body attempts remaining (i + 1)
          (s.turn nw (ctx i) topic body st).sender (s.turn nw (ctx i) topic body st).world
          (s.turn nw (ctx i) topic body st).lastErr
          (log ++ [(s.turn nw (ctx i) topic body st).record]) :=
  rfl

end mqtt

namespace mqtt

/-- `Send` of a supported command is the retry loop on the topic and the body of the command. -/
theorem Sender.Send_supported {σ : Type} (s : Sender) (nw : net.Network σ) (lib : Stdlib)
    (ctx : Nat → Option GoError) (cmd : domain.ClockCommand) (st : σ)
    (payload : String → Option Any) (body : List Nat)
    (hPayload : buildPayload lib cmd = .ok payload) (hBody : lib.marshal payload = .ok body) :
    s.Send nw lib ctx (some cmd) st =
      Sender.sendLoop nw ctx (buildTopic s.cfg.TopicPrefix cmd) body
        (if s.cfg.ConnectRetry then 3 else 1) (if s.cfg.ConnectRetry then 3 else 1) 0 s st none
        [] := by
  unfold Sender.Send
  simp only [hPayload, hBody]

end mqtt

namespace mqtt

end mqtt

section Retry

open domain mqtt

end Retry

/-! ## Authentication-failure limiter: what each call changes -/

section LimiterFrame

open api

/-- C33, as stated, fails on an entry whose window has elapsed: one failure of `k` recorded at
time 0 is stored, and IsBlocked(k) asked one minute later answers false and removes the entry,
so the map after the call is not the map before it. -/
theorem C33_counterexample :
    ((newAuthFailureLimiter 5).RecordFailure ⟨0⟩ "k").entries "k" =
      some { windowStart := ⟨0⟩, count := 1 } ∧
    (((newAuthFailureLimiter 5).RecordFailure ⟨0⟩ "k").IsBlocked ⟨60000000000⟩ "k").1 = false ∧
    (((newAuthFailureLimiter 5).RecordFailure ⟨0⟩ "k").IsBlocked ⟨60000000000⟩ "k").2.entries "k" =
      none := by
  refine ⟨by decide, by decide, by decide⟩

/-- C33, amended: IsBlocked adds no entry and modifies none.  For every limiter state with the
one-minute window, key and time, the limit, the window and the entries of all other keys are
unchanged; a key without entry stays without entry; an entry of the key whose window started
less than one minute ago is left as it is, and the result is exactly count >= limit; an entry
of the key whose window started at least one minute ago is removed, and the result is
false. -/
theorem C33_is_blocked_frame (l : authFailureLimiter) (now : time.Time) (key : String)
    (hw : l.window = time.Minute) :
    (l.IsBlocked now key).2.limit = l.limit ∧
    (l.IsBlocked now key).2.window = l.window ∧
    (∀ k, k ≠ key → (l.IsBlocked now key).2.entries k = l.entries k) ∧
    (l.entries key = none → l.IsBlocked now key = (false, l)) ∧
    (∀ e, l.entries key = some e → now.nsec - e.windowStart.nsec < time.Minute →
      l.IsBlocked now key = (decide (e.count ≥ l.limit), l)) ∧
    (∀ e, l.entries key = some e → now.nsec - e.windowStart.nsec ≥ time.Minute →
      (l.IsBlocked now key).1 = false ∧ (l.IsBlocked now key).2.entries key = none) := by
  refine ⟨?_, ?_, ?_, ?_, ?_, ?_⟩
  · unfold authFailureLimiter.IsBlocked
    split
    · rfl
    · split_ifs <;> rfl
  · unfold authFailureLimiter.IsBlocked
    split
    · rfl
    · split_ifs <;> rfl
  · intro k hk
    exact IsBlocked_entries_other l now key k hk
  · intro h
    exact IsBlocked_no_entry l now key h
  · intro e h hin
    exact IsBlocked_in_window l now key e h hw hin
  · intro e h hout
    have hSub : now.Sub e.windowStart ≥ time.Minute := (Sub_ge_Minute_iff _ _).2 hout
    refine ⟨IsBlocked_elapsed l now key e h hw hout, ?_⟩
    simp [authFailureLimiter.IsBlocked, h, hw, hSub]

/-- C33, amended, on a limiter of limit 2 holding two failures of one key: asked inside the
window the key is blocked and the limiter is unchanged. -/
theorem C33_is_blocked_frame_witness :
    (recordFailures (newAuthFailureLimiter 2) "k" [⟨0⟩, ⟨1⟩]).window = time.Minute ∧
    (recordFailures (newAuthFailureLimiter 2) "k" [⟨0⟩, ⟨1⟩]).IsBlocked ⟨2⟩ "k" =
      (true, recordFailures (newAuthFailureLimiter 2) "k" [⟨0⟩, ⟨1⟩]) :=
  ⟨rfl,
    (C33_is_blocked_frame (recordFailures (newAuthFailureLimiter 2) "k" [⟨0⟩, ⟨1⟩]) ⟨2⟩ "k"
      rfl).2.2.2.2.1 { windowStart := ⟨0⟩, count := 2 } (by decide) (by decide)⟩

/-- C34: for every limiter state with the one-minute window, key `k` and time `now`,
RecordFailure(k) sets the entry of `k` to window start `now` and count 1 when `k` has no entry
or its window started at least one minute ago, and otherwise adds exactly 1 to the count of
`k` and leaves its window start as it was; the entries of all other keys, the limit and the
window are unchanged. -/
theorem C34_record_failure_frame (l : authFailureLimiter) (now : time.Time) (key : String)
    (hw : l.window = time.Minute) :
    (l.entries key = none →
      (l.RecordFailure now key).entries key = some { windowStart := now, count := 1 }) ∧
    (∀ e, l.entries key = some e → now.nsec - e.windowStart.nsec ≥ time.Minute →
      (l.RecordFailure now key).entries key = some { windowStart := now, count := 1 }) ∧
    (∀ e, l.entries key = some e → now.nsec - e.windowStart.nsec < time.Minute →
      (l.RecordFailure now key).entries key =
        some { windowStart := e.windowStart, count := e.count + 1 }) ∧
    (∀ k, k ≠ key → (l.RecordFailure now key).entries k = l.entries k) ∧
    (l.RecordFailure now key).limit = l.limit ∧
    (l.RecordFailure now key).window = l.window := by
  refine ⟨?_, ?_, ?_, ?_, (RecordFailure_limit l now key).1, (RecordFailure_limit l now key).2⟩
  · intro h
    exact RecordFailure_fresh l now key h
  · intro e h hout
    have hSub : now.Sub e.windowStart ≥ time.Minute := (Sub_ge_Minute_iff _ _).2 hout
    simp [authFailureLimiter.RecordFailure, h, hw, hSub]
  · intro e h hin
    exact RecordFailure_in_window l now key e h hw hin
  · intro k hk
    exact RecordFailure_entries_other l now key k hk

/-- C34 on a key with one failure at time 0: a second failure 30 seconds later gives count 2
in the same window, a second failure 60 seconds later starts a new window. -/
theorem C34_record_failure_frame_witness :
    ((newAuthFailureLimiter 5).RecordFailure ⟨0⟩ "k").window = time.Minute ∧
    (((newAuthFailureLimiter 5).RecordFailure ⟨0⟩ "k").RecordFailure ⟨30000000000⟩ "k").entries
        "k" = some { windowStart := ⟨0⟩, count := 1 + 1 } ∧
    (((newAuthFailureLimiter 5).RecordFailure ⟨0⟩ "k").RecordFailure ⟨60000000000⟩ "k").entries
        "k" = some { windowStart := ⟨60000000000⟩, count := 1 } :=
  ⟨rfl,
    (C34_record_failure_frame ((newAuthFailureLimiter 5).RecordFailure ⟨0⟩ "k") ⟨30000000000⟩
      "k" rfl).2.2.1 { windowStart := ⟨0⟩, count := 1 } (by decide) (by decide),
    (C34_record_failure_frame ((newAuthFailureLimiter 5).RecordFailure ⟨0⟩ "k") ⟨60000000000⟩
      "k" rfl).2.1 { windowStart := ⟨0⟩, count := 1 } (by decide) (by decide)⟩

end LimiterFrame

/-! ## Dispatcher: every error has a category -/

section Categories

open domain application api

/-- C36: every non-nil error returned by Dispatch, for every command (the nil command included)
and every sender, satisfies errors.Is(err, ErrValidation) or errors.Is(err, ErrDownstream);
so writeAppError applied to it answers 400 or 502, never the 500 `internal error`. -/
theorem C36_dispatch_error_has_category (σ : Type) (d : CommandDispatcher σ)
    (rfc3339 : time.Time → String) (now : time.Time) (cmd : Option ClockCommand) (st : σ)
    (err : GoError) (hErr : (d.Dispatch rfc3339 now cmd st).err = some err) :
    (errors.Is (some err) ErrValidation = true ∨ errors.Is (some err) ErrDownstream = true) ∧
    (∀ w : ResponseWriter,
      (writeAppError w (some err) = writeJSON w 400 [("error", "invalid command")] ∨
        writeAppError w (some err) = writeJSON w 502 [("error", "command dispatch failed")]) ∧
      (writeAppError w (some err)).Code ≠ 500) := by
  have hCat : errors.Is (some err) ErrValidation = true ∨
      errors.Is (some err) ErrDownstream = true := by
    unfold CommandDispatcher.Dispatch at hErr
    cases cmd with
    | none =>
      simp only [Option.some.injEq] at hErr
      subst hErr
      left
      simp [errors.Is, errors.IsErr, fmt.Errorf, fmt.wrapped, GoError.beq, ErrValidation]
    | some c =>
      simp only at hErr
      cases hE : c.Execute rfc3339 now with
      | some e =>
        rw [hE] at hErr
        simp only at hErr
        by_cases hV : (errors.AsValidationError e).isSome = true
        · rw [if_pos hV] at hErr
          simp only [Option.some.injEq] at hErr
          subst hErr
          left
          simp [errors.Is, errors.IsErr, errors.IsAny, fmt.Errorf, fmt.wrapped, GoError.beq,
            ErrValidation]
        · rw [if_neg hV] at hErr
          simp only [Option.some.injEq] at hErr
          subst hErr
          right
          simp [errors.Is, errors.IsErr, errors.IsAny, fmt.Errorf, fmt.wrapped, GoError.beq,
            ErrDownstream]
      | none =>
        rw [hE] at hErr
        simp only at hErr
        rcases hS : d.sender.Send c st with ⟨_ | e, st1⟩
        · rw [hS] at hErr
          simp at hErr
        · rw [hS] at hErr
          simp only [Option.some.injEq] at hErr
          subst hErr
          right
          simp [errors.Is, errors.IsErr, errors.IsAny, fmt.Errorf, fmt.wrapped, GoError.beq,
            ErrDownstream]
  refine ⟨hCat, ?_⟩
  intro w
  by_cases hV : errors.Is (some err) ErrValidation = true
  · refine ⟨Or.inl (by simp [writeAppError, hV, http.StatusBadRequest]), ?_⟩
    simp [writeAppError, hV, http.StatusBadRequest, writeJSON]
  · have hD : errors.Is (some err) ErrDownstream = true := by
      rcases hCat with h | h
      · exact absurd h hV
      · exact h
    have hV2 : errors.Is (some err) ErrValidation = false := by simpa using hV
    refine ⟨Or.inr (by simp [writeAppError, hV2, hD, http.StatusBadGateway]), ?_⟩
    simp [writeAppError, hV2, hD, http.StatusBadGateway, writeJSON]

/-- C36 on the nil command: its error is in the validation category. -/
theorem C36_dispatch_error_has_category_witness :
    (errors.Is (some (fmt.Errorf [.w ErrValidation, .lit ": command is required"]))
        ErrValidation = true ∨
      errors.Is (some (fmt.Errorf [.w ErrValidation, .lit ": command is required"]))
        ErrDownstream = true) :=
  (C36_dispatch_error_has_category Nat (NewCommandDispatcher (fixtures.testSender none))
    (fun _ => "") ⟨0⟩ none 0 (fmt.Errorf [.w ErrValidation, .lit ": command is required"])
    rfl).1

end Categories

/-! ## Authentication-failure limiter: the stored counts stay within the limit -/

namespace api

open domain application

/-- The middleware on the path `/health`: the next handler runs on the request as it is. -/
theorem authMiddleware_health {σ : Type} (h : Handler σ) (next : HttpHandler σ)
    (tBlocked tRecord : time.Time) (w : ResponseWriter) (r : Request) (st : σ)
    (hPath : r.Path = "/health") :
    h.authMiddleware next tBlocked tRecord w r st =
      ((next (h.withRequestID w r) r st).1, h.counted r, (next (h.withRequestID w r) r st).2) := by
  obtain ⟨d, c, tp, rt, ra, mb, lim, rc, ch⟩ := h
  unfold Handler.authMiddleware
  simp only [hPath, Handler.withRequestID, Handler.counted]
  rfl

/-- The middleware on a request refused for want of TLS: 426, and nothing else happens. -/
theorem authMiddleware_tlsRefused {σ : Type} (h : Handler σ) (next : HttpHandler σ)
    (tBlocked tRecord : time.Time) (w : ResponseWriter) (r : Request) (st : σ)
    (hPath : r.Path ≠ "/health") (hTLS : h.requireTLS = true)
    (hS : h.isSecureRequest r = false) :
    h.authMiddleware next tBlocked tRecord w r st =
      (writeJSON (h.withRequestID w r) 426 [("error", "https required")], h.counted r, st) := by
  have hP : (r.Path == "/health") = false := by simpa using hPath
  obtain ⟨d, c, tp, rt, ra, mb, lim, rc, ch⟩ := h
  simp only at hTLS
  subst hTLS
  unfold Handler.isSecureRequest at hS
  simp only at hS
  unfold Handler.authMiddleware Handler.isSecureRequest
  simp only [hP, hS, Handler.counted, Handler.withRequestID, Bool.false_eq_true,
    if_false, Bool.not_false, Bool.and_self, if_true]
  rfl

/-- The limiter the middleware leaves: the one it found, the one the block check left, or the
latter with one failure recorded for the source after the block check answered false. -/
theorem authMiddleware_limiter {σ : Type} (h : Handler σ) (next : HttpHandler σ)
    (tBlocked tRecord : time.Time) (w : ResponseWriter) (r : Request) (st : σ) :
    (h.authMiddleware next tBlocked tRecord w r st).2.1.authFailureRateLimiter =
        h.authFailureRateLimiter ∨
    (h.authMiddleware next tBlocked tRecord w r st).2.1.authFailureRateLimiter =
        (h.authFailureRateLimiter.IsBlocked tBlocked (clientIP r)).2 ∨
    ((h.authFailureRateLimiter.IsBlocked tBlocked (clientIP r)).1 = false ∧
      (h.authMiddleware next tBlocked tRecord w r st).2.1.authFailureRateLimiter =
        (h.authFailureRateLimiter.IsBlocked tBlocked (clientIP r)).2.RecordFailure tRecord
          (clientIP r)) := by
  by_cases hPath : r.Path = "/health"
  · left
    rw [authMiddleware_health h next tBlocked tRecord w r st hPath]
    rfl
  by_cases hTLS : h.requireTLS = false ∨ h.isSecureRequest r = true
  swap
  · left
    have h1 : h.requireTLS = true := by
      cases hq : h.requireTLS with
      | false => exact absurd (Or.inl hq) hTLS
      | true => rfl
    have h2 : h.isSecureRequest r = false := by
      cases hq : h.isSecureRequest r with
      | false => rfl
      | true => exact absurd (Or.inr hq) hTLS
    rw [authMiddleware_tlsRefused h next tBlocked tRecord w r st hPath h1 h2]
    rfl
  by_cases hReady : r.Path = "/ready" ∧ h.readinessRequireAuth = false
  · left
    rw [authMiddleware_readyExempt h next tBlocked tRecord w r st hTLS hReady.1 hReady.2]
    rfl
  cases hB : (h.authFailureRateLimiter.IsBlocked tBlocked (clientIP r)).1 with
  | true =>
    right; left
    rw [authMiddleware_blocked h next tBlocked tRecord w r st hPath hTLS hReady hB]
    rfl
  | false =>
    rw [authMiddleware_reachesAuth h next tBlocked tRecord w r st ⟨hPath, hTLS, hReady, hB⟩]
    by_cases hPfx : strings.HasPrefix (r.Header "Authorization") "Bearer " = true
    · simp only [hPfx, Bool.not_true, Bool.false_eq_true, if_false]
      cases lookupCredential h.credentials (bearerToken r) with
      | none =>
        right; right
        exact ⟨trivial, rfl⟩
      | some pr =>
        right; left
        rfl
    · have hPfx2 : strings.HasPrefix (r.Header "Authorization") "Bearer " = false := by
        simpa using hPfx
      simp only [hPfx2, Bool.not_false, if_true]
      right; right
      exact ⟨trivial, rfl⟩

theorem IsBlocked_limit (l : authFailureLimiter) (now : time.Time) (key : String) :
    (l.IsBlocked now key).2.limit = l.limit := by
  unfold authFailureLimiter.IsBlocked
  split
  · rfl
  · split_ifs <;> rfl

/-- A block check that answers true leaves the limiter as it is. -/
theorem IsBlocked_true (l : authFailureLimiter) (now : time.Time) (key : String)
    (h : (l.IsBlocked now key).1 = true) : (l.IsBlocked now key).2 = l := by
  unfold authFailureLimiter.IsBlocked at h ⊢
  split at h
  · simp at h
  · rename_i e he
    split_ifs at h ⊢
    rfl

/-- The entries the block check leaves are entries it found. -/
theorem IsBlocked_entries_sub (l : authFailureLimiter) (now : time.Time) (key k : String)
    (e : authFailureEntry) (h : (l.IsBlocked now key).2.entries k = some e) :
    l.entries k = some e := by
  by_cases hk : k = key
  · subst hk
    rcases IsBlocked_entries_key l now k with h1 | h1
    · rw [← h1]; exact h
    · rw [h1] at h; simp at h
  · rw [IsBlocked_entries_other l now key k hk] at h
    exact h

theorem IsBlocked_bounded (l : authFailureLimiter) (now : time.Time) (key : String)
    (hb : l.bounded) : (l.IsBlocked now key).2.bounded := by
  intro k e he
  rw [IsBlocked_limit]
  exact hb k e (IsBlocked_entries_sub l now key k e he)

/-- A failure recorded after a block check that answered false keeps the counts within the
limit. -/
theorem RecordFailure_bounded (l : authFailureLimiter) (tBlocked tRecord : time.Time)
    (key : String) (hL : 1 ≤ l.limit) (hb : l.bounded)
    (hNB : (l.IsBlocked tBlocked key).1 = false) :
    ((l.IsBlocked tBlocked key).2.RecordFailure tRecord key).bounded := by
  intro k e he
  rw [(RecordFailure_limit _ tRecord key).1, IsBlocked_limit]
  by_cases hk : k = key
  · subst hk
    rcases RecordFailure_entries_key (l.IsBlocked tBlocked k).2 tRecord k with h1 | ⟨e0, h0, h1⟩
    · rw [h1] at he
      simp only [Option.some.injEq] at he
      rw [← he]
      exact ⟨le_refl _, hL⟩
    · rw [h1] at he
      simp only [Option.some.injEq] at he
      rw [← he]
      simp only []
      have hOld := IsBlocked_entries_sub l tBlocked k k e0 h0
      have hRange := hb k e0 hOld
      have hLt : e0.count < l.limit := by
        unfold authFailureLimiter.IsBlocked at hNB h0
        rw [hOld] at hNB h0
        simp only [] at hNB h0
        split_ifs at hNB h0 with hW
        · simp at h0
        · simpa using hNB
      omega
  · rw [RecordFailure_entries_other _ tRecord key k hk] at he
    exact hb k e (IsBlocked_entries_sub l tBlocked key k e he)

/-- One request served by the middleware keeps the limit and the bound on the counts. -/
theorem authMiddleware_bounded {σ : Type} (h : Handler σ) (next : HttpHandler σ)
    (tBlocked tRecord : time.Time) (w : ResponseWriter) (r : Request) (st : σ)
    (hL : 1 ≤ h.authFailureRateLimiter.limit) (hb : h.authFailureRateLimiter.bounded) :
    (h.authMiddleware next tBlocked tRecord w r st).2.1.authFailureRateLimiter.limit =
      h.authFailureRateLimiter.limit ∧
    (h.authMiddleware next tBlocked tRecord w r st).2.1.authFailureRateLimiter.bounded := by
  rcases authMiddleware_limiter h next tBlocked tRecord w r st with h1 | h1 | ⟨hNB, h1⟩
  · rw [h1]
    exact ⟨rfl, hb⟩
  · rw [h1]
    exact ⟨IsBlocked_limit _ _ _, IsBlocked_bounded _ _ _ hb⟩
  · rw [h1]
    exact ⟨by rw [(RecordFailure_limit _ _ _).1, IsBlocked_limit],
      RecordFailure_bounded _ _ _ _ hL hb hNB⟩

/-- Requests served one after another keep the limit and the bound on the counts. -/
theorem serveAll_bounded {σ : Type} (next : HttpHandler σ) (arrivals : List Arrival) :
    ∀ (h : Handler σ) (st : σ), 1 ≤ h.authFailureRateLimiter.limit →
      h.authFailureRateLimiter.bounded →
      (serveAll next arrivals h st).2.1.authFailureRateLimiter.limit =
        h.authFailureRateLimiter.limit ∧
      (serveAll next arrivals h st).2.1.authFailureRateLimiter.bounded := by
  induction arrivals with
  | nil =>
    intro h st _ hb
    exact ⟨rfl, hb⟩
  | cons a rest ih =>
    intro h st hL hb
    obtain ⟨h1, h2⟩ :=
      authMiddleware_bounded h next a.tBlocked a.tRecord NewRecorder a.request st hL hb
    rcases hM : h.authMiddleware next a.tBlocked a.tRecord NewRecorder a.request st with
      ⟨w1, h', st1⟩
    rw [hM] at h1 h2
    simp only at h1 h2
    obtain ⟨h3, h4⟩ := ih h' st1 (by rw [h1]; exact hL) h2
    unfold serveAll
    rw [hM]
    simp only []
    rcases hS : serveAll next rest h' st1 with ⟨codes, h2', st2⟩
    rw [hS] at h3 h4
    simp only at h3 h4 ⊢
    exact ⟨by rw [h3, h1], h4⟩

end api

section CountBound

open domain application api

/-- C38: a handler built by NewHandler has a limit L of at least 1 (a limit <= 0 is replaced by
60), and while it serves requests one after another the limit stays L and the failure count
stored for any key stays between 1 and L.  Once the in-window count of a source has reached
the limit, a request of that source that gets to the block check is answered 429 without
authentication, the next handler does not run, and the limiter is left exactly as it was: the
window is neither extended nor enlarged.  A request that authenticates records nothing: the
limiter it leaves is the one the block check left, whose entries are entries that were there
before, with the same count and the same window start. -/
theorem C38_failure_count_bounded (σ : Type) (dispatcher : CommandDispatcher σ)
    (credentials : List security.Credential)
    (trustProxyTLS requireTLS readinessRequireAuth : Bool)
    (maxBodyBytes authFailLimitPerMinute : Int)
    (checkers : List (Option (ReadinessChecker σ))) (next : HttpHandler σ)
    (arrivals : List Arrival) (st : σ) :
    (NewHandler dispatcher credentials trustProxyTLS requireTLS readinessRequireAuth
        maxBodyBytes authFailLimitPerMinute checkers).authFailureRateLimiter.limit =
      (if authFailLimitPerMinute ≤ 0 then 60 else authFailLimitPerMinute) ∧
    (1 : Int) ≤ (if authFailLimitPerMinute ≤ 0 then 60 else authFailLimitPerMinute) ∧
    (serveAll next arrivals
        (NewHandler dispatcher credentials trustProxyTLS requireTLS readinessRequireAuth
          maxBodyBytes authFailLimitPerMinute checkers) st).2.1.authFailureRateLimiter.limit =
      (if authFailLimitPerMinute ≤ 0 then 60 else authFailLimitPerMinute) ∧
    (∀ key e,
      (serveAll next arrivals
        (NewHandler dispatcher credentials trustProxyTLS requireTLS readinessRequireAuth
          maxBodyBytes authFailLimitPerMinute checkers) st).2.1.authFailureRateLimiter.entries
          key = some e →
      1 ≤ e.count ∧
      e.count ≤ (if authFailLimitPerMinute ≤ 0 then 60 else authFailLimitPerMinute)) ∧
    (∀ (h : Handler σ) (tBlocked tRecord : time.Time) (w : ResponseWriter) (r : Request)
      (st0 : σ) (e : authFailureEntry),
      r.Path ≠ "/health" → (h.requireTLS = false ∨ h.isSecureRequest r = true) →
      ¬ (r.Path = "/ready" ∧ h.readinessRequireAuth = false) →
      h.authFailureRateLimiter.window = time.Minute →
      h.authFailureRateLimiter.entries (clientIP r) = some e →
      tBlocked.nsec - e.windowStart.nsec < time.Minute →
      h.authFailureRateLimiter.limit ≤ e.count →
      (h.authMiddleware next tBlocked tRecord w r st0).1.Code = 429 ∧
      (h.authMiddleware next tBlocked tRecord w r st0).2.1.authFailureRateLimiter =
        h.authFailureRateLimiter ∧
      (h.authMiddleware next tBlocked tRecord w r st0).2.2 = st0) ∧
    (∀ (h : Handler σ) (tBlocked tRecord : time.Time) (w : ResponseWriter) (r : Request)
      (st0 : σ) (pr : principal),
      h.reachesAuth tBlocked r →
      strings.HasPrefix (r.Header "Authorization") "Bearer " = true →
      lookupCredential h.credentials (bearerToken r) = some pr →
      (h.authMiddleware next tBlocked tRecord w r st0).2.1.authFailureRateLimiter =
        (h.authFailureRateLimiter.IsBlocked tBlocked (clientIP r)).2 ∧
      (∀ k e,
        (h.authMiddleware next tBlocked tRecord w r st0).2.1.authFailureRateLimiter.entries k =
          some e →
        h.authFailureRateLimiter.entries k = some e)) := by
  have hL : (1 : Int) ≤ (if authFailLimitPerMinute ≤ 0 then 60 else authFailLimitPerMinute) := by
    split <;> omega
  have hLimit : (NewHandler dispatcher credentials trustProxyTLS requireTLS readinessRequireAuth
        maxBodyBytes authFailLimitPerMinute checkers).authFailureRateLimiter.limit =
      (if authFailLimitPerMinute ≤ 0 then 60 else authFailLimitPerMinute) := rfl
  have hB0 : (NewHandler dispatcher credentials trustProxyTLS requireTLS readinessRequireAuth
        maxBodyBytes authFailLimitPerMinute checkers).authFailureRateLimiter.bounded := by
    intro key e he
    simp [NewHandler, newAuthFailureLimiter] at he
  obtain ⟨h1, h2⟩ := serveAll_bounded next arrivals _ st (by rw [hLimit]; exact hL) hB0
  refine ⟨hLimit, hL, by rw [h1, hLimit], ?_, ?_, ?_⟩
  · intro key e he
    have := h2 key e he
    rw [h1, hLimit] at this
    exact this
  · intro h tBlocked tRecord w r st0 e hPath hTLS hReady hw hEntry hIn hCount
    have hBl : (h.authFailureRateLimiter.IsBlocked tBlocked (clientIP r)).1 = true := by
      rw [IsBlocked_in_window _ tBlocked _ e hEntry hw hIn]
      simpa using hCount
    rw [authMiddleware_blocked h next tBlocked tRecord w r st0 hPath hTLS hReady hBl]
    refine ⟨rfl, ?_, rfl⟩
    exact IsBlocked_true _ _ _ hBl
  · intro h tBlocked tRecord w r st0 pr hReach hPfx hCred
    have hEq : (h.authMiddleware next tBlocked tRecord w r st0).2.1.authFailureRateLimiter =
        (h.authFailureRateLimiter.IsBlocked tBlocked (clientIP r)).2 := by
      rw [authMiddleware_reachesAuth h next tBlocked tRecord w r st0 hReach]
      simp only [hPfx, Bool.not_true, Bool.false_eq_true, if_false, hCred]
      rfl
    refine ⟨hEq, ?_⟩
    intro k e he
    rw [hEq] at he
    exact IsBlocked_entries_sub _ _ _ _ _ he

end CountBound

/-! ## Authorization and delivery agree on the device -/

namespace strings

theorem dropWhile_eq_self_of_head (p : Char → Bool) (l : List Char)
    (h : ∀ c, p c = true → l.head? ≠ some c) : l.dropWhile p = l := by
  cases l with
  | nil => rfl
  | cons a rest =>
    rw [List.dropWhile_cons]
    by_cases ha : p a = true
    · exact absurd rfl (h a ha)
    · rw [if_neg ha]

/-- Trimming both ends of a list that neither starts nor ends with a character satisfying `p`
changes nothing. -/
theorem trim_of_clean (p : Char → Bool) (l : List Char)
    (hHead : ∀ c, p c = true → l.head? ≠ some c)
    (hLast : ∀ c, p c = true → l.getLast? ≠ some c) :
    ((l.dropWhile p).reverse.dropWhile p).reverse = l := by
  rw [dropWhile_eq_self_of_head p l hHead,
    dropWhile_eq_self_of_head p l.reverse (by
      intro c hc
      rw [List.head?_reverse]
      exact hLast c hc),
    List.reverse_reverse]

theorem trimChars_idem (l : List Char) : trimChars (trimChars l) = trimChars l := by
  obtain ⟨_, _, _, _, _, hEnds⟩ := trim_both unicode.IsSpace l
  exact trim_of_clean unicode.IsSpace _ (fun c hc => (hEnds c hc).1) (fun c hc => (hEnds c hc).2)

/-- `TrimSpace` is idempotent. -/
theorem TrimSpace_idem (s : String) : TrimSpace (TrimSpace s) = TrimSpace s := by
  unfold TrimSpace
  rw [trimChars_idem]

theorem dropWhile_append_left (p : Char → Bool) (a l : List Char) (ha : ∀ c ∈ a, p c = true) :
    (a ++ l).dropWhile p = l.dropWhile p := by
  induction a with
  | nil => rfl
  | cons x xs ih =>
    rw [List.cons_append, List.dropWhile_cons, if_pos (ha x (List.mem_cons_self _ _))]
    exact ih (fun c hc => ha c (List.mem_cons_of_mem _ hc))

theorem dropWhile_append_right (p : Char → Bool) (l b : List Char) (hb : ∀ c ∈ b, p c = true) :
    ((l ++ b).dropWhile p).reverse.dropWhile p = (l.dropWhile p).reverse.dropWhile p := by
  induction l with
  | nil =>
    have h1 : b.dropWhile p = [] := by
      rw [List.dropWhile_eq_nil_iff]
      exact hb
    simp [h1]
  | cons x xs ih =>
    rw [List.cons_append, List.dropWhile_cons, List.dropWhile_cons]
    by_cases hx : p x = true
    · rw [if_pos hx, if_pos hx]
      exact ih
    · rw [if_neg hx, if_neg hx, ← List.cons_append, List.reverse_append]
      exact dropWhile_append_left p b.reverse _ (fun c hc => hb c (List.mem_reverse.mp hc))

/-- White space added around a string is removed by `TrimSpace`. -/
theorem TrimSpace_padded (a b : List Char) (s : String)
    (ha : ∀ c ∈ a, unicode.IsSpace c = true) (hb : ∀ c ∈ b, unicode.IsSpace c = true) :
    TrimSpace (String.mk (a ++ s.data ++ b)) = TrimSpace s := by
  unfold TrimSpace trimChars
  simp only []
  rw [dropWhile_append_right unicode.IsSpace (a ++ s.data) b hb,
    dropWhile_append_left unicode.IsSpace a s.data ha]

end strings

section DeviceIdentity

open domain application api

/-- C40: authorization and delivery agree on the device.  For every credential and every
device id `d` of a payload, Allows(d) equals Allows of the TargetDeviceID of the command built
from `d`, for each of the three commands, because that target is `d` without surrounding white
space and Allows removes it as well.  Two device ids equal up to surrounding white space get
the same answer, so white space added around a device id neither gains nor loses access.  And
every command that one of the three handlers passes to the dispatcher targets a device that
the scopes of the principal of the request allow; that target is the device id the MQTT
payload and topic carry. -/
theorem C40_authorization_matches_target (c : security.Credential) (d : String) :
    (∀ (t : time.Time) (label : String),
      c.Allows d = c.Allows
        (ClockCommand.SetAlarm { DeviceID := d, AlarmTime := t, Label := label }).TargetDeviceID) ∧
    (∀ (m : String) (n : Int),
      c.Allows d = c.Allows
        (ClockCommand.DisplayMessage
          { DeviceID := d, Message := m, DurationSeconds := n }).TargetDeviceID) ∧
    (∀ (n : Int),
      c.Allows d = c.Allows
        (ClockCommand.SetBrightness { DeviceID := d, Level := n }).TargetDeviceID) ∧
    (∀ d2 : String, strings.TrimSpace d2 = strings.TrimSpace d → c.Allows d2 = c.Allows d) ∧
    (∀ a b : List Char, (∀ x ∈ a, unicode.IsSpace x = true) →
      (∀ x ∈ b, unicode.IsSpace x = true) →
      c.Allows (String.mk (a ++ d.data ++ b)) = c.Allows d) ∧
    (∀ (σ : Type) (h : Handler σ) (lib : api.Stdlib) (now : time.Time) (w : ResponseWriter)
      (r : Request) (st : σ) (cmd : ClockCommand),
      (cmd ∈ (h.handleSetAlarm lib now w r st).dispatched ∨
        cmd ∈ (h.handleDisplayMessage lib now w r st).dispatched ∨
        cmd ∈ (h.handleSetBrightness lib now w r st).dispatched) →
      ∃ pr, r.ctxPrincipal = some pr ∧
        security.Credential.Allows { ID := pr.ID, Token := "", Devices := pr.Devices }
          cmd.TargetDeviceID = true) ∧
    (∀ (lib : mqtt.Stdlib) (pfx : String) (cmd : ClockCommand)
      (payload : String → Option mqtt.Any),
      mqtt.buildPayload lib cmd = .ok payload →
      payload "deviceId" = some (.string cmd.TargetDeviceID) ∧
      mqtt.buildTopic pfx cmd =
        strings.Trim (strings.TrimSpace pfx) "/" ++ "/" ++ cmd.TargetDeviceID ++ "/" ++
          cmd.CommandType) := by
  have hTrim : ∀ (cr : security.Credential) (x : String),
      cr.Allows (strings.TrimSpace x) = cr.Allows x := by
    intro cr x
    unfold security.Credential.Allows
    rw [strings.TrimSpace_idem]
  have hAuth : ∀ (σ : Type) (h : Handler σ) (r : Request) (x : String),
      h.authorizeDevice r x = none →
      ∃ pr, r.ctxPrincipal = some pr ∧
        security.Credential.Allows { ID := pr.ID, Token := "", Devices := pr.Devices }
          (strings.TrimSpace x) = true := by
    intro σ h r x hx
    unfold Handler.authorizeDevice at hx
    cases hp : r.ctxPrincipal with
    | none => rw [hp] at hx; simp at hx
    | some pr =>
      rw [hp] at hx
      simp only at hx
      refine ⟨pr, rfl, ?_⟩
      rw [hTrim]
      by_contra hne
      have hf : security.Credential.Allows
          { ID := pr.ID, Token := "", Devices := pr.Devices } x = false := by simpa using hne
      rw [hf] at hx
      simp at hx
  refine ⟨?_, ?_, ?_, ?_, ?_, ?_, ?_⟩
  rotate_right
  · intro lib pfx cmd payload hp
    constructor
    · unfold mqtt.buildPayload at hp
      cases cmd <;> simp only [Except.ok.injEq] at hp
      all_goals first
        | (rw [← hp]; simp [Function.update])
        | simp at hp
    · simp [mqtt.buildTopic, fmt.Sprintf, fmt.Piece.render, String.join]
  · intro t label
    exact (hTrim c d).symm
  · intro m n
    exact (hTrim c d).symm
  · intro n
    exact (hTrim c d).symm
  · intro d2 h2
    rw [← hTrim c d2, h2, hTrim]
  · intro a b ha hb
    rw [← hTrim c (String.mk (a ++ d.data ++ b)), strings.TrimSpace_padded a b d ha hb, hTrim]
  · intro σ h lib now w r st cmd hcmd
    rcases hcmd with hcmd | hcmd | hcmd
    · unfold Handler.handleSetAlarm at hcmd
      split at hcmd
      · simp at hcmd
      · split at hcmd
        · simp at hcmd
        · rename_i payload _
          split at hcmd
          · simp at hcmd
          · rename_i hA
            split at hcmd
            · simp at hcmd
            · simp only [Handler.dispatchAndReply] at hcmd
              split at hcmd <;>
              · simp only [List.mem_singleton] at hcmd
                subst hcmd
                exact hAuth σ h r payload.DeviceID hA
    · unfold Handler.handleDisplayMessage at hcmd
      split at hcmd
      · simp at hcmd
      · split at hcmd
        · simp at hcmd
        · rename_i payload _
          split at hcmd
          · simp at hcmd
          · rename_i hA
            simp only [Handler.dispatchAndReply] at hcmd
            split at hcmd <;>
            · simp only [List.mem_singleton] at hcmd
              subst hcmd
              exact hAuth σ h r payload.DeviceID hA
    · unfold Handler.handleSetBrightness at hcmd
      split at hcmd
      · simp at hcmd
      · split at hcmd
        · simp at hcmd
        · rename_i payload _
          split at hcmd
          · simp at hcmd
          · rename_i hA
            simp only [Handler.dispatchAndReply] at hcmd
            split at hcmd <;>
            · simp only [List.mem_singleton] at hcmd
              subst hcmd
              exact hAuth σ h r payload.DeviceID hA

end DeviceIdentity

/-! ## MQTT: the connection after a failure -/

namespace mqtt

theorem Sender.closeLocked_conn {σ : Type} (s : Sender) (nw : net.Network σ) (st : σ) :
    (s.closeLocked nw st).1.conn = none := by
  unfold Sender.closeLocked
  cases h : s.conn with
  | none => simp [h]
  | some conn => simp

theorem Sender.closeLocked_of_none {σ : Type} (s : Sender) (nw : net.Network σ) (st : σ)
    (h : s.conn = none) : s.closeLocked nw st = (s, st) := by
  unfold Sender.closeLocked
  rw [h]

/-- A connect that fails leaves the sender as it was. -/
theorem Sender.connect_failed {σ : Type} (s : Sender) (nw : net.Network σ) (st : σ)
    (e : GoError) (h : (s.connect nw st).err = some e) : (s.connect nw st).sender = s := by
  revert h
  unfold Sender.connect
  simp only []
  split
  · intro _; rfl
  · split
    · intro _; rfl
    · split
      · intro _; rfl
      · split
        · intro _; rfl
        · split
          · intro _; rfl
          · intro h; simp at h

/-- A turn that ends with `continue` leaves the sender without connection. -/
theorem Sender.turn_failed_conn {σ : Type} (s : Sender) (nw : net.Network σ) (topic : String)
    (body : List Nat) (st : σ) (h : (s.turn nw none topic body st).returned = none) :
    (s.turn nw none topic body st).sender.conn = none := by
  have hPT : ∀ (s1 : Sender) (held : Bool) (c : Option (Option GoError)) (st1 : σ),
      (s1.publishTurn nw topic body held c st1).returned = none →
      (s1.publishTurn nw topic body held c st1).sender.conn = none := by
    intro s1 held c st1 h1
    unfold Sender.publishTurn at h1 ⊢
    cases hp : (s1.publish nw topic body st1).err with
    | none => simp [hp] at h1
    | some e =>
      simp only [hp]
      exact Sender.closeLocked_conn _ _ _
  unfold Sender.turn at h ⊢
  cases hConn : s.conn with
  | none =>
    simp only [hConn] at h ⊢
    cases hC : (s.connect nw st).err with
    | some e =>
      simp only [hC]
      rw [Sender.connect_failed s nw st e hC]
      exact hConn
    | none =>
      simp only [hC] at h ⊢
      exact hPT _ _ _ _ h
  | some conn =>
    simp only [hConn] at h ⊢
    exact hPT _ _ _ _ h

/-- When the loop reads a context that is alive at every turn and returns an error, the sender
it leaves holds no connection. -/
theorem Sender.sendLoop_conn {σ : Type} (nw : net.Network σ) (ctx : Nat → Option GoError)
    (topic : String) (body : List Nat) (attempts : Nat) (hCtx : ∀ i, ctx i = none) :
    ∀ (remaining i : Nat) (s : Sender) (st : σ) (lastErr : Option GoError) (log : List Attempt),
      (remaining = 0 → s.conn = none) →
      (Sender.sendLoop nw ctx topic body attempts remaining i s st lastErr log).err ≠ none →
      (Sender.sendLoop nw ctx topic body attempts remaining i s st lastErr log).sender.conn =
        none := by
  intro remaining
  induction remaining with
  | zero =>
    intro i s st lastErr log h0 _
    rw [Sender.sendLoop_zero]
    exact h0 rfl
  | succ n ih =>
    intro i s st lastErr log _ hErr
    rw [Sender.sendLoop_succ] at hErr ⊢
    rw [hCtx i] at hErr ⊢
    obtain ⟨_, _, _, h4⟩ := Sender.turn_spec s nw topic body st
    rcases h4 with ⟨hRet, _⟩ | ⟨e, hRet, _⟩
    · rw [hRet] at hErr
      simp at hErr
    · rw [hRet] at hErr ⊢
      simp only [] at hErr ⊢
      exact ih _ _ _ _ _ (fun _ => Sender.turn_failed_conn s nw topic body st hRet) hErr

/-- Every turn of the loop after its first one starts without connection. -/
theorem Sender.sendLoop_held {σ : Type} (nw : net.Network σ) (ctx : Nat → Option GoError)
    (topic : String) (body : List Nat) (attempts : Nat) :
    ∀ (remaining i : Nat) (s : Sender) (st : σ) (lastErr : Option GoError) (log : List Attempt),
    ∃ new : List Attempt,
      (Sender.sendLoop nw ctx topic body attempts remaining i s st lastErr log).attempts =
        log ++ new ∧
      (∀ a, new.head? = some a → a.held = s.conn.isSome) ∧
      (∀ (k : Nat) (a : Attempt), new[k + 1]? = some a → a.held = false) := by
  intro remaining
  induction remaining with
  | zero =>
    intro i s st lastErr log
    exact ⟨[], by simp [Sender.sendLoop_zero], by simp, by simp⟩
  | succ n ih =>
    intro i s st lastErr log
    rw [Sender.sendLoop_succ]
    cases hc : ctx i with
    | some e =>
      rw [Sender.turn_cancelled]
      exact ⟨[_], rfl, by simp, by simp⟩
    | none =>
      obtain ⟨_, h2, _, h4⟩ := Sender.turn_spec s nw topic body st
      rcases h4 with ⟨hRet, _⟩ | ⟨e, hRet, _⟩
      · rw [hRet]
        refine ⟨[(s.turn nw none topic body st).record], rfl, ?_, by simp⟩
        intro a ha
        simp only [List.head?_cons, Option.some.injEq] at ha
        rw [← ha, h2]
      · rw [hRet]
        simp only []
        obtain ⟨new, hA, hHead, hRest⟩ :=
          ih (i + 1) (s.turn nw none topic body st).sender (s.turn nw none topic body st).world
            (s.turn nw none topic body st).lastErr (log ++ [(s.turn nw none topic body st).record])
        refine ⟨(s.turn nw none topic body st).record :: new, ?_, ?_, ?_⟩
        · rw [hA]
          simp
        · intro a ha
          simp only [List.head?_cons, Option.some.injEq] at ha
          rw [← ha, h2]
        · intro k a hk
          simp only [List.getElem?_cons_succ] at hk
          cases k with
          | zero =>
            have hh : new.head? = some a := by
              rw [List.head?_eq_getElem?]
              exact hk
            rw [hHead a hh, Sender.turn_failed_conn s nw topic body st hRet]
            rfl
          | succ k => exact hRest k a hk

end mqtt

section ConnectionState

open domain mqtt

/-- C35: for a supported command.  Every attempt of Send after the first one starts without
connection, the attempt before it having failed and left none.  With a context that is never
cancelled, whenever Send returns an error (the attempts-exhausted error) the sender holds no
connection afterwards and Check reports `mqtt not connected`.  Check returns an error if and
only if no connection is held; it reads the sender and returns nothing but the error.  Close
leaves the sender with no connection, a Close of a sender without connection changes nothing,
and so does any number of calls of Close. -/
theorem C35_no_connection_after_failure (σ : Type) (nw : net.Network σ) (s : Sender)
    (lib : mqtt.Stdlib) (ctx : Nat → Option GoError) (cmd : ClockCommand) (st : σ)
    (payload : String → Option Any) (body : List Nat)
    (hPayload : buildPayload lib cmd = .ok payload) (hBody : lib.marshal payload = .ok body) :
    (∀ (k : Nat) (a : Attempt),
      (s.Send nw lib ctx (some cmd) st).attempts[k + 1]? = some a → a.held = false) ∧
    ((∀ i, ctx i = none) → (s.Send nw lib ctx (some cmd) st).err ≠ none →
      (s.Send nw lib ctx (some cmd) st).sender.conn = none ∧
      (s.Send nw lib ctx (some cmd) st).sender.Check =
        some (.errorString "mqtt not connected")) ∧
    (∀ s0 : Sender,
      (s0.Check.isSome = true ↔ s0.conn = none) ∧
      (s0.conn = none → s0.Check = some (.errorString "mqtt not connected"))) ∧
    (∀ (s0 : Sender) (st0 : σ),
      (s0.Close nw st0).1.conn = none ∧
      (s0.Close nw st0).1.Close nw (s0.Close nw st0).2 = s0.Close nw st0 ∧
      (∀ n : Nat, 1 ≤ n →
        ((fun p : Sender × σ => p.1.Close nw p.2)^[n] (s0, st0)).1.conn = none)) := by
  refine ⟨?_, ?_, ?_, ?_⟩
  · rw [Sender.Send_supported s nw lib ctx cmd st payload body hPayload hBody]
    obtain ⟨new, hA, _, hRest⟩ :=
      Sender.sendLoop_held nw ctx (buildTopic s.cfg.TopicPrefix cmd) body
        (if s.cfg.ConnectRetry then 3 else 1) (if s.cfg.ConnectRetry then 3 else 1) 0 s st none []
    rw [hA, List.nil_append]
    exact hRest
  · intro hCtx hErr
    rw [Sender.Send_supported s nw lib ctx cmd st payload body hPayload hBody] at hErr ⊢
    have hConn := Sender.sendLoop_conn nw ctx (buildTopic s.cfg.TopicPrefix cmd) body
      (if s.cfg.ConnectRetry then 3 else 1) hCtx (if s.cfg.ConnectRetry then 3 else 1) 0 s st
      none [] (by split <;> simp) hErr
    refine ⟨hConn, ?_⟩
    unfold Sender.Check
    rw [hConn]
    rfl
  · intro s0
    unfold Sender.Check
    cases h : s0.conn with
    | none => simp [errors.New]
    | some conn => simp
  · intro s0 st0
    have h1 : (s0.Close nw st0).1.conn = none := Sender.closeLocked_conn s0 nw st0
    have h2 : (s0.Close nw st0).1.Close nw (s0.Close nw st0).2 = s0.Close nw st0 :=
      Sender.closeLocked_of_none _ nw _ h1
    refine ⟨h1, h2, ?_⟩
    intro n hn
    induction n with
    | zero => omega
    | succ m ih =>
      rw [Function.iterate_succ_apply']
      exact Sender.closeLocked_conn _ nw _

/-- C35 on a sender with retry on and a connection held, on a network whose deadlines cannot
be set: the publish fails, the connection is dropped, the two reconnections fail, and the
sender ends without connection. -/
theorem C35_no_connection_after_failure_witness :
    (fixtures.mqttSender 0 true (some ⟨1⟩) 0).conn = some ⟨1⟩ ∧
    ((fixtures.mqttSender 0 true (some ⟨1⟩) 0).Send
      (fixtures.wire none (some (errors.New "use of closed network connection")))
      fixtures.mqttLib (fun _ => none) (some (fixtures.brightness 20))
      { sent := [], pending := [] }).sender.conn = none :=
  ⟨rfl,
    ((C35_no_connection_after_failure fixtures.Wire
      (fixtures.wire none (some (errors.New "use of closed network connection")))
      (fixtures.mqttSender 0 true (some ⟨1⟩) 0) fixtures.mqttLib (fun _ => none)
      (fixtures.brightness 20) { sent := [], pending := [] } _ _ rfl rfl).2.1
        (fun _ => rfl) (fun h => Option.noConfusion h)).1⟩

end ConnectionState

/-! ## MQTT: the publish packet is always built -/

namespace mqtt

open domain

/-- The topic of a command is never blank: it holds a `/`. -/
theorem buildTopic_not_blank (pfx : String) (cmd : ClockCommand) :
    strings.TrimSpace (buildTopic pfx cmd) ≠ "" := by
  intro h
  rw [strings.TrimSpace_eq_empty_iff] at h
  have hMem : '/' ∈ (buildTopic pfx cmd).data := by
    simp [buildTopic, fmt.Sprintf, fmt.Piece.render, String.join]
  have := h '/' hMem
  revert this
  decide

theorem buildPublishPacket_isOk (topic : String) (payload : List Nat) (qos : Nat)
    (retained : Bool) (packetID : Nat) (hTopic : strings.TrimSpace topic ≠ "")
    (hQos : qos ≤ 1) :
    ∃ packet, buildPublishPacket topic payload qos retained packetID = .ok packet := by
  have hT : (strings.TrimSpace topic == "") = false := by simpa using hTopic
  have hQ : ¬ qos > 1 := by omega
  simp [buildPublishPacket, hT, hQ]

/-- An acknowledgement that fails does so in one of three ways. -/
theorem readPubAck_failure {ρ : Type} (r : io.Reader ρ) (p : Nat) (st : ρ) (e : GoError)
    (h : (readPubAck r p st).1 = some e) : publishIOFailure e := by
  unfold readPubAck at h
  rcases hR : r.ReadFull 4 st with ⟨res, st1⟩
  rw [hR] at h
  cases res with
  | error err =>
    simp only [Option.some.injEq] at h
    exact Or.inr (Or.inr (Or.inl ⟨err, h.symm⟩))
  | ok header =>
    simp only [] at h
    split_ifs at h
    · simp only [Option.some.injEq] at h
      exact Or.inr (Or.inr (Or.inr (Or.inl ⟨_, h.symm⟩)))
    · simp only [Option.some.injEq] at h
      exact Or.inr (Or.inr (Or.inr (Or.inr ⟨_, _, h.symm⟩)))

/-- A publish on a held connection, with a qos of 0 or 1 and a topic that is not blank, fails
only through the connection. -/
theorem Sender.publish_failure {σ : Type} (s : Sender) (nw : net.Network σ) (topic : String)
    (payload : List Nat) (st : σ) (conn : net.Conn) (e : GoError)
    (hConn : s.conn = some conn) (hQos : s.cfg.QoS ≤ 1)
    (hTopic : strings.TrimSpace topic ≠ "")
    (h : (s.publish nw topic payload st).err = some e) : publishIOFailure e := by
  have hOk : ∀ (pid : Nat) (err : GoError),
      buildPublishPacket topic payload s.cfg.QoS s.cfg.Retained pid ≠ .error err := by
    intro pid err hE
    obtain ⟨packet, hP⟩ :=
      buildPublishPacket_isOk topic payload s.cfg.QoS s.cfg.Retained pid hTopic hQos
    rw [hP] at hE
    simp at hE
  unfold Sender.publish at h
  rw [hConn] at h
  simp only [] at h
  split at h
  · rename_i dErr st1 _
    simp only [Option.some.injEq] at h
    exact Or.inl ⟨dErr, h.symm⟩
  · split at h
    · rename_i err hE
      exact absurd hE (hOk _ _)
    · split at h
      · rename_i wErr st2 _
        simp only [Option.some.injEq] at h
        exact Or.inr (Or.inl ⟨wErr, h.symm⟩)
      · split at h
        · split at h
          · rename_i aErr st3 hA
            simp only [Option.some.injEq] at h
            rw [← h]
            exact readPubAck_failure (nw.reader conn) _ _ aErr (by rw [hA])
          · simp at h
        · simp at h

theorem Sender.connect_cfg {σ : Type} (s : Sender) (nw : net.Network σ) (st : σ) :
    (s.connect nw st).sender.cfg = s.cfg ∧
    ((s.connect nw st).err = none → (s.connect nw st).sender.conn.isSome = true) := by
  unfold Sender.connect
  simp only []
  split
  · exact ⟨rfl, fun h => by simp at h⟩
  · split
    · exact ⟨rfl, fun h => by simp at h⟩
    · split
      · exact ⟨rfl, fun h => by simp at h⟩
      · split
        · exact ⟨rfl, fun h => by simp at h⟩
        · split
          · exact ⟨rfl, fun h => by simp at h⟩
          · exact ⟨rfl, fun _ => rfl⟩

theorem Sender.publish_cfg {σ : Type} (s : Sender) (nw : net.Network σ) (topic : String)
    (payload : List Nat) (st : σ) : (s.publish nw topic payload st).sender.cfg = s.cfg := by
  unfold Sender.publish
  split
  · rfl
  · split
    · rfl
    · simp only []
      split
      · rfl
      · split
        · rfl
        · split
          · split <;> rfl
          · rfl

theorem Sender.closeLocked_cfg {σ : Type} (s : Sender) (nw : net.Network σ) (st : σ) :
    (s.closeLocked nw st).1.cfg = s.cfg := by
  unfold Sender.closeLocked
  split <;> rfl

theorem Sender.publishTurn_cfg {σ : Type} (s : Sender) (nw : net.Network σ) (topic : String)
    (body : List Nat) (held : Bool) (connect : Option (Option GoError)) (st : σ) :
    (s.publishTurn nw topic body held connect st).sender.cfg = s.cfg ∧
    (∀ e, (s.publishTurn nw topic body held connect st).record.publish = some (some e) →
      (s.publish nw topic body st).err = some e) := by
  unfold Sender.publishTurn
  cases hp : (s.publish nw topic body st).err with
  | none =>
    simp only [hp]
    exact ⟨Sender.publish_cfg s nw topic body st, fun e h => by simp at h⟩
  | some err =>
    simp only [hp]
    refine ⟨?_, fun e h => by simpa using h⟩
    rw [Sender.closeLocked_cfg, Sender.publish_cfg]

/-- A turn keeps the configuration, and a publish that fails in it fails through the
connection. -/
theorem Sender.turn_publish_failure {σ : Type} (s : Sender) (nw : net.Network σ)
    (ctxErr : Option GoError) (topic : String) (body : List Nat) (st : σ)
    (hQos : s.cfg.QoS ≤ 1) (hTopic : strings.TrimSpace topic ≠ "") :
    (s.turn nw ctxErr topic body st).sender.cfg = s.cfg ∧
    (∀ e, (s.turn nw ctxErr topic body st).record.publish = some (some e) →
      publishIOFailure e) := by
  unfold Sender.turn
  cases ctxErr with
  | some err => exact ⟨rfl, fun e h => by simp at h⟩
  | none =>
    simp only []
    cases hConn : s.conn with
    | none =>
      simp only []
      obtain ⟨hCfg, hHeld⟩ := Sender.connect_cfg s nw st
      cases hC : (s.connect nw st).err with
      | some err =>
        simp only [hC]
        exact ⟨hCfg, fun e h => by simp at h⟩
      | none =>
        simp only [hC]
        obtain ⟨h1, h2⟩ := Sender.publishTurn_cfg (s.connect nw st).sender nw topic body false
          (some none) (s.connect nw st).world
        refine ⟨by rw [h1, hCfg], ?_⟩
        intro e he
        have hSome := hHeld hC
        cases hc2 : (s.connect nw st).sender.conn with
        | none => rw [hc2] at hSome; simp at hSome
        | some conn =>
          exact Sender.publish_failure _ nw topic body _ conn e hc2 (by rw [hCfg]; exact hQos)
            hTopic (h2 e he)
    | some conn =>
      simp only []
      obtain ⟨h1, h2⟩ := Sender.publishTurn_cfg s nw topic body true none st
      exact ⟨h1, fun e he => Sender.publish_failure s nw topic body st conn e hConn hQos hTopic
        (h2 e he)⟩

/-- In the retry loop every publish that fails does so through the connection. -/
theorem Sender.sendLoop_publish_failure {σ : Type} (nw : net.Network σ)
    (ctx : Nat → Option GoError) (topic : String) (body : List Nat) (attempts : Nat)
    (hTopic : strings.TrimSpace topic ≠ "") :
    ∀ (remaining i : Nat) (s : Sender) (st : σ) (lastErr : Option GoError) (log : List Attempt),
      s.cfg.QoS ≤ 1 →
      (∀ a ∈ log, ∀ e, a.publish = some (some e) → publishIOFailure e) →
      ∀ a ∈ (Sender.sendLoop nw ctx topic body attempts remaining i s st lastErr log).attempts,
        ∀ e, a.publish = some (some e) → publishIOFailure e := by
  intro remaining
  induction remaining with
  | zero =>
    intro i s st lastErr log _ hLog
    rw [Sender.sendLoop_zero]
    exact hLog
  | succ n ih =>
    intro i s st lastErr log hQos hLog
    rw [Sender.sendLoop_succ]
    obtain ⟨hCfg, hRec⟩ := Sender.turn_publish_failure s nw (ctx i) topic body st hQos hTopic
    have hLog2 : ∀ a ∈ log ++ [(s.turn nw (ctx i) topic body st).record],
        ∀ e, a.publish = some (some e) → publishIOFailure e := by
      intro a ha e he
      rcases List.mem_append.mp ha with ha | ha
      · exact hLog a ha e he
      · simp only [List.mem_singleton] at ha
        subst ha
        exact hRec e he
    cases hRet : (s.turn nw (ctx i) topic body st).returned with
    | some r => exact hLog2
    | none => exact ih _ _ _ _ _ (by rw [hCfg]; exact hQos) hLog2

/-- The part of `NewSender` that follows the defaults, on the configuration `cfg2` they give:
a sender comes out only for a qos of 0 or 1, with that configuration and a connection. -/
theorem NewSender_tail {σ : Type} (lib : URLLib) (nw : net.Network σ) (cfg2 : Config) (st : σ)
    (s : Sender)
    (h : (if cfg2.QoS > 1 then
        ((.error (fmt.Errorf [.lit "unsupported qos ", .d cfg2.QoS,
          .lit ": only 0 and 1 are supported"]), st) : Except GoError Sender × σ)
      else if cfg2.TLSInsecureSkipVerify && !cfg2.AllowInsecureTLS then
        (.error (errors.New
          "MQTT_TLS_INSECURE_SKIP_VERIFY requires ALLOW_INSECURE_TLS_VERIFY=true"), st)
      else
        match parseBrokerURL lib cfg2.BrokerURL cfg2.AllowInsecureTransport with
        | .error err => (.error err, st)
        | .ok (host, port, tlsEnabled) =>
          let s : Sender :=
            { cfg := cfg2, brokerHost := host, brokerPort := port, tlsEnabled := tlsEnabled,
              conn := none, packetID := 0, connTimeout := defaultConnectTimeout,
              pubTimeout := defaultPublishTimeout }
          let c := s.connect nw st
          match c.err with
          | some err => (.error err, c.world)
          | none => (.ok c.sender, c.world)).1 = .ok s) :
    s.cfg = cfg2 ∧ cfg2.QoS ≤ 1 ∧ s.conn.isSome = true := by
  by_cases hQ : cfg2.QoS > 1
  · rw [if_pos hQ] at h
    simp at h
  rw [if_neg hQ] at h
  by_cases hT : (cfg2.TLSInsecureSkipVerify && !cfg2.AllowInsecureTLS) = true
  · rw [if_pos hT] at h
    simp at h
  rw [if_neg hT] at h
  cases hP : parseBrokerURL lib cfg2.BrokerURL cfg2.AllowInsecureTransport with
  | error err =>
    rw [hP] at h
    simp at h
  | ok res =>
    obtain ⟨host, port, tlsEnabled⟩ := res
    rw [hP] at h
    simp only [] at h
    obtain ⟨hCfg, hHeld⟩ := Sender.connect_cfg
      ({ cfg := cfg2, brokerHost := host, brokerPort := port, tlsEnabled := tlsEnabled,
         conn := none, packetID := 0, connTimeout := defaultConnectTimeout,
         pubTimeout := defaultPublishTimeout } : Sender) nw st
    split at h
    · simp at h
    · rename_i hC
      simp only [Except.ok.injEq] at h
      rw [← h]
      exact ⟨hCfg, by omega, hHeld hC⟩

/-- A sender produced by `NewSender` has a qos of 0 or 1, the one of the configuration given,
and holds a connection. -/
theorem NewSender_ok {σ : Type} (lib : URLLib) (nw : net.Network σ) (unixNano : Int)
    (cfg : Config) (st : σ) (s : Sender) (h : (NewSender lib nw unixNano cfg st).1 = .ok s) :
    s.cfg.QoS ≤ 1 ∧ s.conn.isSome = true ∧ s.cfg.QoS = cfg.QoS := by
  unfold NewSender at h
  by_cases hB : (strings.TrimSpace cfg.BrokerURL == "") = true
  · rw [if_pos hB] at h
    simp at h
  rw [if_neg hB] at h
  obtain ⟨hs, hq, hc⟩ := NewSender_tail lib nw _ st s h
  refine ⟨by rw [hs]; exact hq, hc, ?_⟩
  rw [hs]
  split_ifs <;> rfl

end mqtt

section PacketAlwaysBuilt

open domain mqtt

/-- C39: inside Send, building the publish packet never fails.  A sender produced by NewSender,
in whatever state it is later (its configuration never changes), has a qos of 0 or 1, and the
topic of every command is not blank; so for every command, payload and packet id
buildPublishPacket returns a packet, and every publish that fails during a Send fails through
the connection: the deadline cannot be set, the write fails, or the acknowledgement cannot be
read, has another header, or has another packet id. -/
theorem C39_publish_packet_always_built (σ : Type) (ulib : URLLib) (nw : net.Network σ)
    (unixNano : Int) (cfg : Config) (st0 : σ) (s0 : Sender)
    (hNew : (NewSender ulib nw unixNano cfg st0).1 = .ok s0) :
    (s0.cfg.QoS = 0 ∨ s0.cfg.QoS = 1) ∧
    s0.conn.isSome = true ∧
    (∀ (pfx : String) (cmd : ClockCommand), strings.TrimSpace (buildTopic pfx cmd) ≠ "") ∧
    (∀ (s : Sender), s.cfg = s0.cfg →
      (∀ (cmd : ClockCommand) (payload : List Nat) (packetID : Nat),
        ∃ packet, buildPublishPacket (buildTopic s.cfg.TopicPrefix cmd) payload s.cfg.QoS
          s.cfg.Retained packetID = .ok packet) ∧
      (∀ (lib : mqtt.Stdlib) (ctx : Nat → Option GoError) (cmd : Option ClockCommand) (st : σ),
        ∀ a ∈ (s.Send nw lib ctx cmd st).attempts, ∀ e, a.publish = some (some e) →
          publishIOFailure e)) := by
  obtain ⟨hQ, hConn, _⟩ := NewSender_ok ulib nw unixNano cfg st0 s0 hNew
  refine ⟨by omega, hConn, buildTopic_not_blank, ?_⟩
  intro s hs
  have hQs : s.cfg.QoS ≤ 1 := by rw [hs]; exact hQ
  constructor
  · intro cmd payload packetID
    exact buildPublishPacket_isOk _ payload _ _ packetID (buildTopic_not_blank _ cmd) hQs
  · intro lib ctx cmd st
    unfold Sender.Send
    cases cmd with
    | none => simp
    | some c =>
      simp only []
      cases hP : buildPayload lib c with
      | error err => simp
      | ok payload =>
        simp only []
        cases hM : lib.marshal payload with
        | error err => simp
        | ok body =>
          simp only []
          exact Sender.sendLoop_publish_failure nw ctx _ body _ (buildTopic_not_blank _ c) _ 0 s
            st none [] hQs (by simp)

/-- C39 on the sender that NewSender builds for `mqtt://broker:1883` with qos 1, the broker
answering the CONNECT with a CONNACK. -/
theorem C39_publish_packet_always_built_witness :
    (NewSender fixtures.urlLib (fixtures.wire none none) 0
      (fixtures.mqttSender 1 false none 0).cfg
      { sent := [], pending := [0x20, 0x02, 0x00, 0x00] }).1 =
        .ok (fixtures.mqttSender 1 false (some ⟨1⟩) 0) ∧
    ((fixtures.mqttSender 1 false (some ⟨1⟩) 0).cfg.QoS = 0 ∨
      (fixtures.mqttSender 1 false (some ⟨1⟩) 0).cfg.QoS = 1) :=
  ⟨rfl,
    (C39_publish_packet_always_built fixtures.Wire fixtures.urlLib (fixtures.wire none none) 0
      (fixtures.mqttSender 1 false none 0).cfg
      { sent := [], pending := [0x20, 0x02, 0x00, 0x00] }
      (fixtures.mqttSender 1 false (some ⟨1⟩) 0) rfl).1⟩

end PacketAlwaysBuilt

/-! ## MQTT: a PUBLISH packet parses back -/

section PublishRoundTrip

open mqtt

/-- C37: the framing of PUBLISH round-trips.  For every topic that is not blank and has at most
65535 bytes, every payload, qos 0 or 1, retained flag and packet id, with a remaining length
of at most 268435455, buildPublishPacket returns a packet whose parsing as an MQTT PUBLISH
packet consumes it whole and gives back the same qos, the same retained flag, the bytes of the
same topic, the same packet id when the qos is above 0 (none otherwise) and the same payload;
and the remaining length decoded is the number of bytes that follow it in the packet. -/
theorem C37_publish_round_trip (topic : String) (payload : List Nat) (qos : Nat)
    (retained : Bool) (packetID : Nat) (hTopic : strings.TrimSpace topic ≠ "")
    (hLen : strings.len topic ≤ 65535) (hQos : qos = 0 ∨ qos = 1) (hID : packetID < 65536)
    (hRemaining :
      2 + strings.len topic + (if qos > 0 then 2 else 0) + payload.length ≤ 268435455) :
    ∃ packet, buildPublishPacket topic payload qos retained packetID = .ok packet ∧
      parsePublish packet =
        some ({ qos := qos, retained := retained, topic := strings.bytes topic,
                packetID := if qos > 0 then some packetID else none, payload := payload },
          2 + strings.len topic + (if qos > 0 then 2 else 0) + payload.length, []) ∧
      packet.length =
        1 + (encodeRemainingLength
            ((2 + strings.len topic + (if qos > 0 then 2 else 0) + payload.length : Nat) :
              Int)).length +
          (2 + strings.len topic + (if qos > 0 then 2 else 0) + payload.length) := by
  have hES : encodeString topic =
      [strings.len topic / 256, strings.len topic % 256] ++ strings.bytes topic := by
    rw [encodeString_eq]
    congr 2
    omega
  have hU : binary.Uint16 (strings.len topic / 256) (strings.len topic % 256) =
      strings.len topic := by
    unfold binary.Uint16
    omega
  have hUp : binary.Uint16 (packetID / 256) (packetID % 256) = packetID := by
    unfold binary.Uint16
    omega
  have hBytes : (strings.bytes topic).length = strings.len topic := rfl
  refine ⟨_, buildPublishPacket_ok topic payload qos retained packetID hTopic hQos hID, ?_, ?_⟩
  · rcases hQos with rfl | rfl
    · have hFirst : ∀ r : Bool, (0x30 ||| (0 <<< 1) ||| (if r then 1 else 0)) / 16 = 3 ∧
          (0x30 ||| (0 <<< 1) ||| (if r then 1 else 0)) / 2 % 4 = 0 ∧
          ((0x30 ||| (0 <<< 1) ||| (if r then 1 else 0)) % 2 == 1) = r := by decide
      obtain ⟨f1, f2, f3⟩ := hFirst retained
      simp only [gt_iff_lt, lt_self_iff_false, if_false, Nat.add_zero, List.append_nil] at hRemaining ⊢
      unfold parsePublish
      simp only [List.cons_append, List.nil_append, List.append_assoc]
      rw [decode_encode _ hRemaining]
      simp only [f1, f2, f3, hES, List.cons_append, List.nil_append]
      have hTake : (strings.len topic / 256 :: strings.len topic % 256 ::
          (strings.bytes topic ++ payload)).take (2 + strings.len topic + payload.length) =
          strings.len topic / 256 :: strings.len topic % 256 ::
            (strings.bytes topic ++ payload) := by
        apply List.take_of_length_le
        simp [hBytes]
        omega
      have hDrop : (strings.len topic / 256 :: strings.len topic % 256 ::
          (strings.bytes topic ++ payload)).drop (2 + strings.len topic + payload.length) =
          [] := by
        apply List.drop_of_length_le
        simp [hBytes]
        omega
      simp [hTake, hDrop, hU, hBytes]
      omega
    · have hFirst : ∀ r : Bool, (0x30 ||| (1 <<< 1) ||| (if r then 1 else 0)) / 16 = 3 ∧
          (0x30 ||| (1 <<< 1) ||| (if r then 1 else 0)) / 2 % 4 = 1 ∧
          ((0x30 ||| (1 <<< 1) ||| (if r then 1 else 0)) % 2 == 1) = r := by decide
      obtain ⟨f1, f2, f3⟩ := hFirst retained
      simp only [gt_iff_lt, Nat.lt_one_iff, Nat.zero_lt_one, if_true] at hRemaining ⊢
      unfold parsePublish
      simp only [List.cons_append, List.nil_append, List.append_assoc]
      rw [decode_encode _ hRemaining]
      simp only [f1, f2, f3, hES, List.cons_append, List.nil_append]
      have hTake : (strings.len topic / 256 :: strings.len topic % 256 ::
          (strings.bytes topic ++ (packetID / 256 :: packetID % 256 :: payload))).take
            (2 + strings.len topic + 2 + payload.length) =
          strings.len topic / 256 :: strings.len topic % 256 ::
            (strings.bytes topic ++ (packetID / 256 :: packetID % 256 :: payload)) := by
        apply List.take_of_length_le
        simp [hBytes]
        omega
      have hDrop : (strings.len topic / 256 :: strings.len topic % 256 ::
          (strings.bytes topic ++ (packetID / 256 :: packetID % 256 :: payload))).drop
            (2 + strings.len topic + 2 + payload.length) = [] := by
        apply List.drop_of_length_le
        simp [hBytes]
        omega
      simp [hTake, hDrop, hU, hUp, hBytes]
      omega
  · simp only [List.length_append, List.length_cons, List.length_nil, hES, hBytes]
    rcases hQos with rfl | rfl <;> simp <;> omega

/-- C37 on the second seed of `FuzzBuildPublishPacket`: topic `topic/b`, empty payload, qos 1,
retained, packet id 7. -/
theorem C37_publish_round_trip_witness :
    ∃ packet, buildPublishPacket "topic/b" [] 1 true 7 = .ok packet ∧
      parsePublish packet =
        some ({ qos := 1, retained := true, topic := strings.bytes "topic/b",
                packetID := if 1 > 0 then some 7 else none, payload := [] },
          2 + strings.len "topic/b" + (if 1 > 0 then 2 else 0) + ([] : List Nat).length, []) :=
  match C37_publish_round_trip "topic/b" [] 1 true 7 (by decide) (by decide) (Or.inr rfl)
      (by decide) (by decide) with
  | ⟨packet, h1, h2, _⟩ => ⟨packet, h1, h2⟩

end PublishRoundTrip

/-! ## Credentials: parsing -/

namespace strings

theorem splitChars_ne_nil (sep : Char) (l : List Char) : splitChars sep l ≠ [] := by
  induction l with
  | nil => simp [splitChars]
  | cons c cs ih =>
    unfold splitChars
    split_ifs
    · simp
    · split <;> simp

/-- What `splitChars` returns: pieces without the separator which, joined by the separator,
give the list back. -/
theorem splitChars_spec (sep : Char) (l : List Char) :
    (∀ piece ∈ splitChars sep l, sep ∉ piece) ∧
    List.intercalate [sep] (splitChars sep l) = l := by
  induction l with
  | nil => simp [splitChars, List.intercalate]
  | cons c cs ih =>
    obtain ⟨ih1, ih2⟩ := ih
    unfold splitChars
    by_cases hc : c = sep
    · subst hc
      simp only [beq_self_eq_true, if_true]
      constructor
      · intro piece hp
        rcases List.mem_cons.mp hp with rfl | hp
        · simp
        · exact ih1 piece hp
      · cases hs : splitChars c cs with
        | nil => exact absurd hs (splitChars_ne_nil c cs)
        | cons p ps =>
          rw [hs] at ih2
          rw [← ih2]
          simp [List.intercalate, List.intersperse]
    · have hb : (c == sep) = false := by simpa using hc
      simp only [hb, Bool.false_eq_true, if_false]
      cases hs : splitChars sep cs with
      | nil => exact absurd hs (splitChars_ne_nil sep cs)
      | cons p ps =>
        rw [hs] at ih1 ih2
        simp only []
        constructor
        · intro piece hp
          rcases List.mem_cons.mp hp with rfl | hp
          · intro hmem
            rcases List.mem_cons.mp hmem with h | h
            · exact hc h.symm
            · exact ih1 p (List.mem_cons_self _ _) h
          · exact ih1 piece (List.mem_cons_of_mem _ hp)
        · rw [← ih2]
          cases ps <;> simp [List.intercalate, List.intersperse]

end strings

namespace security

theorem scopesLoop_eq (parts : List String) :
    ∀ devices : List String,
      scopesLoop parts devices =
        devices ++ (parts.map strings.TrimSpace).filter (fun s => s != "") := by
  induction parts with
  | nil => intro devices; simp [scopesLoop]
  | cons p rest ih =>
    intro devices
    unfold scopesLoop
    by_cases hp : strings.TrimSpace p = ""
    · simp [hp, ih]
    · simp [hp, ih]

/-- The body of the loop returns a credential exactly on the well-formed entries. -/
theorem parseEntry_ok_iff (quote : String → String) (entry : String) :
    (∃ cred, parseEntry quote entry = .ok cred) ↔ wellFormedEntry entry := by
  unfold parseEntry wellFormedEntry
  simp only []
  rcases hS : strings.Split entry '|' with _ | ⟨a, _ | ⟨b, _ | ⟨c, _ | ⟨d, rest⟩⟩⟩⟩
  · simp
  · simp
  · simp
  · simp only [List.length_cons, List.length_nil, bne_self_eq_false, Bool.false_eq_true,
      if_false, List.getD_cons_zero, List.getD_cons_succ]
    rw [scopesLoop_eq, List.nil_append]
    constructor
    · rintro ⟨cred, h⟩
      split_ifs at h with h2 h3
      simp only [Bool.or_eq_true, beq_iff_eq, not_or] at h2
      refine ⟨a, b, c, rfl, h2.1, h2.2, ?_⟩
      have hne : List.filter (fun s => s != "")
          ((strings.Split c ',').map strings.TrimSpace) ≠ [] := by
        intro hnil
        apply h3
        rw [hnil]
        rfl
      obtain ⟨x, hx⟩ := List.exists_mem_of_ne_nil _ hne
      rw [List.mem_filter, List.mem_map] at hx
      obtain ⟨⟨scope, hs, rfl⟩, hx2⟩ := hx
      exact ⟨scope, hs, by simpa using hx2⟩
    · rintro ⟨a', b', c', heq, ha', hb', scope, hs, hne⟩
      simp only [List.cons.injEq, and_true] at heq
      obtain ⟨rfl, rfl, rfl⟩ := heq
      have hm : strings.TrimSpace scope ∈ List.filter (fun s => s != "")
          ((strings.Split c ',').map strings.TrimSpace) := by
        rw [List.mem_filter]
        exact ⟨List.mem_map_of_mem _ hs, by simpa using hne⟩
      rw [if_neg (by simp [ha', hb']), if_neg (by
        intro h0
        have := List.length_pos_of_mem hm
        simp only [beq_iff_eq] at h0
        omega)]
      exact ⟨_, rfl⟩
  · simp

/-- The credential the body of the loop returns: its id and its token are trimmed and not
empty, and it has at least one scope, every scope being trimmed and not empty. -/
theorem parseEntry_ok (quote : String → String) (entry : String) (cred : Credential)
    (h : parseEntry quote entry = .ok cred) :
    cred.ID ≠ "" ∧ strings.TrimSpace cred.ID = cred.ID ∧
    cred.Token ≠ "" ∧ strings.TrimSpace cred.Token = cred.Token ∧
    cred.Devices ≠ [] ∧
    (∀ d ∈ cred.Devices, d ≠ "" ∧ strings.TrimSpace d = d) := by
  unfold parseEntry at h
  simp only [] at h
  split_ifs at h with h1 h2 h3
  simp only [Except.ok.injEq] at h
  rw [← h]
  simp only [Bool.or_eq_true, beq_iff_eq, not_or] at h2
  refine ⟨h2.1, strings.TrimSpace_idem _, h2.2, strings.TrimSpace_idem _, ?_, ?_⟩
  · intro hnil
    apply h3
    simp only [] at hnil
    rw [hnil]
    rfl
  · intro d hd
    simp only [] at hd
    rw [scopesLoop_eq, List.nil_append, List.mem_filter, List.mem_map] at hd
    obtain ⟨⟨scope, _, rfl⟩, hne⟩ := hd
    exact ⟨by simpa using hne, strings.TrimSpace_idem _⟩

/-- The loop fails only on an entry that is not blank and on which its body fails. -/
theorem parseLoop_error (quote : String → String) (entries : List String) :
    ∀ (out : List Credential) (err : GoError), parseLoop quote entries out = .error err →
      ∃ entry ∈ entries, strings.TrimSpace entry ≠ "" ∧
        parseEntry quote (strings.TrimSpace entry) = .error err := by
  induction entries with
  | nil => intro out err h; simp [parseLoop] at h
  | cons e rest ih =>
    intro out err h
    unfold parseLoop at h
    simp only [] at h
    by_cases hb : strings.TrimSpace e = ""
    · simp only [hb, beq_self_eq_true, if_true] at h
      obtain ⟨entry, hm, h1, h2⟩ := ih out err h
      exact ⟨entry, List.mem_cons_of_mem _ hm, h1, h2⟩
    · have hb2 : (strings.TrimSpace e == "") = false := by simpa using hb
      simp only [hb2, Bool.false_eq_true, if_false] at h
      cases hp : parseEntry quote (strings.TrimSpace e) with
      | error err2 =>
        rw [hp] at h
        simp only [Except.error.injEq] at h
        exact ⟨e, List.mem_cons_self _ _, hb, by rw [hp, h]⟩
      | ok cred =>
        rw [hp] at h
        obtain ⟨entry, hm, h1, h2⟩ := ih _ err h
        exact ⟨entry, List.mem_cons_of_mem _ hm, h1, h2⟩

/-- When the loop succeeds, its body succeeded on every entry that is not blank, and the
credentials appended are those of these entries, in order. -/
theorem parseLoop_ok (quote : String → String) (entries : List String) :
    ∀ (out creds : List Credential), parseLoop quote entries out = .ok creds →
      (∀ entry ∈ entries, strings.TrimSpace entry ≠ "" →
        ∃ cred, parseEntry quote (strings.TrimSpace entry) = .ok cred) ∧
      ∃ new, creds = out ++ new ∧
        List.Forall₂ (fun entry cred => parseEntry quote entry = .ok cred)
          ((entries.map strings.TrimSpace).filter (fun s => s != "")) new := by
  induction entries with
  | nil =>
    intro out creds h
    simp only [parseLoop, Except.ok.injEq] at h
    exact ⟨by simp, [], by simp [h], by simp⟩
  | cons e rest ih =>
    intro out creds h
    unfold parseLoop at h
    simp only [] at h
    by_cases hb : strings.TrimSpace e = ""
    · simp only [hb, beq_self_eq_true, if_true] at h
      obtain ⟨h1, new, h2, h3⟩ := ih out creds h
      refine ⟨?_, new, h2, ?_⟩
      · intro entry hm hne
        rcases List.mem_cons.mp hm with rfl | hm
        · exact absurd hb hne
        · exact h1 entry hm hne
      · simpa [hb] using h3
    · have hb2 : (strings.TrimSpace e == "") = false := by simpa using hb
      simp only [hb2, Bool.false_eq_true, if_false] at h
      cases hp : parseEntry quote (strings.TrimSpace e) with
      | error err2 =>
        rw [hp] at h
        simp at h
      | ok cred =>
        rw [hp] at h
        obtain ⟨h1, new, h2, h3⟩ := ih _ creds h
        refine ⟨?_, cred :: new, by rw [h2]; simp, ?_⟩
        · intro entry hm hne
          rcases List.mem_cons.mp hm with rfl | hm
          · exact ⟨cred, hp⟩
          · exact h1 entry hm hne
        · simp only [List.map_cons, List.filter_cons, bne_iff_ne, ne_eq, hb, not_false_eq_true,
            decide_True, if_true]
          exact List.Forall₂.cons hp h3

/-- The loop succeeds when its body succeeds on every entry that is not blank. -/
theorem parseLoop_total (quote : String → String) (entries : List String) :
    ∀ (out : List Credential),
      (∀ entry ∈ entries, strings.TrimSpace entry ≠ "" →
        ∃ cred, parseEntry quote (strings.TrimSpace entry) = .ok cred) →
      ∃ creds, parseLoop quote entries out = .ok creds := by
  induction entries with
  | nil => intro out _; exact ⟨out, rfl⟩
  | cons e rest ih =>
    intro out hAll
    unfold parseLoop
    simp only []
    by_cases hb : strings.TrimSpace e = ""
    · simp only [hb, beq_self_eq_true, if_true]
      exact ih out (fun entry hm => hAll entry (List.mem_cons_of_mem _ hm))
    · have hb2 : (strings.TrimSpace e == "") = false := by simpa using hb
      simp only [hb2, Bool.false_eq_true, if_false]
      obtain ⟨cred, hp⟩ := hAll e (List.mem_cons_self _ _) hb
      rw [hp]
      exact ih _ (fun entry hm => hAll entry (List.mem_cons_of_mem _ hm))

end security

namespace security

theorem forall2_mem_right {α β : Type} (R : α → β → Prop) (l1 : List α) (l2 : List β)
    (h : List.Forall₂ R l1 l2) : ∀ y ∈ l2, ∃ x ∈ l1, R x y := by
  induction h with
  | nil => intro y hy; simp at hy
  | cons hHead _ ih =>
    intro y hy
    rcases List.mem_cons.mp hy with rfl | hy
    · exact ⟨_, List.mem_cons_self _ _, hHead⟩
    · obtain ⟨x, hm, hp⟩ := ih y hy
      exact ⟨x, List.mem_cons_of_mem _ hm, hp⟩

end security

section Credentials

open security

/-- C31: ParseCredentials fails if and only if some entry between the `;` of the trimmed input
is not blank and is not well formed: it does not have exactly three parts between `|`, or its
id or its token is blank, or it has no scope that is not blank.  Whenever it succeeds, the
credentials returned are those of the entries that are not blank, in the order of the input,
and each has an id and a token that are trimmed and not empty and at least one scope, every
scope being trimmed and not empty.  A blank input gives no credentials and no error. -/
theorem C31_parse_credentials (quote : String → String) (raw : String) :
    ((∃ err, ParseCredentials quote raw = .error err) ↔
      ∃ entry ∈ strings.Split (strings.TrimSpace raw) ';',
        strings.TrimSpace entry ≠ "" ∧ ¬ wellFormedEntry (strings.TrimSpace entry)) ∧
    (∀ creds, ParseCredentials quote raw = .ok creds →
      List.Forall₂ (fun entry cred => parseEntry quote entry = .ok cred)
        (((strings.Split (strings.TrimSpace raw) ';').map strings.TrimSpace).filter
          (fun s => s != "")) creds ∧
      (∀ cred ∈ creds,
        cred.ID ≠ "" ∧ strings.TrimSpace cred.ID = cred.ID ∧
        cred.Token ≠ "" ∧ strings.TrimSpace cred.Token = cred.Token ∧
        cred.Devices ≠ [] ∧
        (∀ d ∈ cred.Devices, d ≠ "" ∧ strings.TrimSpace d = d))) ∧
    (strings.TrimSpace raw = "" → ParseCredentials quote raw = .ok []) := by
  have hBlankSplit : strings.TrimSpace raw = "" →
      ∀ entry ∈ strings.Split (strings.TrimSpace raw) ';', strings.TrimSpace entry = "" := by
    intro hb entry hm
    rw [hb] at hm
    have : strings.Split "" ';' = [""] := rfl
    rw [this, List.mem_singleton] at hm
    rw [hm]
    rfl
  refine ⟨?_, ?_, ?_⟩
  · unfold ParseCredentials
    simp only []
    by_cases hb : strings.TrimSpace raw = ""
    · simp only [hb, beq_self_eq_true, if_true]
      constructor
      · rintro ⟨err, h⟩
        simp at h
      · rintro ⟨entry, hm, hne, _⟩
        rw [← hb] at hm
        exact absurd (hBlankSplit hb entry hm) hne
    · have hb2 : (strings.TrimSpace raw == "") = false := by simpa using hb
      simp only [hb2, Bool.false_eq_true, if_false]
      constructor
      · rintro ⟨err, h⟩
        obtain ⟨entry, hm, hne, hp⟩ := parseLoop_error quote _ [] err h
        refine ⟨entry, hm, hne, ?_⟩
        intro hw
        obtain ⟨cred, hc⟩ := (parseEntry_ok_iff quote _).mpr hw
        rw [hc] at hp
        simp at hp
      · rintro ⟨entry, hm, hne, hbad⟩
        cases hr : parseLoop quote (strings.Split (strings.TrimSpace raw) ';') [] with
        | error err => exact ⟨err, rfl⟩
        | ok creds =>
          exfalso
          obtain ⟨hAll, _⟩ := parseLoop_ok quote _ [] creds hr
          exact hbad ((parseEntry_ok_iff quote _).mp (hAll entry hm hne))
  · intro creds h
    unfold ParseCredentials at h
    simp only [] at h
    by_cases hb : strings.TrimSpace raw = ""
    · simp only [hb, beq_self_eq_true, if_true, Except.ok.injEq] at h
      subst h
      have hNil : ((strings.Split (strings.TrimSpace raw) ';').map strings.TrimSpace).filter
          (fun s => s != "") = [] := by
        rw [List.filter_eq_nil_iff]
        intro x hx
        rw [List.mem_map] at hx
        obtain ⟨entry, hm, rfl⟩ := hx
        simp [hBlankSplit hb entry hm]
      rw [hNil]
      exact ⟨List.Forall₂.nil, by simp⟩
    · have hb2 : (strings.TrimSpace raw == "") = false := by simpa using hb
      simp only [hb2, Bool.false_eq_true, if_false] at h
      obtain ⟨_, new, hEq, hF⟩ := parseLoop_ok quote _ [] creds h
      rw [List.nil_append] at hEq
      subst hEq
      refine ⟨hF, ?_⟩
      intro cred hc
      obtain ⟨entry, _, hp⟩ := forall2_mem_right _ _ _ hF cred hc
      exact parseEntry_ok quote entry cred hp
  · intro hb
    unfold ParseCredentials
    simp [hb]

/-- C31 on the input of `TestParseCredentials` and on the three inputs of
`TestParseCredentialsRejectsInvalidEntries`. -/
theorem C31_parse_credentials_witness :
    ParseCredentials fixtures.quote " ops | s3cr3t | clock-1,clock-* ; viewer|token2|* " =
      .ok [{ ID := "ops", Token := "s3cr3t", Devices := ["clock-1", "clock-*"] },
           { ID := "viewer", Token := "token2", Devices := ["*"] }] ∧
    ParseCredentials fixtures.quote "ops|secret" =
      .error (.errorString "invalid credential entry \"ops|secret\"") ∧
    ParseCredentials fixtures.quote "ops||clock-1" =
      .error (.errorString "credential id and token are required in \"ops||clock-1\"") ∧
    ParseCredentials fixtures.quote "ops|secret|, ," =
      .error (.errorString "at least one scope is required in \"ops|secret|, ,\"") ∧
    ParseCredentials fixtures.quote "   " = .ok [] :=
  ⟨rfl, rfl, rfl, rfl,
    (C31_parse_credentials fixtures.quote "   ").2.2 (by decide)⟩

end Credentials

/-! ## `clockctl`: the bearer token and the transport -/

namespace clockctl

/-- `send` with a token refuses to go on when the base URL parses, its scheme is not `https`,
the override is not set in the environment, and the test of `ensureSafeTokenTransport` on the
host fails: the error says so and no request is handed to the HTTP client. -/
theorem send_refused {π σ : Type} (c : apiClient) (lib : Stdlib π)
    (roundTrip : Request → σ → Except GoError Response × σ) (method path : String)
    (payload : π) (st : σ) (body : List Nat) (req : Request) (parsed : url.URL)
    (hToken : c.token ≠ "")
    (hEnv : lib.Getenv "CLOCKCTL_ALLOW_INSECURE_HTTP" = "")
    (hBody : lib.Marshal payload = .ok body)
    (hReq : lib.NewRequest method (c.baseURL ++ path) body = .ok req)
    (hParse : lib.Parse c.baseURL = .ok parsed)
    (hScheme : api.equalFoldASCII parsed.Scheme.data "https".data = false)
    (hHost : (api.equalFoldASCII parsed.Scheme.data "http".data &&
      isLocalHost lib parsed.Hostname) = false) :
    c.send lib roundTrip method path payload st =
      { err := some (.errorString ("refusing to send bearer token over insecure transport to " ++
          parsed.Host ++ "; set CLOCKCTL_ALLOW_INSECURE_HTTP=true to override")),
        world := st, requests := [] } ∧
    strings.Contains
      ("refusing to send bearer token over insecure transport to " ++
        parsed.Host ++ "; set CLOCKCTL_ALLOW_INSECURE_HTTP=true to override")
      "refusing to send bearer token" := by
  constructor
  · have hT : (c.token != "") = true := by simpa using hToken
    have hE : parseBoolEnv lib "CLOCKCTL_ALLOW_INSECURE_HTTP" false = false := by
      unfold parseBoolEnv
      rw [hEnv]
      rfl
    have hG : ensureSafeTokenTransport lib c.baseURL =
        some (.errorString ("refusing to send bearer token over insecure transport to " ++
          parsed.Host ++ "; set CLOCKCTL_ALLOW_INSECURE_HTTP=true to override")) := by
      unfold ensureSafeTokenTransport
      rw [hParse]
      simp [hScheme, hE, hHost, fmt.Errorf, fmt.wrapped, fmt.Sprintf, fmt.Piece.render,
        String.join]
    unfold apiClient.send
    rw [hBody]
    simp only []
    rw [hReq]
    simp only [hT, if_true, hG]
  · exact ⟨[], (" over insecure transport to " ++ parsed.Host ++
      "; set CLOCKCTL_ALLOW_INSECURE_HTTP=true to override").data, by
        simp [String.data_append]⟩

end clockctl

section TokenTransport

open clockctl

/-- C32 fails on a base URL whose host name starts with `127.` without being a loopback
address.  With the token `secret`, no override in the environment and the base URL
`http://127.evil.example:8080`, whose scheme is not https and whose host is neither
`localhost` nor `::1` nor made of digits and dots, isLocalHost answers true, so send does not
refuse: it hands the HTTP client one request for
`http://127.evil.example:8080/commands/messages` carrying `Authorization: Bearer secret`, and
returns nil when the server answers 202.  On the base URL of
`TestAPIClientRejectsInsecureTokenTransport` send refuses and issues no request. -/
theorem C32_token_sent_to_remote_host :
    fixtures.ctlLib.Getenv "CLOCKCTL_ALLOW_INSECURE_HTTP" = "" ∧
    fixtures.ctlLib.Parse "http://127.evil.example:8080" =
      .ok { Scheme := "http", Host := "127.evil.example:8080", Hostname := "127.evil.example",
            Port := "8080" } ∧
    api.equalFoldASCII "http".data "https".data = false ∧
    isLoopbackHost "127.evil.example" = false ∧
    isLocalHost fixtures.ctlLib "127.evil.example" = true ∧
    (apiClient.send { baseURL := "http://127.evil.example:8080", token := "secret" }
      fixtures.ctlLib fixtures.accepting "POST" "/commands/messages" () 0).err = none ∧
    ((apiClient.send { baseURL := "http://127.evil.example:8080", token := "secret" }
      fixtures.ctlLib fixtures.accepting "POST" "/commands/messages" () 0).requests.map
        (fun req => (req.URL, req.Header "Authorization"))) =
      [("http://127.evil.example:8080/commands/messages", "Bearer secret")] ∧
    (apiClient.send { baseURL := "http://clock-server.local", token := "secret" }
      fixtures.ctlLib fixtures.accepting "POST" "/commands/messages" () 0).requests.length = 0 ∧
    (apiClient.send { baseURL := "http://clock-server.local", token := "secret" }
      fixtures.ctlLib fixtures.accepting "POST" "/commands/messages" () 0).err =
      some (.errorString ("refusing to send bearer token over insecure transport to " ++
        "clock-server.local" ++ "; set CLOCKCTL_ALLOW_INSECURE_HTTP=true to override")) := by
  refine ⟨rfl, rfl, by decide, by decide, by decide, rfl, rfl, ?_, ?_⟩
  · rw [(send_refused { baseURL := "http://clock-server.local", token := "secret" }
      fixtures.ctlLib fixtures.accepting "POST" "/commands/messages" () 0 [0x7B, 0x7D]
      _ _ (by decide) rfl rfl rfl rfl (by decide) (by decide)).1]
    rfl
  · rw [(send_refused { baseURL := "http://clock-server.local", token := "secret" }
      fixtures.ctlLib fixtures.accepting "POST" "/commands/messages" () 0 [0x7B, 0x7D]
      _ _ (by decide) rfl rfl rfl rfl (by decide) (by decide)).1]

end TokenTransport

namespace strings

theorem bytes_append (a b : String) : bytes (a ++ b) = bytes a ++ bytes b := by
  unfold bytes
  rw [String.data_append, List.flatMap_append]

theorem len_append (a b : String) : len (a ++ b) = len a + len b := by
  unfold len
  rw [bytes_append, List.length_append]

/-- A string of letters `a` has no white space to trim. -/
theorem TrimSpace_lettersA (n : Nat) :
    TrimSpace (fixtures.lettersA n) = fixtures.lettersA n := by
  have hA : ∀ c, unicode.IsSpace c = true → c ≠ 'a' := by
    intro c hc heq
    rw [heq] at hc
    revert hc
    decide
  unfold TrimSpace trimChars fixtures.lettersA
  simp only []
  rw [trim_of_clean unicode.IsSpace (List.replicate n 'a')]
  · intro c hc h
    exact hA c hc (List.eq_of_mem_replicate (List.mem_of_mem_head? h))
  · intro c hc h
    exact hA c hc (List.eq_of_mem_replicate (List.mem_of_mem_getLast? h))

end strings

namespace mqtt

open domain

/-- The topic of a brightness command for a device id of `n` letters, under the default
prefix. -/
theorem buildTopic_lettersA (n : Nat) (level : Int) :
    buildTopic "clocks/commands"
        (.SetBrightness { DeviceID := fixtures.lettersA n, Level := level }) =
      "clocks/commands" ++ "/" ++ fixtures.lettersA n ++ "/" ++ "set_brightness" := by
  have hP : strings.Trim (strings.TrimSpace "clocks/commands") "/" = "clocks/commands" := by
    decide
  have hE : ∀ x : String, "" ++ x = x := fun x => String.ext (by simp)
  unfold buildTopic
  simp only [hP, ClockCommand.TargetDeviceID, ClockCommand.CommandType,
    strings.TrimSpace_lettersA, fmt.Sprintf, fmt.Piece.render, List.map, String.join,
    List.foldl, hE]

end mqtt

section Strings

open domain mqtt

/-- C20 does not hold of the code for strings of 65536 bytes and more.  For every string s,
encodeString(s) has length 2 + len(s) and its bytes after the first two are the bytes of s, but
its first two bytes are len(s) modulo 65536 as a big-endian 16-bit integer, the value of the
conversion `uint16(len(b))`: they give the byte length of s exactly when s has at most 65535
bytes.  A string of 65536 bytes gets the two bytes 0x00 0x00.  Such a string is reached from a
valid command: for a brightness command whose device id has 65505 bytes, the topic under the
prefix `clocks/commands` has 65536 bytes, and the PUBLISH packet built for it announces a topic
of length zero in front of the 65536 bytes of the topic. -/
theorem C20_encode_string_length_wraps :
    (∀ s : String,
      (encodeString s).length = 2 + strings.len s ∧
      (encodeString s).drop 2 = strings.bytes s ∧
      (encodeString s).take 2 = [strings.len s % 65536 / 256, strings.len s % 256] ∧
      (binary.Uint16 (strings.len s % 65536 / 256) (strings.len s % 256) = strings.len s ↔
        strings.len s ≤ 65535)) ∧
    strings.len (fixtures.lettersA 65536) = 65536 ∧
    (encodeString (fixtures.lettersA 65536)).take 2 = [0x00, 0x00] ∧
    binary.Uint16 0x00 0x00 ≠ strings.len (fixtures.lettersA 65536) ∧
    fixtures.longIdBrightness.Validate (fun _ => "") ⟨0⟩ = none ∧
    strings.len (buildTopic "clocks/commands" fixtures.longIdBrightness) = 65536 ∧
    (∀ (payload : List Nat) (retained : Bool),
      buildPublishPacket (buildTopic "clocks/commands" fixtures.longIdBrightness) payload 0
          retained 0 =
        .ok ([0x30 ||| (if retained then 1 else 0)] ++
          encodeRemainingLength ((65538 + payload.length : Nat) : Int) ++
          [0x00, 0x00] ++
          strings.bytes (buildTopic "clocks/commands" fixtures.longIdBrightness) ++
          payload)) := by
  have hl := len_lettersA 65536
  have hTopicLen : strings.len (buildTopic "clocks/commands" fixtures.longIdBrightness) =
      65536 := by
    unfold fixtures.longIdBrightness
    rw [buildTopic_lettersA, strings.len_append, strings.len_append, strings.len_append,
      strings.len_append, len_lettersA]
    have h1 : strings.len "clocks/commands" = 15 := by decide
    have h2 : strings.len "/" = 1 := by decide
    have h3 : strings.len "set_brightness" = 14 := by decide
    rw [h1, h2, h3]
  refine ⟨?_, hl, ?_, ?_, ?_, hTopicLen, ?_⟩
  · intro s
    rw [encodeString_eq]
    refine ⟨?_, rfl, rfl, ?_⟩
    · simp [strings.len]
      omega
    · unfold binary.Uint16
      omega
  · rw [encodeString_eq, hl]
    rfl
  · rw [hl]
    decide
  · unfold fixtures.longIdBrightness ClockCommand.Validate SetBrightnessCommand.Validate
    have hNe : (strings.TrimSpace (fixtures.lettersA 65505) == "") = false := by
      rw [strings.TrimSpace_lettersA]
      have : fixtures.lettersA 65505 ≠ "" := by
        intro h
        have h2 := len_lettersA 65505
        rw [h] at h2
        revert h2
        decide
      simpa using this
    simp [hNe]
  · intro payload retained
    rw [buildPublishPacket_ok _ payload 0 retained 0 (buildTopic_not_blank _ _) (Or.inl rfl)
      (by decide), encodeString_eq, hTopicLen]
    simp

end Strings

end ClockServer
